import Mathlib

/-!
Package ddataset: the dcsv row-source Dataset and the dcopy decorator

A shallow embedding of `dcsv/dcsv.go` and `dcopy/dcopy.go`.

* Go's `error` interface is `Option Error` (`none` is `nil`).
* Pointers that the code compares with `nil` (`cc.file`, `cc.reader`) are `Option`s.
* Methods with a pointer receiver that mutate it take the receiver and return the
  new receiver next to the Go result.
* `encoding/csv`, `os`, `io/ioutil` and `dlit` are outside the repository; they are
  modelled at the level of rows of cells (see `csv.Reader`, `csv.Writer`, `FS`,
  `dlit.New`).
* Where it matters what two connections share, the pointers of a `DCSVConn` are
  explicit addresses into a memory (see `dcsv.Heap`).
-/

/-! ## Collaborators outside the repository -/

/-- Error values the code can hold in a Go `error`.  `EOF` is `io.EOF`;
`ErrConnClosed`, `ErrWrongNumFields` and `ErrReleased` are the sentinel errors of
package `ddataset`; `ErrInvalid` is `os.ErrInvalid` (what `(*os.File)(nil).Close()`
returns); `csvErrFieldCount` is the `*csv.ParseError` wrapping `csv.ErrFieldCount`;
`csvParseError` is any other failure of `csv.Reader.Read`; `PathError` is an
`*os.PathError`; `Errorf` is a value built by `fmt.Errorf`.  The line and the
column that a `*csv.ParseError` names are left out: `csvErrFieldCount` and
`csvParseError` stand for the error at any position of the file, so two csv errors
that are equal here are equal up to their position. -/
inductive Error where
  | EOF
  | ErrConnClosed
  | ErrWrongNumFields
  | ErrReleased
  | ErrInvalid
  | csvErrFieldCount
  | csvParseError (msg : String)
  | PathError (op : String) (path : String) (msg : String)
  | Errorf (msg : String)
  deriving DecidableEq, Repr

namespace Error

/-- The text the method `Error()` gives for an error value. -/
def message : Error → String
  | .EOF => "EOF"
  | .ErrConnClosed => "connection has been closed"
  | .ErrWrongNumFields => "wrong number of field names for dataset"
  | .ErrReleased => "dataset has been released"
  | .ErrInvalid => "invalid argument"
  | .csvErrFieldCount => "wrong number of fields in line"
  | .csvParseError msg => msg
  | .PathError op path msg => op ++ " " ++ path ++ ": " ++ msg
  | .Errorf msg => msg

end Error

namespace dlit

/-- A `dlit.Literal` built from a cell: it keeps the cell's text, from which dlit
resolves the integer / float / string interpretation on demand. -/
structure Literal where
  s : String
  deriving DecidableEq, Repr

/-- The call `dlit.New(field)` on a string `field`: dlit never rejects a string (it
falls back to the string interpretation), so the error result is always `nil`. -/
def New (field : String) : Except Error Literal :=
  .ok ⟨field⟩

/-- The method `(*Literal).String()` on a non-nil literal. -/
def Literal.String (l : Literal) : String :=
  l.s

end dlit

namespace ddataset

/-- A `ddataset.Record`, Go's `map[string]*dlit.Literal`, as an association list
with at most one entry per key; the number of entries is its length. -/
abbrev Record := List (String × dlit.Literal)

/-- The map assignment `record[k] = v`. -/
def Record.set : Record → String → dlit.Literal → Record
  | [], k, v => [(k, v)]
  | (k', v') :: rest, k, v =>
    if k' = k then (k, v) :: rest else (k', v') :: Record.set rest k v

/-- The map read `record[k]`; `none` is the nil pointer of a missing key. -/
def Record.get : Record → String → Option dlit.Literal
  | [], _ => none
  | (k', v') :: rest, k => if k' = k then some v' else Record.get rest k

end ddataset

namespace csv

/-- One record of a delimited file as `encoding/csv` tokenises it: either its
cells, or a record the tokeniser rejects with a parse error. -/
inductive RawRow where
  | row (cells : List String)
  | malformed (msg : String)
  deriving DecidableEq, Repr

/-- A `csv.Reader` over a file: the records not yet read and `FieldsPerRecord`
(0 until the first record has been read, then that record's cell count). -/
structure Reader where
  rows : List RawRow
  FieldsPerRecord : Nat
  deriving DecidableEq, Repr

/-- The call `csv.NewReader(f)` on the records of `f`. -/
def NewReader (rows : List RawRow) : Reader :=
  { rows := rows, FieldsPerRecord := 0 }

/-- The method `(*csv.Reader).Read`: `io.EOF` at the end of the file, the parse
error of a malformed record, `csv.ErrFieldCount` for a record whose cell count
differs from `FieldsPerRecord` once that is set, the record otherwise. -/
def Reader.Read (r : Reader) : (List String × Option Error) × Reader :=
  match r.rows with
  | [] => (([], some .EOF), r)
  | .malformed msg :: rest => (([], some (.csvParseError msg)), { r with rows := rest })
  | .row cells :: rest =>
    if 0 < r.FieldsPerRecord then
      if cells.length ≠ r.FieldsPerRecord then
        ((cells, some .csvErrFieldCount), { r with rows := rest })
      else
        ((cells, none), { r with rows := rest })
    else
      ((cells, none), { rows := rest, FieldsPerRecord := cells.length })

end csv

namespace os

/-- What the file system holds for one path: the records `encoding/csv` finds in
the file, and the errors opening and closing it give (`none` for success). -/
structure FileData where
  rows : List csv.RawRow
  openErr : Option Error
  closeErr : Option Error
  deriving DecidableEq, Repr

/-- An open `*os.File`: its path, its records, and what `Close` on it returns. -/
structure File where
  name : String
  rows : List csv.RawRow
  closeErr : Option Error
  deriving DecidableEq, Repr

end os

namespace os

/-- The file system: the files by path, the directories, and the outcomes of the
calls that depend on the environment only: what `ioutil.TempDir` returns, the
errors `os.Create` and `os.RemoveAll` give for a path, the files that a failing
`os.RemoveAll` leaves behind, the error of the `n`-th write of a `csv.Writer` to its
file, and the error of the write of its flush (`none` for success). -/
structure FS where
  files : List (String × FileData)
  dirs : List String
  tempDir : Except Error String
  createErr : String → Option Error
  removeAllErr : String → Option Error
  writeErr : Nat → Option Error
  flushErr : Option Error
  removeAllKeeps : String → Bool := fun _ => false

/-- The file at a path, if there is one. -/
def FS.lookup (fs : FS) (name : String) : Option FileData :=
  (fs.files.find? (fun p => p.1 = name)).map (fun p => p.2)

/-- The call `os.Open(name)`: fails when there is no such file or when the file
cannot be opened. -/
def Open (fs : FS) (name : String) : Except Error File :=
  match fs.lookup name with
  | none => .error (.PathError "open" name "no such file or directory")
  | some fd =>
    match fd.openErr with
    | some e => .error e
    | none => .ok { name := name, rows := fd.rows, closeErr := fd.closeErr }

/-- The method `(*os.File).Close`: `os.ErrInvalid` on a nil file. -/
def File.Close : Option File → Option Error
  | none => some .ErrInvalid
  | some f => f.closeErr

end os

/-! ## Package dcsv -/

namespace dcsv

open ddataset

/-- The struct `DCSV`.  Its field `numFields` is set by `New`, the only constructor,
to `len(fieldNames)` and never assigned again; it is the function `DCSV.numFields`. -/
structure DCSV where
  filename : String
  fieldNames : List String
  hasHeader : Bool
  separator : Char
  deriving DecidableEq, Repr

/-- The field `numFields` of a `DCSV`. -/
def DCSV.numFields (c : DCSV) : Nat :=
  c.fieldNames.length

/-- The struct `DCSVConn`. -/
structure DCSVConn where
  dataset : DCSV
  file : Option os.File
  reader : Option csv.Reader
  currentRecord : Record
  err : Option Error
  deriving DecidableEq, Repr

/-- The function `New`. -/
def New (filename : String) (hasHeader : Bool) (separator : Char)
    (fieldNames : List String) : DCSV :=
  { filename := filename, fieldNames := fieldNames, hasHeader := hasHeader,
    separator := separator }

/-- The function `makeCsvReader`: open the file, and read and drop one record when
`hasHeader` is set. -/
def makeCsvReader (fs : os.FS) (filename : String) (_separator : Char) (hasHeader : Bool) :
    Except Error (os.File × csv.Reader) :=
  match os.Open fs filename with
  | .error err => .error err
  | .ok f =>
    let r := csv.NewReader f.rows
    if hasHeader then
      match r.Read with
      | ((_, some err), _) => .error err
      | ((_, none), r') => .ok (f, r')
    else
      .ok (f, r)

/-- The method `(*DCSV).Open`. -/
def DCSV.Open (fs : os.FS) (c : DCSV) : Except Error DCSVConn :=
  match makeCsvReader fs c.filename c.separator c.hasHeader with
  | .error err => .error err
  | .ok (f, r) =>
    .ok { dataset := c, file := some f, reader := some r, currentRecord := [], err := none }

/-- The method `(*DCSV).GetFieldNames`. -/
def DCSV.GetFieldNames (c : DCSV) : List String :=
  c.fieldNames

/-- The method `(*DCSVConn).Err`. -/
def DCSVConn.Err (cc : DCSVConn) : Option Error :=
  cc.err

/-- The method `(*DCSVConn).Read`. -/
def DCSVConn.Read (cc : DCSVConn) : Record :=
  cc.currentRecord

/-- The method `(*DCSVConn).Close`. -/
def DCSVConn.Close (cc : DCSVConn) : Option Error × DCSVConn :=
  let err := os.File.Close cc.file
  (err, { cc with file := none, reader := none })

/-- The method `(*DCSVConn).getNumFields`. -/
def DCSVConn.getNumFields (cc : DCSVConn) : Nat :=
  cc.dataset.numFields

/-- The method `(*DCSVConn).getFieldNames`. -/
def DCSVConn.getFieldNames (cc : DCSVConn) : List String :=
  cc.dataset.fieldNames

/-- The loop `for i, field := range row` of `makeRowCurrentRecord`, entered with
`len(row) == len(fieldNames)`: `names` are the field names from index `i` on and
`row` the cells from index `i` on.  It returns the record as the loop leaves it
and the error of `dlit.New` that stopped it, if any. -/
def fillRecord : (names row : List String) → row.length = names.length → Record →
    Record × Option Error
  | [], [], _, rec => (rec, none)
  | name :: names, field :: row, h, rec =>
    match dlit.New field with
    | .error err => (rec, some err)
    | .ok l => fillRecord names row (by simpa using h) (rec.set name l)

/-- The method `(*DCSVConn).makeRowCurrentRecord`. -/
def DCSVConn.makeRowCurrentRecord (cc : DCSVConn) (row : List String) :
    Option Error × DCSVConn :=
  let fieldNames := cc.dataset.GetFieldNames
  if h : row.length ≠ cc.getNumFields then
    let cc1 := { cc with err := some Error.ErrWrongNumFields }
    let cc2 := cc1.Close.2
    (cc2.err, cc2)
  else
    match fillRecord fieldNames row (by simpa [DCSVConn.getNumFields, DCSV.numFields,
        DCSV.GetFieldNames] using h) cc.currentRecord with
    | (rec, some err) =>
      let cc1 := ({ cc with currentRecord := rec } : DCSVConn).Close.2
      (some err, { cc1 with err := some err })
    | (rec, none) => (none, { cc with currentRecord := rec })

/-- The method `(*DCSVConn).Next`. -/
def DCSVConn.Next (cc : DCSVConn) : Bool × DCSVConn :=
  if cc.err ≠ none then
    (false, cc)
  else
    match cc.reader with
    | none => (false, { cc with err := some Error.ErrConnClosed })
    | some reader =>
      match reader.Read with
      | ((_, some .EOF), reader') => (false, { cc with reader := some reader' })
      | ((_, some err), reader') =>
        let cc1 := ({ cc with reader := some reader' } : DCSVConn).Close.2
        (false, { cc1 with err := some err })
      | ((row, none), reader') =>
        match ({ cc with reader := some reader' } : DCSVConn).makeRowCurrentRecord row with
        | (some err, cc1) =>
          let cc2 := cc1.Close.2
          (false, { cc2 with err := some err })
        | (none, cc1) => (true, cc1)

/-- The calls a holder of a connection can make. -/
inductive Op where
  | Next
  | Read
  | Err
  | Close
  deriving DecidableEq, Repr

/-- The connection after one call. -/
def DCSVConn.step (cc : DCSVConn) : Op → DCSVConn
  | .Next => cc.Next.2
  | .Read => cc
  | .Err => cc
  | .Close => cc.Close.2

/-- The connection after a sequence of calls. -/
def DCSVConn.run (cc : DCSVConn) (ops : List Op) : DCSVConn :=
  ops.foldl DCSVConn.step cc

end dcsv

/-! ## The private store of a copy: temporary directory, file and csv writer -/

namespace filepath

/-- The call `filepath.Join(dir, name)` on a clean directory path and a file name. -/
def Join (dir name : String) : String :=
  dir ++ "/" ++ name

end filepath

namespace os

/-- Whether `path` lies inside the directory `dir`. -/
def inside (dir path : String) : Bool :=
  decide ((dir ++ "/").data <+: path.data)

/-- The call `os.Create(name)`: the file is created, or emptied if it exists. -/
def Create (fs : FS) (name : String) : Except Error File × FS :=
  match fs.createErr name with
  | some err => (.error err, fs)
  | none =>
    (.ok { name := name, rows := [], closeErr := none },
      { fs with
        files := (name, { rows := [], openErr := none, closeErr := none }) ::
          fs.files.filter (fun p => p.1 ≠ name) })

/-- The call `os.RemoveAll(path)`: the directory and every file inside it are gone,
unless the removal fails.  A removal that fails "removes everything it can but
returns the first error it encounters": the directory stays, with the files inside
it that `removeAllKeeps` holds back; the other files inside it are gone. -/
def RemoveAll (fs : FS) (path : String) : Option Error × FS :=
  match fs.removeAllErr path with
  | some err =>
    (some err,
      { fs with files := fs.files.filter (fun p => ¬ inside path p.1 ∨ fs.removeAllKeeps p.1) })
  | none =>
    (none,
      { fs with
        dirs := fs.dirs.filter (fun d => d ≠ path)
        files := fs.files.filter (fun p => p.1 ≠ path ∧ ¬ inside path p.1) })

end os

namespace ioutil

/-- The call `ioutil.TempDir("", "dcopy")`: a new directory, which was no directory
before and had no file inside it, or an error. -/
def TempDir (fs : os.FS) : Except Error String × os.FS :=
  match fs.tempDir with
  | .error err => (.error err, fs)
  | .ok dir =>
    if dir ∈ fs.dirs ∨ fs.files.any (fun p => os.inside dir p.1) then
      (.error (.PathError "mkdir" dir "file exists"), fs)
    else
      (.ok dir, { fs with dirs := dir :: fs.dirs })

end ioutil

namespace csv

/-- The function `unicode.IsSpace`, by code point. -/
def isSpace (c : Char) : Bool :=
  c.toNat = 9 ∨ c.toNat = 10 ∨ c.toNat = 11 ∨ c.toNat = 12 ∨ c.toNat = 13 ∨ c.toNat = 32 ∨
    c.toNat = 133 ∨ c.toNat = 160 ∨ c.toNat = 5760 ∨ (8192 ≤ c.toNat ∧ c.toNat ≤ 8202) ∨
    c.toNat = 8232 ∨ c.toNat = 8233 ∨ c.toNat = 8239 ∨ c.toNat = 8287 ∨ c.toNat = 12288

/-- The method `(*csv.Writer).fieldNeedsQuotes` for the delimiter `,`: not the empty
field; the field of a backslash and a full stop; a field that holds the delimiter,
a quote, a carriage return or a line feed; a field that starts with a space. -/
def fieldNeedsQuotes (field : String) : Bool :=
  if field = "" then false
  else if field.data.map Char.toNat = [92, 46] then true
  else if field.data.any (fun c => c.toNat = 44 ∨ c.toNat = 34 ∨ c.toNat = 13 ∨ c.toNat = 10)
  then true
  else
    match field.data with
    | c :: _ => isSpace c
    | [] => false

/-- The number of bytes `(*csv.Writer).Write` writes for a field: the field, and for
a quoted field the two quotes around it and one more quote for each quote in it. -/
def fieldSize (field : String) : Nat :=
  if fieldNeedsQuotes field then
    field.utf8ByteSize + (field.data.filter (fun c => c.toNat = 34)).length + 2
  else
    field.utf8ByteSize

/-- The number of bytes `(*csv.Writer).Write` writes for a record: its fields, a
delimiter between two fields, and the line feed. -/
def recordSize (record : List String) : Nat :=
  (record.map fieldSize).sum + (record.length - 1) + 1

/-- What a `csv.Reader` makes of the characters of a quoted field: a carriage return
right before a line feed is dropped. -/
def dropCR : List Char → List Char
  | [] => []
  | c :: rest =>
    if c.toNat = 13 ∧ rest.head?.map Char.toNat = some 10 then dropCR rest
    else c :: dropCR rest

/-- The cell a `csv.Reader` yields for a field that a `csv.Writer` wrote. -/
def readBackCell (field : String) : String :=
  String.mk (dropCR field.data)

/-- The record a `csv.Reader` yields for a record that a `csv.Writer` wrote: none for
the record of no field and for the record of one empty field, which are written as
an empty line, and a `csv.Reader` skips empty lines. -/
def readBack (record : List String) : Option (List String) :=
  if record = [] ∨ record = [""] then none else some (record.map readBackCell)

/-- The size of the buffer of the `bufio.Writer` inside a `csv.Writer`. -/
def bufSize : Nat := 4096

/-- The number of times the buffer was written to the file when `bytes` bytes were
handed to the `bufio.Writer`: the full buffer is written when more is to come. -/
def chunks (bytes : Nat) : Nat :=
  (bytes - 1) / bufSize

/-- The first error among `n` writes of the buffer to the file from the write number
`first` on. -/
def firstWriteErr (fs : os.FS) (first : Nat) : Nat → Option Error
  | 0 => none
  | n + 1 =>
    match fs.writeErr first with
    | some err => some err
    | none => firstWriteErr fs (first + 1) n

/-- A `csv.Writer` on a file: the file's path, the records written so far, and the
error its `bufio.Writer` has met and keeps. -/
structure Writer where
  name : String
  rows : List (List String)
  err : Option Error := none
  deriving DecidableEq, Repr

/-- The call `csv.NewWriter(f)`. -/
def NewWriter (f : os.File) : Writer :=
  { name := f.name, rows := [] }

/-- The number of bytes handed to the `bufio.Writer` so far. -/
def Writer.bytes (w : Writer) : Nat :=
  (w.rows.map recordSize).sum

/-- The method `(*csv.Writer).Write`: the record goes into the buffer, and the buffer
is written to the file each time it is full and more is to come; `fs.writeErr n` is
the error of the `n`-th such write, if it fails, which the `bufio.Writer` keeps.  A
record that fits into the buffer with what is there reaches no file and cannot
fail. -/
def Writer.Write (fs : os.FS) (w : Writer) (record : List String) : Option Error × Writer :=
  match w.err with
  | some err => (some err, w)
  | none =>
    match firstWriteErr fs (chunks w.bytes)
        (chunks (w.bytes + recordSize record) - chunks w.bytes) with
    | some err => (some err, { w with err := some err })
    | none => (none, { w with rows := w.rows ++ [record] })

/-- The method `(*csv.Writer).Error` after `Flush`: the error the `bufio.Writer`
keeps, or the error of the write of the rest of the buffer to the file by `Flush`,
which writes nothing when nothing was written. -/
def Writer.Error (fs : os.FS) (w : Writer) : Option Error :=
  match w.err with
  | some err => some err
  | none => if w.bytes = 0 then none else fs.flushErr

/-- The method `(*csv.Writer).Flush`: the records written reach the file, as a
`csv.Reader` will read them, unless a write has failed or the flush fails. -/
def Writer.Flush (fs : os.FS) (w : Writer) : os.FS :=
  match w.Error fs with
  | some _ => fs
  | none =>
    { fs with
      files := fs.files.map (fun p =>
        if p.1 = w.name then
          (p.1, { p.2 with rows := (w.rows.filterMap readBack).map RawRow.row })
        else p) }

end csv

/-! ## Package dcopy -/

namespace dcopy

open ddataset

/-- The struct `DCopy`.  Its field `dataset` holds the value of `dcsv.New` that `New`
puts there. -/
structure DCopy where
  dataset : dcsv.DCSV
  tmpDir : String
  isReleased : Bool
  deriving DecidableEq, Repr

/-- The struct `DCopyConn`; its field `conn` is the connection `DCopy.Open` got from
the `DCSV` of the copy. -/
structure DCopyConn where
  conn : dcsv.DCSVConn
  err : Option Error
  deriving DecidableEq, Repr

/-- The implementations of the interface `ddataset.Dataset` in these packages. -/
inductive Dataset where
  | dcsv (d : dcsv.DCSV)
  | dcopy (d : DCopy)
  deriving DecidableEq, Repr

/-- The implementations of the interface `ddataset.Conn` in these packages. -/
inductive Conn where
  | dcsv (c : dcsv.DCSVConn)
  | dcopy (c : DCopyConn)
  deriving DecidableEq, Repr

/-- The method `(*DCopy).Open`. -/
def DCopy.Open (fs : os.FS) (d : DCopy) : Except Error DCopyConn :=
  if d.isReleased then
    .error .ErrReleased
  else
    match dcsv.DCSV.Open fs d.dataset with
    | .error err => .error err
    | .ok conn => .ok { conn := conn, err := none }

/-- The method `(*DCopy).Fields`. -/
def DCopy.Fields (d : DCopy) : List String :=
  if d.isReleased then [] else d.dataset.GetFieldNames

/-- The method `(*DCopy).Release`. -/
def DCopy.Release (fs : os.FS) (d : DCopy) : Option Error × DCopy × os.FS :=
  if ¬ d.isReleased then
    let d1 := { d with isReleased := true }
    let r := os.RemoveAll fs d.tmpDir
    (r.1, d1, r.2)
  else
    (some .ErrReleased, d, fs)

/-- The method `(*DCopyConn).Next`. -/
def DCopyConn.Next (c : DCopyConn) : Bool × DCopyConn :=
  (c.conn.Next.1, { c with conn := c.conn.Next.2 })

/-- The method `(*DCopyConn).Err`. -/
def DCopyConn.Err (c : DCopyConn) : Option Error :=
  c.conn.Err

/-- The method `(*DCopyConn).Read`. -/
def DCopyConn.Read (c : DCopyConn) : Record :=
  c.conn.Read

/-- The method `(*DCopyConn).Close`. -/
def DCopyConn.Close (c : DCopyConn) : Option Error × DCopyConn :=
  (c.conn.Close.1, { c with conn := c.conn.Close.2 })

/-- The interface method `Dataset.Fields`; for a `DCSV` it is the declared field
names (`GetFieldNames`). -/
def Dataset.Fields : Dataset → List String
  | .dcsv d => d.GetFieldNames
  | .dcopy d => d.Fields

/-- The interface method `Dataset.Open`. -/
def Dataset.Open (fs : os.FS) : Dataset → Except Error Conn
  | .dcsv d =>
    match dcsv.DCSV.Open fs d with
    | .error err => .error err
    | .ok c => .ok (.dcsv c)
  | .dcopy d =>
    match DCopy.Open fs d with
    | .error err => .error err
    | .ok c => .ok (.dcopy c)

/-- The interface method `Conn.Next`. -/
def Conn.Next : Conn → Bool × Conn
  | .dcsv c => (c.Next.1, .dcsv c.Next.2)
  | .dcopy c => (c.Next.1, .dcopy c.Next.2)

/-- The interface method `Conn.Err`. -/
def Conn.Err : Conn → Option Error
  | .dcsv c => c.Err
  | .dcopy c => c.Err

/-- The interface method `Conn.Read`. -/
def Conn.Read : Conn → Record
  | .dcsv c => c.Read
  | .dcopy c => c.Read

/-- The interface method `Conn.Close`. -/
def Conn.Close : Conn → Option Error × Conn
  | .dcsv c => (c.Close.1, .dcsv c.Close.2)
  | .dcopy c => (c.Close.1, .dcopy c.Close.2)

/-- The number of records the reader of a connection has not read yet. -/
def Conn.remaining : Conn → Nat
  | .dcsv c => (c.reader.map (fun r => r.rows.length)).getD 0
  | .dcopy c => (c.conn.reader.map (fun r => r.rows.length)).getD 0

/-- The inner loop of `New`, `strRecord[i] = record[f].String()` for every field:
`none` when a field has no entry in the record (the nil literal is dereferenced). -/
def strRecord : List String → Record → Option (List String)
  | [], _ => some []
  | f :: fields, record =>
    match record.get f with
    | none => none
    | some l =>
      match strRecord fields record with
      | none => none
      | some row => some (l.String :: row)

/-- How the loop `for conn.Next()` of `New` ends: the connection returned false,
a write failed, a nil literal was dereferenced, or the bound on the number of
iterations of this model was reached. -/
inductive LoopEnd where
  | done (conn : Conn) (w : csv.Writer)
  | writeFailed (err : Error)
  | nilDeref
  | bound
  deriving DecidableEq, Repr

/-- The loop `for conn.Next()` of `New`, for at most `n` calls of `Next`. -/
def copyRecords (fs : os.FS) (fields : List String) : Nat → Conn → csv.Writer → LoopEnd
  | 0, _, _ => .bound
  | n + 1, conn, w =>
    match conn.Next with
    | (false, conn1) => .done conn1 w
    | (true, conn1) =>
      match strRecord fields conn1.Read with
      | none => .nilDeref
      | some row =>
        match w.Write fs row with
        | (some err, _) => .writeFailed err
        | (none, w1) => copyRecords fs fields n conn1 w1

/-- What a call of `New` gives: a dataset, an error, a run-time panic, or no
result within the bound of this model. -/
inductive NewResult where
  | dataset (d : DCopy)
  | error (err : Error)
  | panics
  | bound
  deriving DecidableEq, Repr

/-- The function `New`.  The loop gets one call of `Next` more than the source
reader has records left, which is as many as it can make.  The deferred `Close`
calls change the local file handle and connection only. -/
def New (fs : os.FS) (dataset : Dataset) : NewResult × os.FS :=
  match ioutil.TempDir fs with
  | (.error err, fs1) => (.error err, fs1)
  | (.ok tmpDir, fs1) =>
    let copyFilename := filepath.Join tmpDir "copy.csv"
    match os.Create fs1 copyFilename with
    | (.error err, fs2) => (.error err, fs2)
    | (.ok f, fs2) =>
      let w := csv.NewWriter f
      match dataset.Open fs2 with
      | .error err => (.error err, (os.RemoveAll fs2 tmpDir).2)
      | .ok conn =>
        match copyRecords fs2 dataset.Fields (conn.remaining + 1) conn w with
        | .bound => (.bound, fs2)
        | .nilDeref => (.panics, fs2)
        | .writeFailed err =>
          (.error (.Errorf ("error writing record to csv copy: " ++ err.message)),
            (os.RemoveAll fs2 tmpDir).2)
        | .done conn1 w1 =>
          match conn1.Err with
          | some err => (.error err, (os.RemoveAll fs2 tmpDir).2)
          | none =>
            let fs3 := w1.Flush fs2
            match w1.Error fs3 with
            | some err => (.error err, (os.RemoveAll fs3 tmpDir).2)
            | none =>
              (.dataset { dataset := dcsv.New copyFilename false ',' dataset.Fields
                          tmpDir := tmpDir
                          isReleased := false },
                fs3)

/-- The loop of `getRecords`, with `left` for `num - n`; the `Clone` of a record is
the record. -/
def getRecordsLoop : Nat → Conn → List Record → List Record × Conn
  | 0, conn, records => (records, conn)
  | left + 1, conn, records =>
    match conn.Next with
    | (false, conn1) => (records, conn1)
    | (true, conn1) => getRecordsLoop left conn1 (records ++ [conn1.Read])

/-- The function `getRecords`. -/
def getRecords (conn : Conn) (num : Nat) : List Record × Option Error :=
  let r := getRecordsLoop num conn []
  (r.1, r.2.Err)

/-- The cell `New` writes for the field `f` of a record that has an entry for `f`. -/
def cell (record : Record) (f : String) : String :=
  match record.get f with
  | some l => l.String
  | none => ""

/-- The path of the file a dataset reads. -/
def Dataset.filename : Dataset → String
  | .dcsv d => d.filename
  | .dcopy d => d.dataset.filename

/-- The file system in which `New` opens its source: the temporary directory `dir`
and the empty copy file have been created. -/
def storeFS (fs : os.FS) (dir : String) : os.FS :=
  (os.Create { fs with dirs := dir :: fs.dirs } (filepath.Join dir "copy.csv")).2

/-- The writer of `New` after the records `rs` of the fields `fields` were written. -/
def storeWriter (dir : String) (fields : List String) (rs : List Record) : csv.Writer :=
  { name := filepath.Join dir "copy.csv", rows := rs.map (fun r => fields.map (cell r)) }

/-- The `DCSVConn` behind a connection. -/
def Conn.inner : Conn → dcsv.DCSVConn
  | .dcsv c => c
  | .dcopy c => c.conn

/-- A drain: `Next` on `conn` returns true once for each record of `records`, which
`Read` then returns, and then returns false, leaving the connection `last`. -/
inductive Drains : Conn → List Record → Conn → Prop where
  | stop (conn last : Conn) (h : conn.Next = (false, last)) : Drains conn [] last
  | more (conn conn1 last : Conn) (records : List Record) (h : conn.Next = (true, conn1))
      (rest : Drains conn1 records last) : Drains conn (conn1.Read :: records) last

end dcopy

/-- The reader after `n` calls of `Read`. -/
def csv.Reader.after (r : csv.Reader) : Nat → csv.Reader
  | 0 => r
  | n + 1 => (r.Read.2).after n

/-- The current record of a connection has distinct keys, all of them declared
field names. -/
def dcsv.DCSVConn.recordInv (cc : dcsv.DCSVConn) : Prop :=
  (cc.currentRecord.map Prod.fst).Nodup ∧
    ∀ x, x ∈ cc.currentRecord.map Prod.fst → x ∈ cc.dataset.fieldNames

/-- The connection after `n` further calls of `Next`. -/
def dcsv.DCSVConn.afterNext (cc : dcsv.DCSVConn) : Nat → dcsv.DCSVConn
  | 0 => cc
  | n + 1 => (cc.Next.2).afterNext n

/-! ## Sample inputs -/

namespace sample

/-- A file of three records of three cells and then a record of four cells. -/
def rows : List csv.RawRow :=
  [.row ["f1", "f2", "f3"], .row ["1", "2", "3"], .row ["7", "8", "9"],
   .row ["4", "5", "bad", "6"]]

/-- A file system holding `rows` at `data.csv` and a file whose second record is
malformed at `broken.csv`. -/
def fs : os.FS :=
  { files := [("data.csv", { rows := rows, openErr := none, closeErr := none }),
              ("broken.csv", { rows := [.row ["1", "2"], .malformed "bare quote"],
                               openErr := none, closeErr := none })]
    dirs := []
    tempDir := .ok "/tmp/dcopy1"
    createErr := fun _ => none
    removeAllErr := fun _ => none
    writeErr := fun _ => none
    flushErr := none }

/-- A dataset of three fields on `data.csv`, header skipped. -/
def ds : dcsv.DCSV :=
  dcsv.New "data.csv" true ',' ["a", "b", "c"]

/-- A connection as `Open` returns it for `ds`. -/
def conn : dcsv.DCSVConn :=
  { dataset := ds
    file := some { name := "data.csv", rows := rows, closeErr := none }
    reader := some { rows := rows.tail, FieldsPerRecord := 3 }
    currentRecord := []
    err := none }

/-- A dataset of two fields on `broken.csv`, no header. -/
def dsBroken : dcsv.DCSV :=
  dcsv.New "broken.csv" false ',' ["x", "y"]

/-- A connection as `Open` returns it for `dsBroken`. -/
def connBroken : dcsv.DCSVConn :=
  { dataset := dsBroken
    file := some { name := "broken.csv", rows := [.row ["1", "2"], .malformed "bare quote"],
                   closeErr := none }
    reader := some { rows := [.row ["1", "2"], .malformed "bare quote"], FieldsPerRecord := 0 }
    currentRecord := []
    err := none }

/-- A dataset whose first two field names are the same. -/
def dsDup : dcsv.DCSV :=
  dcsv.New "data.csv" true ',' ["a", "a", "c"]

/-- A dataset on the two good data rows of a file of three-cell rows. -/
def fsGood : os.FS :=
  { fs with
    files := [("good.csv", { rows := [.row ["1", "2", "3"], .row ["x", "5.5", ""]],
                             openErr := none, closeErr := none })] }

/-- A dataset of three fields on `good.csv`, no header. -/
def dsGood : dcsv.DCSV :=
  dcsv.New "good.csv" false ',' ["a", "b", "c"]

/-- The connection `Open` returns for `dsGood` in `fsGood`. -/
def connGood : dcsv.DCSVConn :=
  { dataset := dsGood
    file := some { name := "good.csv", rows := [.row ["1", "2", "3"], .row ["x", "5.5", ""]],
                   closeErr := none }
    reader := some { rows := [.row ["1", "2", "3"], .row ["x", "5.5", ""]],
                     FieldsPerRecord := 0 }
    currentRecord := []
    err := none }

/-- The records a drain of `connGood` yields. -/
def rsGood : List ddataset.Record :=
  [[("a", ⟨"1"⟩), ("b", ⟨"2"⟩), ("c", ⟨"3"⟩)], [("a", ⟨"x"⟩), ("b", ⟨"5.5"⟩), ("c", ⟨""⟩)]]

/-- The records a drain of `conn` yields before it latches an error. -/
def rsData : List ddataset.Record :=
  [[("a", ⟨"1"⟩), ("b", ⟨"2"⟩), ("c", ⟨"3"⟩)], [("a", ⟨"7"⟩), ("b", ⟨"8"⟩), ("c", ⟨"9"⟩)]]

/-- The file system `fsGood` when no temporary directory can be created. -/
def fsNoTemp : os.FS :=
  { fsGood with tempDir := .error (.PathError "mkdir" "/tmp/dcopy1" "no space left on device") }

/-- The file system `fs` when the copy file cannot be created. -/
def fsNoCreate : os.FS :=
  { fs with createErr := fun _ => some (.PathError "open" "/tmp/dcopy1/copy.csv"
      "too many open files") }

end sample

/-! ## Sample inputs: the scenario of a row with a cell too many -/

namespace sample

/-- A file system holding at `scenario.csv` a header of three cells and the data
rows `1,2,3` and `4,5,bad,6`. -/
def fsScenario : os.FS :=
  { fs with
    files := [("scenario.csv",
      { rows := [.row ["f1", "f2", "f3"], .row ["1", "2", "3"], .row ["4", "5", "bad", "6"]],
        openErr := none, closeErr := none })] }

/-- A dataset of the three fields `f1`, `f2`, `f3` on `scenario.csv`, header
skipped, delimiter `,`. -/
def dsScenario : dcsv.DCSV :=
  dcsv.New "scenario.csv" true ',' ["f1", "f2", "f3"]

/-- The connection `Open` returns for `dsScenario`. -/
def connScenario : dcsv.DCSVConn :=
  { dataset := dsScenario
    file := some { name := "scenario.csv",
                   rows := [.row ["f1", "f2", "f3"], .row ["1", "2", "3"],
                            .row ["4", "5", "bad", "6"]],
                   closeErr := none }
    reader := some { rows := [.row ["1", "2", "3"], .row ["4", "5", "bad", "6"]],
                     FieldsPerRecord := 3 }
    currentRecord := []
    err := none }

end sample

/-! ## Several connections, counting records, and changes to a file -/

namespace dcsv

open ddataset

/-- What a call on a connection gives back to the caller. -/
inductive OpResult where
  | Next (more : Bool)
  | Read (record : Record)
  | Err (err : Option Error)
  | Close (err : Option Error)
  deriving DecidableEq, Repr

/-- One call on a connection: what it gives back and the connection after it. -/
def DCSVConn.call (cc : DCSVConn) : Op → OpResult × DCSVConn
  | .Next => (.Next cc.Next.1, cc.Next.2)
  | .Read => (.Read cc.Read, cc)
  | .Err => (.Err cc.Err, cc)
  | .Close => (.Close cc.Close.1, cc.Close.2)

/-- A sequence of calls on one connection: what each call gives back, and the
connection after them. -/
def DCSVConn.calls (cc : DCSVConn) : List Op → List OpResult × DCSVConn
  | [] => ([], cc)
  | op :: ops =>
    let r := cc.call op
    let rest := r.2.calls ops
    (r.1 :: rest.1, rest.2)

/-- The loop `for conn.Next()` of a scan that counts records, for at most `n` calls
of `Next`: the count and the connection when `Next` returned false. -/
def scan : Nat → DCSVConn → Nat → Nat × DCSVConn
  | 0, cc, count => (count, cc)
  | n + 1, cc, count =>
    match cc.Next with
    | (false, cc1) => (count, cc1)
    | (true, cc1) => scan n cc1 (count + 1)

/-- Modelled from the spec: the method `NumRecords` of the row-source dataset, which
dcsv.go does not have: "performs a full open/scan/close and returns the count of
successful rows, or the negative sentinel if the scan latches an error before
reaching end of source" (spec 4.3); a source that cannot be opened has no count
either.  The scan gets one call of `Next` more than the reader has records. -/
def NumRecords (fs : os.FS) (c : DCSV) : Int :=
  match DCSV.Open fs c with
  | .error _ => -1
  | .ok conn =>
    let r := scan ((conn.reader.map (fun r => r.rows.length)).getD 0 + 1) conn 0
    let closed := r.2.Close.2
    match closed.Err with
    | some _ => -1
    | none => (r.1 : Int)

/-- The first of the records `rows`, if there is one and it is well formed, has `n`
cells. -/
def headCount : List csv.RawRow → Nat → Prop
  | .row cells :: _, n => cells.length = n
  | _, _ => True

/-- Two csv readers that yield the same results from here on: they have the same
records left and the same `FieldsPerRecord`, or the second has none yet and the
next record of the first, if it is well formed, has the cell count the first
expects. -/
def readerSim (r1 r2 : csv.Reader) : Prop :=
  r1.rows = r2.rows ∧
    (r1.FieldsPerRecord = r2.FieldsPerRecord ∨
      (r2.FieldsPerRecord = 0 ∧ headCount r1.rows r1.FieldsPerRecord))

/-- Two connections that yield the same results from here on: same field names,
current record and latched error, and readers that are both cleared or yield the
same results. -/
def connSim (c1 c2 : DCSVConn) : Prop :=
  c1.dataset.fieldNames = c2.dataset.fieldNames ∧ c1.currentRecord = c2.currentRecord ∧
    c1.err = c2.err ∧
    match c1.reader, c2.reader with
    | none, none => True
    | some r1, some r2 => readerSim r1 r2
    | _, _ => False

end dcsv

namespace os

/-- A later state of the file system: the file at `name`, if there is one, holds
the records `rows`. -/
def FS.setRows (fs : FS) (name : String) (rows : List csv.RawRow) : FS :=
  { fs with
    files := fs.files.map (fun p => if p.1 = name then (p.1, { p.2 with rows := rows }) else p) }

end os

namespace sample

/-- A file system holding a header of two cells over a row of three cells at
`header2.csv`, that row alone at `noheader.csv`, a header alone at
`headeronly.csv`, and a header of three cells over that row at `header3.csv`. -/
def fsHeader : os.FS :=
  { fs with
    files := [("header2.csv", { rows := [.row ["h1", "h2"], .row ["1", "2", "3"]],
                                openErr := none, closeErr := none }),
              ("noheader.csv", { rows := [.row ["1", "2", "3"]],
                                 openErr := none, closeErr := none }),
              ("headeronly.csv", { rows := [.row ["f1", "f2", "f3"]],
                                   openErr := none, closeErr := none }),
              ("header3.csv", { rows := [.row ["h1", "h2", "h3"], .row ["1", "2", "3"]],
                                openErr := none, closeErr := none })] }

end sample

namespace sample

/-- A dataset of three fields on `headeronly.csv`, header skipped. -/
def dsHeaderOnly : dcsv.DCSV :=
  dcsv.New "headeronly.csv" true ',' ["f1", "f2", "f3"]

/-- The connection `Open` returns for `dsHeaderOnly`. -/
def connHeaderOnly : dcsv.DCSVConn :=
  { dataset := dsHeaderOnly
    file := some { name := "headeronly.csv", rows := [.row ["f1", "f2", "f3"]],
                   closeErr := none }
    reader := some { rows := [], FieldsPerRecord := 3 }
    currentRecord := []
    err := none }

end sample

/-! ## Release of a row-source dataset, and package dtruncate -/

namespace dcsv

/-- Modelled from the spec: the method `Release` of the row-source dataset and the
released flag it flips, neither of which dcsv.go has: "on first call, releases all
resources (for a row-source backing implementation, closes nothing persistent) and
flips the released flag", and "fails with Released if already released" (spec 4.1).
It takes the flag and returns the error and the flag after the call. -/
def Release (isReleased : Bool) : Option Error × Bool :=
  if ¬ isReleased then (none, true) else (some .ErrReleased, isReleased)

end dcsv

namespace dtruncate

open ddataset

/-- Modelled from the spec: the variants of a Dataset (spec 2 and 9): the row-source
`DCSV` of dcsv.go with the released flag of spec 3, the `DCopy` of dcopy.go, and the
truncating decorator of the missing dtruncate.go, which holds its inner dataset and
the limit `numRecords` (spec 3, "Truncate's limit"). -/
inductive Dataset where
  | dcsv (d : dcsv.DCSV) (isReleased : Bool)
  | dcopy (d : dcopy.DCopy)
  | dtruncate (dataset : Dataset) (numRecords : Nat)
  deriving DecidableEq, Repr

/-- Modelled from the spec: the variants of a Connection: a connection of dcsv.go or
dcopy.go, and the truncating connection of the missing dtruncate.go, which wraps
the inner connection "with a per-Connection counter" (spec 4.5) next to the limit. -/
inductive Conn where
  | base (c : dcopy.Conn)
  | dtruncate (conn : Conn) (numRecords : Nat) (count : Nat)
  deriving DecidableEq, Repr

/-- Modelled from the spec: `Construct(source, limit)` of the missing dtruncate.go:
"Never fails (pure wrapping, no I/O at construction)" (spec 4.5). -/
def New (dataset : Dataset) (numRecords : Nat) : Dataset :=
  .dtruncate dataset numRecords

/-- Modelled from the spec: `Fields` of a dataset; for the truncating decorator of
the missing dtruncate.go it "delegates verbatim" (spec 4.5); for `DCSV` and `DCopy`
it is the method of dcsv.go (`GetFieldNames`) and of dcopy.go. -/
def Dataset.Fields : Dataset → List String
  | .dcsv d _ => d.GetFieldNames
  | .dcopy d => d.Fields
  | .dtruncate dataset _ => dataset.Fields

/-- Modelled from the spec: `Open` of a dataset; for the truncating decorator of the
missing dtruncate.go it "delegates to inner Open; wraps the returned Connection
with a per-Connection counter initialized to zero" (spec 4.5); for `DCSV` and
`DCopy` it is the method of dcsv.go and of dcopy.go. -/
def Dataset.Open (fs : os.FS) : Dataset → Except Error Conn
  | .dcsv d _ =>
    match dcsv.DCSV.Open fs d with
    | .error err => .error err
    | .ok c => .ok (.base (.dcsv c))
  | .dcopy d =>
    match dcopy.DCopy.Open fs d with
    | .error err => .error err
    | .ok c => .ok (.base (.dcopy c))
  | .dtruncate dataset numRecords =>
    match dataset.Open fs with
    | .error err => .error err
    | .ok conn => .ok (.dtruncate conn numRecords 0)

/-- Modelled from the spec: `Release` of a dataset; for the truncating decorator of
the missing dtruncate.go it "delegates to inner Release (Truncate owns no private
resource of its own)" (spec 4.5); for `DCSV` it is `dcsv.Release`, for `DCopy` the
method of dcopy.go.  It returns the error, the dataset and the file system after
the call. -/
def Dataset.Release (fs : os.FS) : Dataset → Option Error × Dataset × os.FS
  | .dcsv d isReleased => ((dcsv.Release isReleased).1, .dcsv d (dcsv.Release isReleased).2, fs)
  | .dcopy d => ((d.Release fs).1, .dcopy (d.Release fs).2.1, (d.Release fs).2.2)
  | .dtruncate dataset numRecords =>
    let r := dataset.Release fs
    (r.1, .dtruncate r.2.1 numRecords, r.2.2)

/-- Modelled from the spec: `Next` of a connection; for the truncating connection of
the missing dtruncate.go: "if the counter has already reached limit, returns false
immediately without consulting the inner Connection.  Otherwise delegates to inner
Next; on true, increments the counter" (spec 4.5). -/
def Conn.Next : Conn → Bool × Conn
  | .base c => (c.Next.1, .base c.Next.2)
  | .dtruncate conn numRecords count =>
    if numRecords ≤ count then
      (false, .dtruncate conn numRecords count)
    else
      match conn.Next with
      | (true, conn1) => (true, .dtruncate conn1 numRecords (count + 1))
      | (false, conn1) => (false, .dtruncate conn1 numRecords count)

/-- Modelled from the spec: `Read` of a connection; the truncating connection of the
missing dtruncate.go delegates verbatim (spec 4.5). -/
def Conn.Read : Conn → Record
  | .base c => c.Read
  | .dtruncate conn _ _ => conn.Read

/-- Modelled from the spec: `Err` of a connection; the truncating connection of the
missing dtruncate.go delegates verbatim (spec 4.5). -/
def Conn.Err : Conn → Option Error
  | .base c => c.Err
  | .dtruncate conn _ _ => conn.Err

/-- Modelled from the spec: `Close` of a connection; the truncating connection of
the missing dtruncate.go delegates verbatim (spec 4.5). -/
def Conn.Close : Conn → Option Error × Conn
  | .base c => (c.Close.1, .base c.Close.2)
  | .dtruncate conn numRecords count => (conn.Close.1, .dtruncate conn.Close.2 numRecords count)

/-- Whether a dataset has been released: the flag of the `DCSV` or `DCopy` at its
core. -/
def Dataset.isReleased : Dataset → Bool
  | .dcsv _ isReleased => isReleased
  | .dcopy d => d.isReleased
  | .dtruncate dataset _ => dataset.isReleased

/-- The private store of a dataset: the temporary directory of the `DCopy` at its
core, if that is what is at its core. -/
def Dataset.store : Dataset → Option String
  | .dcsv _ _ => none
  | .dcopy d => some d.tmpDir
  | .dtruncate dataset _ => dataset.store

/-- The loop of `getRecords` of dcopy.go on any connection, with `left` for
`num - n`. -/
def getRecordsLoop : Nat → Conn → List Record → List Record × Conn
  | 0, conn, records => (records, conn)
  | left + 1, conn, records =>
    match conn.Next with
    | (false, conn1) => (records, conn1)
    | (true, conn1) => getRecordsLoop left conn1 (records ++ [conn1.Read])

/-- The function `getRecords` of dcopy.go on any connection. -/
def getRecords (conn : Conn) (num : Nat) : List Record × Option Error :=
  let r := getRecordsLoop num conn []
  (r.1, r.2.Err)

/-- A drain of any connection: `Next` returns true once for each record of `records`,
which `Read` then returns, and then returns false, leaving the connection `last`. -/
inductive Drains : Conn → List Record → Conn → Prop where
  | stop (conn last : Conn) (h : conn.Next = (false, last)) : Drains conn [] last
  | more (conn conn1 last : Conn) (records : List Record) (h : conn.Next = (true, conn1))
      (rest : Drains conn1 records last) : Drains conn (conn1.Read :: records) last

end dtruncate

namespace sample

/-- A copy whose private store is the directory `/tmp/dcopy1`. -/
def copy : dcopy.DCopy :=
  { dataset := dcsv.New "/tmp/dcopy1/copy.csv" false ',' ["a", "b", "c"]
    tmpDir := "/tmp/dcopy1"
    isReleased := false }

/-- The file system `fs` when the directory `/tmp/dcopy1` cannot be removed. -/
def fsNoRemove : os.FS :=
  { fs with removeAllErr := fun _ => some (.PathError "unlinkat" "/tmp/dcopy1"
      "permission denied") }

end sample

/-! ## Invariants of a connection, and the count of a truncated dataset -/

namespace dcsv

/-- A connection with a latched error is closed, and its reader is cleared exactly
when its file is. -/
def DCSVConn.closedInv (cc : DCSVConn) : Prop :=
  (cc.err ≠ none → cc.reader = none ∧ cc.file = none) ∧ (cc.reader = none ↔ cc.file = none)

/-- Every `Next` among the calls `ops`, made in turn from the connection `cc`,
returns false. -/
def allNextFalse : DCSVConn → List Op → Prop
  | _, [] => True
  | cc, op :: ops => (op = .Next → cc.Next.1 = false) ∧ allNextFalse (cc.step op) ops

end dcsv

namespace dtruncate

/-- Modelled from the spec: `NumRecords` of a dataset, which none of dcsv.go,
dcopy.go and the missing dtruncate.go has.  For the truncating decorator it is
"`min(inner.NumRecords(), limit)` if inner's result is non-negative, else
propagates inner's sentinel unchanged" (spec 4.5; spec 3, "Truncate's limit").  For
the row source it is `dcsv.NumRecords` (spec 4.3), and for a `DCopy` the count of
its private inner dataset: "`Fields`, `NumRecords`, `Open` all simply delegate to
the private inner Dataset" (spec 4.4). -/
def Dataset.NumRecords (fs : os.FS) : Dataset → Int
  | .dcsv d _ => dcsv.NumRecords fs d
  | .dcopy d => dcsv.NumRecords fs d.dataset
  | .dtruncate dataset numRecords =>
    let inner := dataset.NumRecords fs
    if 0 ≤ inner then min inner (numRecords : Int) else inner

end dtruncate

namespace sample

/-- A file system holding a file without any record at `empty.csv` and a file whose
first record is malformed at `badfirst.csv`. -/
def fsEmpty : os.FS :=
  { fs with
    files := [("empty.csv", { rows := [], openErr := none, closeErr := none }),
              ("badfirst.csv", { rows := [.malformed "bare quote", .row ["1", "2"]],
                                 openErr := none, closeErr := none })] }

end sample

namespace dcsv

/-- Whether every `Next` among the calls returns false can be computed. -/
instance allNextFalse.decidable : (cc : DCSVConn) → (ops : List Op) →
    Decidable (allNextFalse cc ops)
  | _, [] => isTrue True.intro
  | cc, op :: ops =>
    have := allNextFalse.decidable (cc.step op) ops
    inferInstanceAs (Decidable ((op = .Next → cc.Next.1 = false) ∧ allNextFalse (cc.step op) ops))

end dcsv

namespace sample

end sample

namespace sample

/-- A file system holding at `blank.csv` a file of one column whose second record
is one empty cell (the line of two quotes), and at `crlf.csv` a file whose record
has a cell with a carriage return right before a line feed. -/
def fsBlank : os.FS :=
  { fs with
    files := [("blank.csv", { rows := [.row ["x"], .row [""]],
                              openErr := none, closeErr := none }),
              ("crlf.csv", { rows := [.row ["a\r\nb", "c"]],
                             openErr := none, closeErr := none })] }

/-- A dataset of one field on `blank.csv`, no header. -/
def dsBlank : dcsv.DCSV :=
  dcsv.New "blank.csv" false ',' ["a"]

/-- A dataset of two fields on `crlf.csv`, no header. -/
def dsCrlf : dcsv.DCSV :=
  dcsv.New "crlf.csv" false ',' ["a", "b"]

/-- The records of the full drain of a connection opened on the dataset `New`
returns for a source, with the error of the drain; nothing when `New` returns no
dataset or the copy does not open. -/
def copyDrain (fs : os.FS) (D : dcopy.Dataset) (num : Nat) :
    Option (List ddataset.Record × Option Error) :=
  match dcopy.New fs D with
  | (.dataset d, fs') =>
    match (dcopy.Dataset.dcopy d).Open fs' with
    | .ok conn => some (dcopy.getRecords conn num)
    | .error _ => none
  | _ => none

/-- The records of the full drain of a connection opened on a source, with the
error of the drain; nothing when the source does not open. -/
def sourceDrain (fs : os.FS) (D : dcopy.Dataset) (num : Nat) :
    Option (List ddataset.Record × Option Error) :=
  match D.Open fs with
  | .ok conn => some (dcopy.getRecords conn num)
  | .error _ => none

end sample

/-! ## Connections in memory

The struct `DCSVConn` holds pointers: to the dataset it was opened from, to its
file and to its csv reader; its record is a map, a reference as well.  The
definitions below follow `Open`, `Next`, `Close` and `makeRowCurrentRecord` of
dcsv.go through these references, so that two connections can be told to share
something or not. -/

namespace dcsv

open ddataset

/-- A `*DCSVConn` in memory: the struct `DCSVConn`, with the addresses of its
dataset, its file, its csv reader and its record map; `none` is a nil pointer. -/
structure ConnCell where
  dataset : Nat
  file : Option Nat
  reader : Option Nat
  currentRecord : Nat
  err : Option Error
  deriving DecidableEq, Repr

/-- The memory of a program that uses package dcsv: the datasets, the open files,
the csv readers (each with the position in the file it reads), the record maps and
the connections, by address; an address of one kind names nothing of another kind.
The address `next` and those above it are not in use. -/
structure Heap where
  datasets : Nat → Option DCSV
  files : Nat → Option os.File
  readers : Nat → Option csv.Reader
  records : Nat → Option Record
  conns : Nat → Option ConnCell
  next : Nat

/-- A store to the address `a`. -/
def put {α : Type} (m : Nat → Option α) (a : Nat) (v : α) : Nat → Option α :=
  fun x => if x = a then some v else m x

/-- The method `(*DCSV).Open` on the dataset at the address `ds`: `makeCsvReader`
opens a new file and makes a new csv reader on it, `make(ddataset.Record, ...)`
makes a new map, and the new `DCSVConn` points to the three and to the dataset.
It returns the address of the connection, or nothing when `ds` is no dataset (a
nil pointer is dereferenced). -/
def Heap.Open (fs : os.FS) (h : Heap) (ds : Nat) : Option (Except Error Nat × Heap) :=
  match h.datasets ds with
  | none => none
  | some c =>
    match makeCsvReader fs c.filename c.separator c.hasHeader with
    | .error err => some (.error err, h)
    | .ok (f, r) =>
      let a := h.next
      some (.ok a,
        { datasets := h.datasets
          files := put h.files a f
          readers := put h.readers a r
          records := put h.records a []
          conns := put h.conns a
            { dataset := ds, file := some a, reader := some a, currentRecord := a, err := none }
          next := a + 1 })

/-- The method `(*DCSVConn).Close` on the connection at the address `c`:
`cc.file.Close()`, `cc.file = nil`, `cc.reader = nil`. -/
def Heap.Close (h : Heap) (c : Nat) : Option (Option Error × Heap) :=
  match h.conns c with
  | none => none
  | some cc =>
    let err := os.File.Close (cc.file.bind h.files)
    some (err, { h with conns := put h.conns c { cc with file := none, reader := none } })

/-- The statements `cc.Close()` and `cc.err = err` on the connection at the address
`c`. -/
def Heap.closeWith (h : Heap) (c : Nat) (err : Error) : Option Heap :=
  match h.Close c with
  | none => none
  | some (_, h1) =>
    match h1.conns c with
    | none => none
    | some cc => some { h1 with conns := put h1.conns c { cc with err := some err } }

/-- The method `(*DCSVConn).makeRowCurrentRecord` on the connection at the address
`c`: the cell count is compared with `numFields` of the dataset the connection
points to, and the loop stores into the map the connection points to. -/
def Heap.makeRowCurrentRecord (h : Heap) (c : Nat) (row : List String) :
    Option (Option Error × Heap) :=
  match h.conns c with
  | none => none
  | some cc =>
    match h.datasets cc.dataset, h.records cc.currentRecord with
    | some ds, some rec =>
      if hlen : row.length ≠ ds.numFields then
        let h1 := { h with conns := put h.conns c { cc with err := some Error.ErrWrongNumFields } }
        match h1.Close c with
        | none => none
        | some (_, h2) => some ((h2.conns c).bind (fun cc2 => cc2.err), h2)
      else
        match fillRecord ds.GetFieldNames row (by simpa [DCSV.numFields, DCSV.GetFieldNames]
            using hlen) rec with
        | (rec1, some err) =>
          match ({ h with records := put h.records cc.currentRecord rec1 } : Heap).closeWith c
              err with
          | none => none
          | some h2 => some (some err, h2)
        | (rec1, none) => some (none, { h with records := put h.records cc.currentRecord rec1 })
    | _, _ => none

/-- The method `(*DCSVConn).Next` on the connection at the address `c`: the read
moves the csv reader the connection points to. -/
def Heap.Next (h : Heap) (c : Nat) : Option (Bool × Heap) :=
  match h.conns c with
  | none => none
  | some cc =>
    if cc.err ≠ none then
      some (false, h)
    else
      match cc.reader with
      | none => some (false, { h with conns := put h.conns c { cc with err := some Error.ErrConnClosed } })
      | some ra =>
        match h.readers ra with
        | none => none
        | some reader =>
          match reader.Read with
          | ((_, some .EOF), reader') =>
            some (false, { h with readers := put h.readers ra reader' })
          | ((_, some err), reader') =>
            match ({ h with readers := put h.readers ra reader' } : Heap).closeWith c err with
            | none => none
            | some h2 => some (false, h2)
          | ((row, none), reader') =>
            match ({ h with readers := put h.readers ra reader' } : Heap).makeRowCurrentRecord
                c row with
            | none => none
            | some (some err, h1) =>
              match h1.closeWith c err with
              | none => none
              | some h2 => some (false, h2)
            | some (none, h1) => some (true, h1)

/-- One call on the connection at the address `c`: what it gives back and the memory
after it.  `Read` gives back the map the connection points to; what the call gives
back here is what that map holds when the call returns. -/
def Heap.call (h : Heap) (c : Nat) : Op → Option (OpResult × Heap)
  | .Next =>
    match h.Next c with
    | none => none
    | some (more, h1) => some (.Next more, h1)
  | .Read =>
    match h.conns c with
    | none => none
    | some cc =>
      match h.records cc.currentRecord with
      | none => none
      | some rec => some (.Read rec, h)
  | .Err =>
    match h.conns c with
    | none => none
    | some cc => some (.Err cc.err, h)
  | .Close =>
    match h.Close c with
    | none => none
    | some (err, h1) => some (.Close err, h1)

/-- A sequence of calls on the connection at the address `c`: what each call gives
back, and the memory after them. -/
def Heap.calls (h : Heap) (c : Nat) : List Op → Option (List OpResult × Heap)
  | [] => some ([], h)
  | op :: ops =>
    match h.call c op with
    | none => none
    | some (r, h1) =>
      match h1.calls c ops with
      | none => none
      | some (rs, h2) => some (r :: rs, h2)

end dcsv

namespace sample

end sample

/-! ## Theorems: package dcsv -/

namespace dcsv

open ddataset

/-- A latched error makes `Next` return false and leave the connection as it is. -/
theorem DCSVConn.Next_of_err (cc : DCSVConn) (e : Error) (h : cc.err = some e) :
    cc.Next = (false, cc) := by
  simp [DCSVConn.Next, h]

/-- No call clears or replaces a latched error. -/
theorem DCSVConn.step_err (cc : DCSVConn) (e : Error) (h : cc.err = some e) (op : Op) :
    (cc.step op).err = some e := by
  cases op with
  | Next => simp [DCSVConn.step, DCSVConn.Next_of_err cc e h, h]
  | Read => simpa [DCSVConn.step] using h
  | Err => simpa [DCSVConn.step] using h
  | Close => simpa [DCSVConn.step, DCSVConn.Close] using h

/-- No sequence of calls clears or replaces a latched error. -/
theorem DCSVConn.run_err (ops : List Op) :
    ∀ (cc : DCSVConn) (e : Error), cc.err = some e → (cc.run ops).err = some e := by
  induction ops with
  | nil => intro cc e h; simpa [DCSVConn.run] using h
  | cons op ops ih =>
    intro cc e h
    have h1 := DCSVConn.step_err cc e h op
    simpa [DCSVConn.run] using ih (cc.step op) e h1

/-- On a connection that is closed or has a latched error `Next` returns false and
leaves an error latched. -/
theorem DCSVConn.Next_latches (cc : DCSVConn) (h : cc.err ≠ none ∨ cc.reader = none) :
    cc.Next.1 = false ∧ ∃ e, cc.Next.2.err = some e := by
  cases he : cc.err with
  | some e => simp [DCSVConn.Next_of_err cc e he, he]
  | none =>
    have hr : cc.reader = none := by
      rcases h with h | h
      · exact absurd he h
      · exact h
    simp [DCSVConn.Next, he, hr]

/-- C1: once `Next` has returned false on a connection that had a latched error or
had been closed, after every sequence of later `Next`/`Read`/`Err`/`Close` calls
`Next` returns false and `Err` returns the error it returned right after that
first false `Next`; an error latched before is that same error (it is not
replaced, not even by `ErrConnClosed`). -/
theorem C1_failure_is_latched (cc : DCSVConn) (h : cc.err ≠ none ∨ cc.reader = none)
    (ops : List Op) :
    cc.Next.1 = false ∧ cc.Next.2.Err ≠ none ∧
      ((cc.Next.2).run ops).Next.1 = false ∧
      ((cc.Next.2).run ops).Err = cc.Next.2.Err ∧
      (((cc.Next.2).run ops).Next.2).Err = cc.Next.2.Err ∧
      (∀ e, cc.Err = some e → ((cc.Next.2).run ops).Err = some e) := by
  obtain ⟨h1, e, he⟩ := DCSVConn.Next_latches cc h
  have hrun := DCSVConn.run_err ops cc.Next.2 e he
  have hnext := DCSVConn.Next_of_err _ e hrun
  refine ⟨h1, by simp [DCSVConn.Err, he], by rw [hnext], ?_, ?_, ?_⟩
  · simp [DCSVConn.Err, he, hrun]
  · rw [hnext]; simp [DCSVConn.Err, he, hrun]
  · intro e' he'
    have h2 : cc.err = some e' := he'
    rw [DCSVConn.Next_of_err cc e' h2]
    exact DCSVConn.run_err ops cc e' h2

/-- C1 at a connection closed by its holder before the data ended. -/
theorem C1_failure_is_latched_witness :
    (sample.conn.Close.2.err ≠ none ∨ sample.conn.Close.2.reader = none) ∧
      sample.conn.Close.2.Next.1 = false ∧
      ((sample.conn.Close.2.Next.2).run [.Close, .Next, .Read]).Next.1 = false ∧
      ((sample.conn.Close.2.Next.2).run [.Close, .Next, .Read]).Err =
        sample.conn.Close.2.Next.2.Err :=
  ⟨by decide,
    (C1_failure_is_latched sample.conn.Close.2 (by decide) [.Close, .Next, .Read]).1,
    (C1_failure_is_latched sample.conn.Close.2 (by decide) [.Close, .Next, .Read]).2.2.1,
    (C1_failure_is_latched sample.conn.Close.2 (by decide) [.Close, .Next, .Read]).2.2.2.1⟩

/-! ### Records -/

/-- Reading the key just assigned gives the assigned value. -/
theorem Record.get_set_self (r : Record) (k : String) (v : dlit.Literal) :
    (r.set k v).get k = some v := by
  induction r with
  | nil => simp [Record.set, Record.get]
  | cons p rest ih =>
    obtain ⟨k', v'⟩ := p
    by_cases hk : k' = k
    · simp [Record.set, Record.get, hk]
    · simp [Record.set, Record.get, hk, ih]

/-- Assigning a key leaves the other keys as they were. -/
theorem Record.get_set_ne (r : Record) (k k' : String) (v : dlit.Literal) (hne : k ≠ k') :
    (r.set k v).get k' = r.get k' := by
  induction r with
  | nil => simp [Record.set, Record.get, hne]
  | cons p rest ih =>
    obtain ⟨k0, v0⟩ := p
    by_cases hk : k0 = k
    · subst hk
      simp [Record.set, Record.get, hne]
    · by_cases hk' : k0 = k'
      · subst hk'
        simp [Record.set, Record.get, hk]
      · simp [Record.set, Record.get, hk, hk', ih]

/-- The loop of `makeRowCurrentRecord` never stops on an error. -/
theorem fillRecord_err (names : List String) :
    ∀ (row : List String) (h : row.length = names.length) (rec : Record),
      (fillRecord names row h rec).2 = none := by
  induction names with
  | nil =>
    intro row h rec
    cases row with
    | nil => simp [fillRecord]
    | cons c cs => simp at h
  | cons name names ih =>
    intro row h rec
    cases row with
    | nil => simp at h
    | cons c cs => simpa [fillRecord, dlit.New] using ih cs (by simpa using h) _

/-- The loop of `makeRowCurrentRecord` leaves the keys that are no field name. -/
theorem fillRecord_get_other (names : List String) :
    ∀ (row : List String) (h : row.length = names.length) (rec : Record) (k : String),
      k ∉ names → (fillRecord names row h rec).1.get k = rec.get k := by
  induction names with
  | nil =>
    intro row h rec k _
    cases row with
    | nil => simp [fillRecord]
    | cons c cs => simp at h
  | cons name names ih =>
    intro row h rec k hk
    cases row with
    | nil => simp at h
    | cons c cs =>
      have hk1 : name ≠ k := fun he => hk (by simp [he])
      have hk2 : k ∉ names := fun he => hk (by simp [he])
      have := ih cs (by simpa using h) (rec.set name ⟨c⟩) k hk2
      simpa [fillRecord, dlit.New, Record.get_set_ne rec name k ⟨c⟩ hk1] using this

/-- With distinct field names the loop of `makeRowCurrentRecord` leaves under the
`i`-th name the literal of the `i`-th cell. -/
theorem fillRecord_get (names : List String) :
    ∀ (row : List String) (h : row.length = names.length) (rec : Record), names.Nodup →
      ∀ (i : Nat) (name cell : String), names[i]? = some name → row[i]? = some cell →
        (fillRecord names row h rec).1.get name = some ⟨cell⟩ := by
  induction names with
  | nil =>
    intro row h rec _ i name cell hn
    simp at hn
  | cons n names ih =>
    intro row h rec hnd i name cell hn hc
    cases row with
    | nil => simp at h
    | cons c cs =>
      have hnd' := List.nodup_cons.mp hnd
      cases i with
      | zero =>
        simp at hn hc
        subst hn hc
        have := fillRecord_get_other names cs (by simpa using h) (rec.set n ⟨c⟩) n hnd'.1
        simpa [fillRecord, dlit.New, Record.get_set_self] using this
      | succ j =>
        simp at hn hc
        have := ih cs (by simpa using h) (rec.set n ⟨c⟩) hnd'.2 j name cell hn hc
        simpa [fillRecord, dlit.New] using this

/-! ### One call of `Next` -/

/-- On a row with the declared cell count `makeRowCurrentRecord` returns nil and
changes the current record only. -/
theorem DCSVConn.makeRowCurrentRecord_ok (cc : DCSVConn) (row : List String)
    (h : row.length = cc.dataset.fieldNames.length) :
    cc.makeRowCurrentRecord row =
      (none, { cc with
        currentRecord := (fillRecord cc.dataset.fieldNames row h cc.currentRecord).1 }) := by
  have hn : ¬ row.length ≠ cc.getNumFields := by
    simpa [DCSVConn.getNumFields, DCSV.numFields] using h
  have he := fillRecord_err cc.dataset.fieldNames row h cc.currentRecord
  unfold DCSVConn.makeRowCurrentRecord
  simp only [dif_neg hn, DCSV.GetFieldNames]
  split
  · next rec err heq =>
      rw [heq] at he
      simp at he
  · next rec heq =>
      rw [heq]

/-- On a row with another cell count `makeRowCurrentRecord` latches
`ErrWrongNumFields`, closes the connection and leaves the current record. -/
theorem DCSVConn.makeRowCurrentRecord_wrong (cc : DCSVConn) (row : List String)
    (h : row.length ≠ cc.dataset.fieldNames.length) :
    cc.makeRowCurrentRecord row =
      (some .ErrWrongNumFields,
        { cc with err := some .ErrWrongNumFields, file := none, reader := none }) := by
  have hn : row.length ≠ cc.getNumFields := by
    simpa [DCSVConn.getNumFields, DCSV.numFields] using h
  unfold DCSVConn.makeRowCurrentRecord
  simp [dif_pos hn, DCSVConn.Close]

/-- The call `Next` when the reader yields a row with the declared cell count. -/
theorem DCSVConn.Next_row (cc : DCSVConn) (r r' : csv.Reader) (row : List String)
    (herr : cc.err = none) (hr : cc.reader = some r) (hread : r.Read = ((row, none), r'))
    (h : row.length = cc.dataset.fieldNames.length) :
    cc.Next =
      (true, { cc with
        reader := some r'
        currentRecord := (fillRecord cc.dataset.fieldNames row h cc.currentRecord).1 }) := by
  obtain ⟨ds, f, rd, rec, er⟩ := cc
  simp only at herr hr h
  subst herr hr
  have := DCSVConn.makeRowCurrentRecord_ok
    { dataset := ds, file := f, reader := some r', currentRecord := rec, err := none } row h
  simp [DCSVConn.Next, hread, this]

/-- The call `Next` when the reader yields a row with another cell count. -/
theorem DCSVConn.Next_wrong (cc : DCSVConn) (r r' : csv.Reader) (row : List String)
    (herr : cc.err = none) (hr : cc.reader = some r) (hread : r.Read = ((row, none), r'))
    (h : row.length ≠ cc.dataset.fieldNames.length) :
    cc.Next =
      (false, { cc with err := some .ErrWrongNumFields, file := none, reader := none }) := by
  obtain ⟨ds, f, rd, rec, er⟩ := cc
  simp only at herr hr h
  subst herr hr
  have := DCSVConn.makeRowCurrentRecord_wrong
    { dataset := ds, file := f, reader := some r', currentRecord := rec, err := none } row h
  simp [DCSVConn.Next, hread, this, DCSVConn.Close]

/-- The call `Next` when the reader fails with an error that is not `io.EOF`. -/
theorem DCSVConn.Next_readErr (cc : DCSVConn) (r r' : csv.Reader) (row : List String)
    (e : Error) (herr : cc.err = none) (hr : cc.reader = some r)
    (hread : r.Read = ((row, some e), r')) (he : e ≠ .EOF) :
    cc.Next = (false, { cc with err := some e, file := none, reader := none }) := by
  cases e <;> simp_all [DCSVConn.Next, DCSVConn.Close]

/-- The call `Next` when the reader is at the end of the data. -/
theorem DCSVConn.Next_eof (cc : DCSVConn) (r : csv.Reader)
    (herr : cc.err = none) (hr : cc.reader = some r) (hread : r.Read.1.2 = some .EOF) :
    cc.Next = (false, cc) := by
  have hrows : r.rows = [] := by
    unfold csv.Reader.Read at hread
    split at hread
    · assumption
    · simp at hread
    · split at hread
      · split at hread <;> simp at hread
      · simp at hread
  have hr' : r.Read = (([], some .EOF), r) := by
    simp [csv.Reader.Read, hrows]
  cases cc
  simp_all [DCSVConn.Next]

/-- The csv reader yields a well-formed row when it has read no record yet or the
row has the cell count of the first record it read. -/
theorem Reader_Read_accepts (r : csv.Reader) (row : List String) (rest : List csv.RawRow)
    (hrows : r.rows = .row row :: rest)
    (hfirst : r.FieldsPerRecord = 0 ∨ row.length = r.FieldsPerRecord) :
    r.Read = ((row, none), r.Read.2) := by
  obtain ⟨rows, n⟩ := r
  simp only at hrows hfirst
  subst hrows
  rcases hfirst with h | h
  · subst h
    simp [csv.Reader.Read]
  · subst h
    by_cases h0 : 0 < row.length
    · simp [csv.Reader.Read, h0]
    · simp [csv.Reader.Read, h0]

/-- The csv reader rejects a well-formed row with `csv.ErrFieldCount` when the row
has another cell count than the first record it read. -/
theorem Reader_Read_rejects (r : csv.Reader) (row : List String) (rest : List csv.RawRow)
    (hrows : r.rows = .row row :: rest)
    (hcount : 0 < r.FieldsPerRecord ∧ row.length ≠ r.FieldsPerRecord) :
    r.Read = ((row, some .csvErrFieldCount), r.Read.2) := by
  obtain ⟨rows, n⟩ := r
  simp only at hrows hcount
  subst hrows
  simp [csv.Reader.Read, hcount.1, hcount.2]

/-- C2, amended: on an open connection with no latched error and pairwise distinct
field names, when the next row of the file is well formed, has the declared cell
count, and is accepted by the csv reader (the reader has read no record of the file
yet, or the row has the cell count of the first record it read, the header
included), `Next` returns true, `Err` stays nil, and `Read` returns a record whose
entry for the `i`-th field name is the literal `dlit.New` builds from the `i`-th
cell, for every index `i`. -/
theorem C2_row_becomes_record (cc : DCSVConn) (r : csv.Reader) (row : List String)
    (rest : List csv.RawRow)
    (herr : cc.Err = none) (hr : cc.reader = some r) (hrows : r.rows = .row row :: rest)
    (hfirst : r.FieldsPerRecord = 0 ∨ row.length = r.FieldsPerRecord)
    (hnd : cc.dataset.GetFieldNames.Nodup) (hlen : row.length = cc.getNumFields) :
    cc.Next.1 = true ∧ cc.Next.2.Err = none ∧
      ∀ (i : Nat) (name cell : String),
        cc.dataset.GetFieldNames[i]? = some name → row[i]? = some cell →
          ∃ l, dlit.New cell = .ok l ∧ cc.Next.2.Read.get name = some l := by
  have h : row.length = cc.dataset.fieldNames.length := hlen
  have herr' : cc.err = none := herr
  have hread := Reader_Read_accepts r row rest hrows hfirst
  rw [DCSVConn.Next_row cc r _ row herr hr hread h]
  refine ⟨rfl, herr', ?_⟩
  intro i name cell hn hc
  exact ⟨⟨cell⟩, rfl, fillRecord_get cc.dataset.fieldNames row h cc.currentRecord hnd i name
    cell hn hc⟩

/-- C2, amended, at the first data row of the sample file: field `b` gets the
literal of `2`. -/
theorem C2_row_becomes_record_witness :
    (sample.conn.Err = none ∧ sample.conn.reader = some ⟨sample.rows.tail, 3⟩ ∧
      (⟨sample.rows.tail, 3⟩ : csv.Reader).rows =
        .row ["1", "2", "3"] :: sample.rows.tail.tail ∧
      ((⟨sample.rows.tail, 3⟩ : csv.Reader).FieldsPerRecord = 0 ∨
        ["1", "2", "3"].length = (⟨sample.rows.tail, 3⟩ : csv.Reader).FieldsPerRecord) ∧
      sample.conn.dataset.GetFieldNames.Nodup ∧
      ["1", "2", "3"].length = sample.conn.getNumFields) ∧
    sample.conn.Next.1 = true ∧ sample.conn.Next.2.Err = none ∧
      ∃ l, dlit.New "2" = .ok l ∧ sample.conn.Next.2.Read.get "b" = some l :=
  ⟨⟨rfl, rfl, rfl, Or.inr rfl, by decide, rfl⟩,
    (C2_row_becomes_record sample.conn ⟨sample.rows.tail, 3⟩ ["1", "2", "3"]
      sample.rows.tail.tail rfl rfl rfl (Or.inr rfl) (by decide) rfl).1,
    (C2_row_becomes_record sample.conn ⟨sample.rows.tail, 3⟩ ["1", "2", "3"]
      sample.rows.tail.tail rfl rfl rfl (Or.inr rfl) (by decide) rfl).2.1,
    (C2_row_becomes_record sample.conn ⟨sample.rows.tail, 3⟩ ["1", "2", "3"]
      sample.rows.tail.tail rfl rfl rfl (Or.inr rfl) (by decide) rfl).2.2 1 "b" "2" rfl rfl⟩

/-- C2 fails for a row that the csv reader rejects: on `header2.csv`, a header of
two cells over the row `1,2,3`, the connection `Open` returns for the three distinct
names `a`, `b`, `c` is open with no error latched and its next row has the declared
three cells, yet `Next` returns false and latches `csv.ErrFieldCount`. -/
theorem C2_counterexample_reader_rejects_row :
    DCSV.Open sample.fsHeader (New "header2.csv" true ',' ["a", "b", "c"]) =
        .ok { dataset := New "header2.csv" true ',' ["a", "b", "c"]
              file := some { name := "header2.csv",
                             rows := [.row ["h1", "h2"], .row ["1", "2", "3"]],
                             closeErr := none }
              reader := some { rows := [.row ["1", "2", "3"]], FieldsPerRecord := 2 }
              currentRecord := []
              err := none } ∧
      (New "header2.csv" true ',' ["a", "b", "c"]).GetFieldNames.Nodup ∧
      ["1", "2", "3"].length = (New "header2.csv" true ',' ["a", "b", "c"]).numFields ∧
      (({ dataset := New "header2.csv" true ',' ["a", "b", "c"]
          file := some { name := "header2.csv",
                         rows := [.row ["h1", "h2"], .row ["1", "2", "3"]],
                         closeErr := none }
          reader := some { rows := [.row ["1", "2", "3"]], FieldsPerRecord := 2 }
          currentRecord := []
          err := none } : DCSVConn).Next).1 = false ∧
      (({ dataset := New "header2.csv" true ',' ["a", "b", "c"]
          file := some { name := "header2.csv",
                         rows := [.row ["h1", "h2"], .row ["1", "2", "3"]],
                         closeErr := none }
          reader := some { rows := [.row ["1", "2", "3"]], FieldsPerRecord := 2 }
          currentRecord := []
          err := none } : DCSVConn).Next).2.Err = some .csvErrFieldCount :=
  ⟨rfl, by decide, rfl, rfl, rfl⟩

/-- C3, amended: on an open connection with no latched error, when the next row of
the file is well formed and its cell count differs from the declared field count,
`Next` returns false and the file and the reader are cleared; `Err` returns
`ErrWrongNumFields` when the csv reader accepts the row (it has read no record of
the file yet, or the row has the cell count of the first record it read, the header
included), and `csv.ErrFieldCount` when the reader rejects it (the row has another
cell count than the first record read). -/
theorem C3_wrong_cell_count (cc : DCSVConn) (r : csv.Reader) (row : List String)
    (rest : List csv.RawRow)
    (herr : cc.Err = none) (hr : cc.reader = some r) (hrows : r.rows = .row row :: rest)
    (hlen : row.length ≠ cc.getNumFields) :
    cc.Next.1 = false ∧ cc.Next.2.file = none ∧ cc.Next.2.reader = none ∧
      ((r.FieldsPerRecord = 0 ∨ row.length = r.FieldsPerRecord) →
        cc.Next.2.Err = some .ErrWrongNumFields) ∧
      ((0 < r.FieldsPerRecord ∧ row.length ≠ r.FieldsPerRecord) →
        cc.Next.2.Err = some .csvErrFieldCount) := by
  have h : row.length ≠ cc.dataset.fieldNames.length := hlen
  have herr' : cc.err = none := herr
  by_cases hfirst : r.FieldsPerRecord = 0 ∨ row.length = r.FieldsPerRecord
  · have hread := Reader_Read_accepts r row rest hrows hfirst
    rw [DCSVConn.Next_wrong cc r _ row herr' hr hread h]
    refine ⟨rfl, rfl, rfl, fun _ => rfl, ?_⟩
    intro hc
    rcases hfirst with h0 | h0
    · omega
    · exact absurd h0 hc.2
  · have hcount : 0 < r.FieldsPerRecord ∧ row.length ≠ r.FieldsPerRecord := by
      constructor
      · rcases Nat.eq_zero_or_pos r.FieldsPerRecord with h0 | h0
        · exact absurd (Or.inl h0) hfirst
        · exact h0
      · intro h0
        exact hfirst (Or.inr h0)
    have hread := Reader_Read_rejects r row rest hrows hcount
    rw [DCSVConn.Next_readErr cc r _ row .csvErrFieldCount herr' hr hread (by decide)]
    exact ⟨rfl, rfl, rfl, fun hf => absurd hf hfirst, fun _ => rfl⟩

/-- C3, amended, at a connection of two declared fields on the three-cell rows of
the sample file, whose reader accepts the row, and at the sample connection after
its two good rows, whose reader rejects the row of four cells. -/
theorem C3_wrong_cell_count_witness :
    ((({ sample.conn with dataset := New "data.csv" true ',' ["a", "b"] } : DCSVConn).Err =
          none ∧
        ({ sample.conn with dataset := New "data.csv" true ',' ["a", "b"] } : DCSVConn).reader =
          some ⟨sample.rows.tail, 3⟩ ∧
        (⟨sample.rows.tail, 3⟩ : csv.Reader).rows =
          .row ["1", "2", "3"] :: sample.rows.tail.tail ∧
        ["1", "2", "3"].length ≠
          ({ sample.conn with dataset := New "data.csv" true ',' ["a", "b"] } :
            DCSVConn).getNumFields ∧
        ((⟨sample.rows.tail, 3⟩ : csv.Reader).FieldsPerRecord = 0 ∨
          ["1", "2", "3"].length = (⟨sample.rows.tail, 3⟩ : csv.Reader).FieldsPerRecord)) ∧
      ({ sample.conn with dataset := New "data.csv" true ',' ["a", "b"] } : DCSVConn).Next.1 =
        false ∧
      ({ sample.conn with dataset := New "data.csv" true ',' ["a", "b"] } :
        DCSVConn).Next.2.file = none ∧
      ({ sample.conn with dataset := New "data.csv" true ',' ["a", "b"] } :
        DCSVConn).Next.2.reader = none ∧
      ({ sample.conn with dataset := New "data.csv" true ',' ["a", "b"] } :
        DCSVConn).Next.2.Err = some .ErrWrongNumFields) ∧
    (((sample.conn.run [.Next, .Next]).Err = none ∧
        (sample.conn.run [.Next, .Next]).reader = some ⟨[.row ["4", "5", "bad", "6"]], 3⟩ ∧
        ["4", "5", "bad", "6"].length ≠ (sample.conn.run [.Next, .Next]).getNumFields ∧
        (0 < (⟨[.row ["4", "5", "bad", "6"]], 3⟩ : csv.Reader).FieldsPerRecord ∧
          ["4", "5", "bad", "6"].length ≠
            (⟨[.row ["4", "5", "bad", "6"]], 3⟩ : csv.Reader).FieldsPerRecord)) ∧
      (sample.conn.run [.Next, .Next]).Next.1 = false ∧
      (sample.conn.run [.Next, .Next]).Next.2.file = none ∧
      (sample.conn.run [.Next, .Next]).Next.2.reader = none ∧
      (sample.conn.run [.Next, .Next]).Next.2.Err = some .csvErrFieldCount) :=
  ⟨⟨⟨rfl, rfl, rfl, by decide, Or.inr rfl⟩,
      (C3_wrong_cell_count { sample.conn with dataset := New "data.csv" true ',' ["a", "b"] }
        ⟨sample.rows.tail, 3⟩ ["1", "2", "3"] sample.rows.tail.tail rfl rfl rfl
        (by decide)).1,
      (C3_wrong_cell_count { sample.conn with dataset := New "data.csv" true ',' ["a", "b"] }
        ⟨sample.rows.tail, 3⟩ ["1", "2", "3"] sample.rows.tail.tail rfl rfl rfl
        (by decide)).2.1,
      (C3_wrong_cell_count { sample.conn with dataset := New "data.csv" true ',' ["a", "b"] }
        ⟨sample.rows.tail, 3⟩ ["1", "2", "3"] sample.rows.tail.tail rfl rfl rfl
        (by decide)).2.2.1,
      (C3_wrong_cell_count { sample.conn with dataset := New "data.csv" true ',' ["a", "b"] }
        ⟨sample.rows.tail, 3⟩ ["1", "2", "3"] sample.rows.tail.tail rfl rfl rfl
        (by decide)).2.2.2.1 (Or.inr rfl)⟩,
    ⟨⟨rfl, rfl, by decide, by decide⟩,
      (C3_wrong_cell_count (sample.conn.run [.Next, .Next])
        ⟨[.row ["4", "5", "bad", "6"]], 3⟩ ["4", "5", "bad", "6"] [] rfl rfl rfl
        (by decide)).1,
      (C3_wrong_cell_count (sample.conn.run [.Next, .Next])
        ⟨[.row ["4", "5", "bad", "6"]], 3⟩ ["4", "5", "bad", "6"] [] rfl rfl rfl
        (by decide)).2.1,
      (C3_wrong_cell_count (sample.conn.run [.Next, .Next])
        ⟨[.row ["4", "5", "bad", "6"]], 3⟩ ["4", "5", "bad", "6"] [] rfl rfl rfl
        (by decide)).2.2.1,
      (C3_wrong_cell_count (sample.conn.run [.Next, .Next])
        ⟨[.row ["4", "5", "bad", "6"]], 3⟩ ["4", "5", "bad", "6"] [] rfl rfl rfl
        (by decide)).2.2.2.2 (by decide)⟩⟩

/-- C3 fails for a row that the csv reader rejects: after the two good rows of the
sample file the connection is open with no error latched and its next row has four
cells where three are declared, and `Next` returns false and closes the connection,
but `Err` returns `csv.ErrFieldCount`, not `ErrWrongNumFields`. -/
theorem C3_counterexample_reader_rejects_row :
    (sample.conn.run [.Next, .Next]).Err = none ∧
      (sample.conn.run [.Next, .Next]).reader = some ⟨[.row ["4", "5", "bad", "6"]], 3⟩ ∧
      ["4", "5", "bad", "6"].length ≠ (sample.conn.run [.Next, .Next]).getNumFields ∧
      (sample.conn.run [.Next, .Next]).Next.1 = false ∧
      (sample.conn.run [.Next, .Next]).Next.2.Err = some .csvErrFieldCount ∧
      (sample.conn.run [.Next, .Next]).Next.2.Err ≠ some .ErrWrongNumFields := by
  decide

/-- After `k` reads of rows with the declared cell count and then a read that fails
with `e`, the first `k` calls of `Next` return true and the next one returns false,
latches `e` and closes the connection. -/
theorem DCSVConn.afterNext_trace (k : Nat) :
    ∀ (cc : DCSVConn) (r : csv.Reader) (e : Error), cc.err = none → cc.reader = some r →
      (∀ j, j < k → ∃ row, ((r.after j).Read).1 = (row, none) ∧
        row.length = cc.dataset.fieldNames.length) →
      ((r.after k).Read).1.2 = some e → e ≠ .EOF →
      (∀ j, j < k → ((cc.afterNext j).Next).1 = true) ∧
        ((cc.afterNext k).Next).1 = false ∧
        ((cc.afterNext k).Next).2.err = some e ∧
        ((cc.afterNext k).Next).2.file = none ∧
        ((cc.afterNext k).Next).2.reader = none := by
  induction k with
  | zero =>
    intro cc r e herr hr _ hbad hne
    have hread : r.Read = ((r.Read.1.1, some e), r.Read.2) := by
      have : r.Read.1.2 = some e := hbad
      rw [← this]
    rw [DCSVConn.afterNext, DCSVConn.Next_readErr cc r _ _ e herr hr hread hne]
    exact ⟨fun j hj => absurd hj (Nat.not_lt_zero j), rfl, rfl, rfl, rfl⟩
  | succ n ih =>
    intro cc r e herr hr hgood hbad hne
    obtain ⟨row, hrow, hlen⟩ := hgood 0 (Nat.succ_pos n)
    have hread : r.Read = ((row, none), r.Read.2) := by
      have : r.Read.1 = (row, none) := hrow
      rw [← this]
    have hnext := DCSVConn.Next_row cc r _ row herr hr hread hlen
    have hcc : cc.afterNext (n + 1) = (cc.Next.2).afterNext n := rfl
    have hih := ih cc.Next.2 r.Read.2 e (by rw [hnext]; exact herr) (by rw [hnext])
      (by
        intro j hj
        have hds : cc.Next.2.dataset = cc.dataset := by rw [hnext]
        rw [hds]
        exact hgood (j + 1) (Nat.succ_lt_succ hj))
      hbad hne
    refine ⟨?_, ?_⟩
    · intro j hj
      cases j with
      | zero => rw [DCSVConn.afterNext, hnext]
      | succ i => exact hih.1 i (Nat.lt_of_succ_lt_succ hj)
    · rw [hcc]
      exact hih.2

/-- C4: on a connection with no latched error whose reader gives `k` rows with the
declared cell count and then fails with an error `e` other than `io.EOF` (a fresh
connection from `Open` in particular), a drain gets true from `Next` for each of the
first `k` calls, then false with `Err` equal to `e`, and the file and the reader are
cleared. -/
theorem C4_read_failure_ends_drain (cc : DCSVConn) (r : csv.Reader) (k : Nat) (e : Error)
    (herr : cc.Err = none) (hr : cc.reader = some r)
    (hgood : ∀ j, j < k → ∃ row, ((r.after j).Read).1 = (row, none) ∧
      row.length = cc.getNumFields)
    (hbad : ((r.after k).Read).1.2 = some e) (hne : e ≠ .EOF) :
    (∀ j, j < k → ((cc.afterNext j).Next).1 = true) ∧
      ((cc.afterNext k).Next).1 = false ∧
      ((cc.afterNext k).Next).2.Err = some e ∧
      ((cc.afterNext k).Next).2.file = none ∧
      ((cc.afterNext k).Next).2.reader = none :=
  DCSVConn.afterNext_trace k cc r e herr hr hgood hbad hne

/-- C4 at the connection `Open` returns on the sample file whose second record is
malformed. -/
theorem C4_read_failure_ends_drain_witness :
    (DCSV.Open sample.fs sample.dsBroken = .ok sample.connBroken ∧
      sample.connBroken.Err = none ∧
      sample.connBroken.reader =
        some ⟨[.row ["1", "2"], .malformed "bare quote"], 0⟩ ∧
      (∀ j, j < 1 → ∃ row,
        (((⟨[.row ["1", "2"], .malformed "bare quote"], 0⟩ : csv.Reader).after j).Read).1 =
          (row, none) ∧ row.length = sample.connBroken.getNumFields) ∧
      (((⟨[.row ["1", "2"], .malformed "bare quote"], 0⟩ : csv.Reader).after 1).Read).1.2 =
        some (.csvParseError "bare quote") ∧
      Error.csvParseError "bare quote" ≠ .EOF) ∧
    ((sample.connBroken.afterNext 0).Next).1 = true ∧
    ((sample.connBroken.afterNext 1).Next).1 = false ∧
    ((sample.connBroken.afterNext 1).Next).2.Err = some (.csvParseError "bare quote") ∧
    ((sample.connBroken.afterNext 1).Next).2.file = none ∧
    ((sample.connBroken.afterNext 1).Next).2.reader = none :=
  ⟨⟨rfl, rfl, rfl,
      fun j hj => by
        have : j = 0 := by omega
        subst this
        exact ⟨["1", "2"], rfl, rfl⟩,
      rfl, by decide⟩,
    (C4_read_failure_ends_drain sample.connBroken
      ⟨[.row ["1", "2"], .malformed "bare quote"], 0⟩ 1 (.csvParseError "bare quote") rfl rfl
      (fun j hj => by
        have : j = 0 := by omega
        subst this
        exact ⟨["1", "2"], rfl, rfl⟩)
      rfl (by decide)).1 0 (by decide),
    (C4_read_failure_ends_drain sample.connBroken
      ⟨[.row ["1", "2"], .malformed "bare quote"], 0⟩ 1 (.csvParseError "bare quote") rfl rfl
      (fun j hj => by
        have : j = 0 := by omega
        subst this
        exact ⟨["1", "2"], rfl, rfl⟩)
      rfl (by decide)).2⟩

/-- At the end of the data no call other than `Close` changes the connection. -/
theorem DCSVConn.run_eof (ops : List Op) (cc : DCSVConn) (r : csv.Reader)
    (herr : cc.err = none) (hr : cc.reader = some r) (hread : r.Read.1.2 = some .EOF)
    (hops : Op.Close ∉ ops) : cc.run ops = cc := by
  induction ops with
  | nil => rfl
  | cons op ops ih =>
    have hop : op ≠ Op.Close := fun h => hops (by simp [h])
    have hrest : Op.Close ∉ ops := fun h => hops (by simp [h])
    have hstep : cc.step op = cc := by
      cases op with
      | Next => simp [DCSVConn.step, DCSVConn.Next_eof cc r herr hr hread]
      | Read => rfl
      | Err => rfl
      | Close => exact absurd rfl hop
    have : cc.run (op :: ops) = (cc.step op).run ops := rfl
    rw [this, hstep]
    exact ih hrest

/-- C5: on an open connection with no latched error whose reader is at the end of
the data, `Next` returns false and `Err` stays nil, and after any further calls of
`Next`, `Read` and `Err` the next `Next` returns false again with `Err` still nil. -/
theorem C5_end_of_data (cc : DCSVConn) (r : csv.Reader) (ops : List Op)
    (herr : cc.Err = none) (hr : cc.reader = some r) (heof : r.Read.1.2 = some .EOF)
    (hops : Op.Close ∉ ops) :
    cc.Next.1 = false ∧ cc.Next.2.Err = none ∧
      (((cc.Next.2).run ops).Next).1 = false ∧
      (((cc.Next.2).run ops).Next).2.Err = none := by
  have hnext := DCSVConn.Next_eof cc r herr hr heof
  have hrun := DCSVConn.run_eof ops cc r herr hr heof hops
  refine ⟨by rw [hnext], by rw [hnext]; exact herr, by rw [hnext, hrun, hnext],
    by rw [hnext, hrun, hnext]; exact herr⟩

/-- C5 at the sample connection once its reader has passed every record. -/
theorem C5_end_of_data_witness :
    (({ sample.conn with reader := some ⟨[], 3⟩ } : DCSVConn).Err = none ∧
      ({ sample.conn with reader := some ⟨[], 3⟩ } : DCSVConn).reader = some ⟨[], 3⟩ ∧
      (⟨[], 3⟩ : csv.Reader).Read.1.2 = some .EOF ∧
      Op.Close ∉ [Op.Next, Op.Read, Op.Next, Op.Err]) ∧
    ({ sample.conn with reader := some ⟨[], 3⟩ } : DCSVConn).Next.1 = false ∧
    ({ sample.conn with reader := some ⟨[], 3⟩ } : DCSVConn).Next.2.Err = none ∧
    (((({ sample.conn with reader := some ⟨[], 3⟩ } : DCSVConn).Next.2).run
      [.Next, .Read, .Next, .Err]).Next).1 = false ∧
    (((({ sample.conn with reader := some ⟨[], 3⟩ } : DCSVConn).Next.2).run
      [.Next, .Read, .Next, .Err]).Next).2.Err = none :=
  ⟨⟨rfl, rfl, rfl, by decide⟩,
    C5_end_of_data { sample.conn with reader := some ⟨[], 3⟩ } ⟨[], 3⟩
      [.Next, .Read, .Next, .Err] rfl rfl rfl (by decide)⟩

/-- C6: when `Close` is called on a connection with no latched error, the next
`Next` returns false and sets `Err` to `ErrConnClosed`; it changes nothing else in
the connection (no reader is left to advance), and its outcome does not depend on
the reader the connection had before `Close`. -/
theorem C6_next_after_close (cc : DCSVConn) (herr : cc.Err = none) :
    (cc.Close.2.Next).1 = false ∧
      (cc.Close.2.Next).2.Err = some .ErrConnClosed ∧
      (cc.Close.2.Next).2 = { cc.Close.2 with err := some .ErrConnClosed } ∧
      (cc.Close.2.Next).2.reader = none ∧
      ∀ rd : Option csv.Reader,
        (({ cc with reader := rd } : DCSVConn).Close.2.Next) = cc.Close.2.Next := by
  have herr' : cc.err = none := herr
  simp [DCSVConn.Next, DCSVConn.Close, DCSVConn.Err, herr']

/-- C6 at the sample connection, closed before any row was read. -/
theorem C6_next_after_close_witness :
    sample.conn.Err = none ∧
      (sample.conn.Close.2.Next).1 = false ∧
      (sample.conn.Close.2.Next).2.Err = some .ErrConnClosed ∧
      (sample.conn.Close.2.Next).2.reader = none :=
  ⟨rfl, (C6_next_after_close sample.conn rfl).1, (C6_next_after_close sample.conn rfl).2.1,
    (C6_next_after_close sample.conn rfl).2.2.2.1⟩

/-! ### The size of a record -/

/-- The keys of a record after an assignment are its keys and the assigned key. -/
theorem Record.mem_keys_set (r : Record) (k : String) (v : dlit.Literal) (x : String) :
    x ∈ (r.set k v).map Prod.fst ↔ x = k ∨ x ∈ r.map Prod.fst := by
  induction r with
  | nil => simp [Record.set]
  | cons p rest ih =>
    obtain ⟨k', v'⟩ := p
    by_cases hk : k' = k
    · subst hk
      simp [Record.set]
    · simp only [Record.set, hk, if_false, List.map_cons, List.mem_cons, ih]
      tauto

/-- An assignment keeps the keys of a record distinct. -/
theorem Record.nodup_keys_set (r : Record) (k : String) (v : dlit.Literal)
    (h : (r.map Prod.fst).Nodup) : ((r.set k v).map Prod.fst).Nodup := by
  induction r with
  | nil => simp [Record.set]
  | cons p rest ih =>
    obtain ⟨k', v'⟩ := p
    have h' : k' ∉ rest.map Prod.fst ∧ (rest.map Prod.fst).Nodup := List.nodup_cons.mp h
    by_cases hk : k' = k
    · subst hk
      simp only [Record.set, if_true, List.map_cons]
      exact h
    · simp only [Record.set, hk, if_false, List.map_cons]
      refine List.nodup_cons.mpr ⟨?_, ih h'.2⟩
      intro hmem
      rcases (Record.mem_keys_set rest k v k').mp hmem with h1 | h1
      · exact hk h1
      · exact h'.1 h1

/-- The keys of the record the loop of `makeRowCurrentRecord` leaves are the keys it
found and the field names. -/
theorem fillRecord_mem_keys (names : List String) :
    ∀ (row : List String) (h : row.length = names.length) (rec : Record) (x : String),
      x ∈ (fillRecord names row h rec).1.map Prod.fst ↔ x ∈ names ∨ x ∈ rec.map Prod.fst := by
  induction names with
  | nil =>
    intro row h rec x
    cases row with
    | nil => simp [fillRecord]
    | cons c cs => simp at h
  | cons name names ih =>
    intro row h rec x
    cases row with
    | nil => simp at h
    | cons c cs =>
      have := ih cs (by simpa using h) (rec.set name ⟨c⟩) x
      simp only [fillRecord, dlit.New, this, Record.mem_keys_set, List.mem_cons]
      tauto

/-- The loop of `makeRowCurrentRecord` keeps the keys of a record distinct. -/
theorem fillRecord_nodup_keys (names : List String) :
    ∀ (row : List String) (h : row.length = names.length) (rec : Record),
      (rec.map Prod.fst).Nodup → ((fillRecord names row h rec).1.map Prod.fst).Nodup := by
  induction names with
  | nil =>
    intro row h rec hnd
    cases row with
    | nil => simpa [fillRecord] using hnd
    | cons c cs => simp at h
  | cons name names ih =>
    intro row h rec hnd
    cases row with
    | nil => simp at h
    | cons c cs =>
      have := ih cs (by simpa using h) (rec.set name ⟨c⟩)
        (Record.nodup_keys_set rec name ⟨c⟩ hnd)
      simpa [fillRecord, dlit.New] using this

/-- What one call of `Next` does to the current record: it returns false and leaves
it, or it returns true and the loop of `makeRowCurrentRecord` has filled it from a
row with the declared cell count.  The dataset of the connection stays. -/
theorem DCSVConn.Next_cases (cc : DCSVConn) :
    cc.Next.2.dataset = cc.dataset ∧
      ((cc.Next.1 = false ∧ cc.Next.2.currentRecord = cc.currentRecord) ∨
        (cc.Next.1 = true ∧ ∃ (row : List String) (h : row.length = cc.dataset.fieldNames.length),
          cc.Next.2.currentRecord = (fillRecord cc.dataset.fieldNames row h cc.currentRecord).1)) := by
  cases herr : cc.err with
  | some e =>
    rw [DCSVConn.Next_of_err cc e herr]
    exact ⟨rfl, Or.inl ⟨rfl, rfl⟩⟩
  | none =>
    cases hr : cc.reader with
    | none =>
      simp [DCSVConn.Next, herr, hr]
    | some r =>
      rcases hread : r.Read with ⟨⟨row, oe⟩, r'⟩
      cases oe with
      | some e =>
        by_cases he : e = .EOF
        · subst he
          have : r.Read.1.2 = some .EOF := by rw [hread]
          rw [DCSVConn.Next_eof cc r herr hr this]
          exact ⟨rfl, Or.inl ⟨rfl, rfl⟩⟩
        · rw [DCSVConn.Next_readErr cc r r' row e herr hr hread he]
          exact ⟨rfl, Or.inl ⟨rfl, rfl⟩⟩
      | none =>
        by_cases hlen : row.length = cc.dataset.fieldNames.length
        · rw [DCSVConn.Next_row cc r r' row herr hr hread hlen]
          exact ⟨rfl, Or.inr ⟨rfl, row, hlen, rfl⟩⟩
        · rw [DCSVConn.Next_wrong cc r r' row herr hr hread hlen]
          exact ⟨rfl, Or.inl ⟨rfl, rfl⟩⟩

/-- Every call keeps `recordInv` and the dataset. -/
theorem DCSVConn.step_recordInv (cc : DCSVConn) (op : Op) (h : cc.recordInv) :
    (cc.step op).recordInv ∧ (cc.step op).dataset = cc.dataset := by
  cases op with
  | Read => exact ⟨h, rfl⟩
  | Err => exact ⟨h, rfl⟩
  | Close => exact ⟨h, rfl⟩
  | Next =>
    obtain ⟨hds, hcases⟩ := DCSVConn.Next_cases cc
    refine ⟨?_, hds⟩
    show (cc.Next.2).recordInv
    unfold DCSVConn.recordInv
    rw [hds]
    rcases hcases with ⟨_, hrec⟩ | ⟨_, row, hlen, hrec⟩
    · rw [hrec]; exact h
    · rw [hrec]
      refine ⟨fillRecord_nodup_keys _ row hlen _ h.1, ?_⟩
      intro x hx
      rcases (fillRecord_mem_keys _ row hlen _ x).mp hx with h1 | h1
      · exact h1
      · exact h.2 x h1

/-- Every sequence of calls keeps `recordInv` and the dataset. -/
theorem DCSVConn.run_recordInv (ops : List Op) :
    ∀ cc : DCSVConn, cc.recordInv → (cc.run ops).recordInv ∧ (cc.run ops).dataset = cc.dataset := by
  induction ops with
  | nil => intro cc h; exact ⟨h, rfl⟩
  | cons op ops ih =>
    intro cc h
    obtain ⟨h1, h2⟩ := DCSVConn.step_recordInv cc op h
    obtain ⟨h3, h4⟩ := ih (cc.step op) h1
    exact ⟨h3, h4.trans h2⟩

/-- A connection from `Open` has the dataset it was opened on and an empty current
record. -/
theorem DCSV.Open_fresh (fs : os.FS) (d : DCSV) (cc : DCSVConn) (h : DCSV.Open fs d = .ok cc) :
    cc.dataset = d ∧ cc.currentRecord = [] ∧ cc.err = none ∧ cc.reader ≠ none := by
  unfold DCSV.Open at h
  split at h
  · cases h
  · injection h with h
    subst h
    simp

/-- C7, amended: for a dataset with pairwise distinct field names, on a connection
from `Open` after any sequence of calls, when `Next` returns true the record `Read`
returns has as many entries as the dataset has declared fields. -/
theorem C7_record_size (fs : os.FS) (d : DCSV) (cc : DCSVConn) (ops : List Op)
    (hnd : d.GetFieldNames.Nodup) (hopen : DCSV.Open fs d = .ok cc)
    (hnext : ((cc.run ops).Next).1 = true) :
    ((cc.run ops).Next).2.Read.length = d.GetFieldNames.length := by
  obtain ⟨hds, hrec, _, _⟩ := DCSV.Open_fresh fs d cc hopen
  have hinv0 : cc.recordInv := by
    unfold DCSVConn.recordInv
    rw [hrec]
    simp
  obtain ⟨hinv, hds'⟩ := DCSVConn.run_recordInv ops cc hinv0
  obtain ⟨_, hcases⟩ := DCSVConn.Next_cases (cc.run ops)
  rcases hcases with ⟨hf, _⟩ | ⟨_, row, hlen, hfill⟩
  · rw [hf] at hnext
    cases hnext
  · have hnames : (cc.run ops).dataset.fieldNames = d.fieldNames := by rw [hds', hds]
    have hnd1 := fillRecord_nodup_keys _ row hlen _ hinv.1
    have hperm : ((fillRecord (cc.run ops).dataset.fieldNames row hlen
        (cc.run ops).currentRecord).1.map Prod.fst).Perm d.fieldNames := by
      refine (List.perm_ext_iff_of_nodup hnd1 hnd).mpr ?_
      intro x
      rw [fillRecord_mem_keys, hnames]
      constructor
      · rintro (h1 | h1)
        · exact h1
        · have := hinv.2 x h1
          rwa [hnames] at this
      · intro h1
        exact Or.inl h1
    have hlen2 := hperm.length_eq
    rw [List.length_map] at hlen2
    show ((cc.run ops).Next).2.currentRecord.length = d.fieldNames.length
    rw [hfill]
    exact hlen2

/-- C7, amended, at the second data row of the sample file. -/
theorem C7_record_size_witness :
    (sample.ds.GetFieldNames.Nodup ∧ DCSV.Open sample.fs sample.ds = .ok sample.conn ∧
      ((sample.conn.run [.Next, .Read]).Next).1 = true) ∧
    ((sample.conn.run [.Next, .Read]).Next).2.Read.length = sample.ds.GetFieldNames.length :=
  ⟨⟨by decide, rfl, by decide⟩,
    C7_record_size sample.fs sample.ds sample.conn [.Next, .Read] (by decide) rfl (by decide)⟩

/-- C7 as stated fails: with the field names `a`, `a`, `c` the first `Next` on a
three-cell row returns true and the record `Read` returns has two entries, not
three. -/
theorem C7_counterexample_duplicate_names :
    DCSV.Open sample.fs sample.dsDup = .ok { sample.conn with dataset := sample.dsDup } ∧
      ({ sample.conn with dataset := sample.dsDup } : DCSVConn).Next.1 = true ∧
      ({ sample.conn with dataset := sample.dsDup } : DCSVConn).Next.2.Read.length = 2 ∧
      sample.dsDup.GetFieldNames.length = 3 :=
  ⟨rfl, by decide, by decide, by decide⟩

end dcsv

/-! ## Theorems: package dcopy -/

namespace dcsv

open ddataset

/-- A record has a key exactly when reading it gives a literal. -/
theorem Record.mem_keys_iff_get (r : Record) (k : String) :
    k ∈ r.map Prod.fst ↔ ∃ l, r.get k = some l := by
  induction r with
  | nil => simp [Record.get]
  | cons p rest ih =>
    obtain ⟨k', v'⟩ := p
    by_cases hk : k' = k
    · simp [Record.get, hk]
    · have hk' : ¬ k = k' := fun h => hk h.symm
      simp [Record.get, hk, hk', ih]

/-- After the loop of `makeRowCurrentRecord` every field name has an entry. -/
theorem fillRecord_get_isSome (names row : List String) (h : row.length = names.length)
    (rec : Record) (f : String) (hf : f ∈ names) :
    ∃ l, (fillRecord names row h rec).1.get f = some l :=
  (Record.mem_keys_iff_get _ f).mp ((fillRecord_mem_keys names row h rec f).mpr (Or.inl hf))

/-- When the cell under each name is a function of the name, the loop of
`makeRowCurrentRecord` leaves under every field name the literal of its cell. -/
theorem fillRecord_get_map (g : String → String) (names : List String) :
    ∀ (h : (names.map g).length = names.length) (rec : Record) (f : String), f ∈ names →
      (fillRecord names (names.map g) h rec).1.get f = some ⟨g f⟩ := by
  induction names with
  | nil => intro h rec f hf; simp at hf
  | cons name names ih =>
    intro h rec f hf
    by_cases hmem : f ∈ names
    · have := ih (by simp) (rec.set name ⟨g name⟩) f hmem
      simpa [fillRecord, dlit.New] using this
    · have hfn : f = name := by
        rcases List.mem_cons.mp hf with h1 | h1
        · exact h1
        · exact absurd h1 hmem
      subst hfn
      have := fillRecord_get_other names (names.map g) (by simp) (rec.set f ⟨g f⟩) f hmem
      simpa [fillRecord, dlit.New, Record.get_set_self] using this

/-- A successful read of the csv reader takes the first record off the file. -/
theorem Reader_Read_row (r r' : csv.Reader) (row : List String)
    (h : r.Read = ((row, none), r')) : r.rows = .row row :: r'.rows := by
  unfold csv.Reader.Read at h
  split at h
  · simp at h
  · simp at h
  · next cells rest hrows =>
    split at h
    · split at h
      · simp at h
      · simp only [Prod.mk.injEq] at h
        obtain ⟨⟨h1, _⟩, h2⟩ := h
        subst h1 h2
        simpa using hrows
    · simp only [Prod.mk.injEq] at h
      obtain ⟨⟨h1, _⟩, h2⟩ := h
      subst h1 h2
      simpa using hrows

/-- When `Next` returns true the reader has yielded a row with the declared cell
count, which the loop of `makeRowCurrentRecord` has put into the current record. -/
theorem DCSVConn.Next_true (cc : DCSVConn) (h : cc.Next.1 = true) :
    ∃ (r r' : csv.Reader) (row : List String) (hlen : row.length = cc.dataset.fieldNames.length),
      cc.err = none ∧ cc.reader = some r ∧ r.Read = ((row, none), r') ∧
      cc.Next = (true, { cc with
        reader := some r'
        currentRecord := (fillRecord cc.dataset.fieldNames row hlen cc.currentRecord).1 }) := by
  cases herr : cc.err with
  | some e =>
    rw [DCSVConn.Next_of_err cc e herr] at h
    cases h
  | none =>
    cases hr : cc.reader with
    | none =>
      simp [DCSVConn.Next, herr, hr] at h
    | some r =>
      rcases hread : r.Read with ⟨⟨row, oe⟩, r'⟩
      cases oe with
      | some e =>
        by_cases he : e = .EOF
        · subst he
          have : r.Read.1.2 = some .EOF := by rw [hread]
          rw [DCSVConn.Next_eof cc r herr hr this] at h
          cases h
        · rw [DCSVConn.Next_readErr cc r r' row e herr hr hread he] at h
          cases h
      | none =>
        by_cases hlen : row.length = cc.dataset.fieldNames.length
        · have hn := DCSVConn.Next_row cc r r' row herr hr hread hlen
          rw [herr] at hn
          exact ⟨r, r', row, hlen, rfl, rfl, hread, hn⟩
        · rw [DCSVConn.Next_wrong cc r r' row herr hr hread hlen] at h
          cases h

end dcsv

namespace dcopy

open ddataset dcsv

/-- The method `Next` of a connection is `Next` of the `DCSVConn` behind it. -/
theorem Conn.Next_inner (conn : Conn) :
    conn.Next.1 = conn.inner.Next.1 ∧ conn.Next.2.inner = conn.inner.Next.2 := by
  cases conn <;> simp [Conn.Next, Conn.inner, DCopyConn.Next]

/-- The method `Read` of a connection is `Read` of the `DCSVConn` behind it. -/
theorem Conn.Read_inner (conn : Conn) : conn.Read = conn.inner.currentRecord := by
  cases conn <;> simp [Conn.Read, Conn.inner, DCopyConn.Read, DCSVConn.Read]

/-- The method `Err` of a connection is `Err` of the `DCSVConn` behind it. -/
theorem Conn.Err_inner (conn : Conn) : conn.Err = conn.inner.err := by
  cases conn <;> simp [Conn.Err, Conn.inner, DCopyConn.Err, DCSVConn.Err]

/-- The records left are those of the reader of the `DCSVConn` behind. -/
theorem Conn.remaining_inner (conn : Conn) :
    conn.remaining = (conn.inner.reader.map (fun r => r.rows.length)).getD 0 := by
  cases conn <;> simp [Conn.remaining, Conn.inner]

/-- A `Next` that returns true takes one record off the reader, keeps the dataset,
and leaves an entry for every declared field name in the current record. -/
theorem Conn.Next_true_facts (conn conn1 : Conn) (h : conn.Next = (true, conn1)) :
    conn1.remaining + 1 = conn.remaining ∧ conn1.inner.dataset = conn.inner.dataset ∧
      ∀ f, f ∈ conn.inner.dataset.fieldNames → ∃ l, conn1.Read.get f = some l := by
  obtain ⟨h1, h2⟩ := Conn.Next_inner conn
  rw [h] at h1 h2
  simp only at h1 h2
  obtain ⟨r, r', row, hlen, _, hr, hread, hnext⟩ := DCSVConn.Next_true conn.inner h1.symm
  have hrows := Reader_Read_row r r' row hread
  rw [hnext] at h2
  rw [Conn.remaining_inner, Conn.remaining_inner, Conn.Read_inner, h2, hr]
  refine ⟨by simp [hrows], rfl, ?_⟩
  intro f hf
  exact fillRecord_get_isSome _ row hlen _ f hf

/-- A run of `getRecords` that stops short of its bound is a drain. -/
theorem getRecordsLoop_drains (n : Nat) :
    ∀ (conn : Conn) (acc rs : List Record) (last : Conn),
      getRecordsLoop n conn acc = (rs, last) → rs.length < acc.length + n →
      ∃ rs1, rs = acc ++ rs1 ∧ Drains conn rs1 last := by
  induction n with
  | zero =>
    intro conn acc rs last h hlt
    simp only [getRecordsLoop, Prod.mk.injEq] at h
    rw [← h.1] at hlt
    omega
  | succ n ih =>
    intro conn acc rs last h hlt
    rcases hnext : conn.Next with ⟨b, conn1⟩
    cases b with
    | false =>
      simp only [getRecordsLoop, hnext, Prod.mk.injEq] at h
      exact ⟨[], by simp [h.1], h.2 ▸ Drains.stop conn conn1 hnext⟩
    | true =>
      simp only [getRecordsLoop, hnext] at h
      obtain ⟨rs1, hrs, hd⟩ := ih conn1 (acc ++ [conn1.Read]) rs last h
        (by simp only [List.length_append, List.length_singleton]; omega)
      exact ⟨conn1.Read :: rs1, by simp [hrs], Drains.more conn conn1 last rs1 hnext hd⟩

/-- A drain is what `getRecords` collects when its bound is above the number of
records. -/
theorem Drains.getRecordsLoop_eq {conn last : Conn} {rs : List Record} (hd : Drains conn rs last) :
    ∀ (n : Nat) (acc : List Record), rs.length < n →
      dcopy.getRecordsLoop n conn acc = (acc ++ rs, last) := by
  induction hd with
  | stop conn last h =>
    intro n acc hn
    cases n with
    | zero => simp at hn
    | succ n => simp [dcopy.getRecordsLoop, h]
  | more conn conn1 last records h _ ih =>
    intro n acc hn
    cases n with
    | zero => simp at hn
    | succ n =>
      have := ih n (acc ++ [conn1.Read]) (by simpa using hn)
      simp [dcopy.getRecordsLoop, h, this]

/-- A drain yields at most as many records as the reader has left, keeps the
dataset, and every record has an entry for every declared field name. -/
theorem Drains.facts {conn last : Conn} {rs : List Record} (hd : Drains conn rs last) :
    rs.length ≤ conn.remaining ∧
      ∀ r, r ∈ rs → ∀ f, f ∈ conn.inner.dataset.fieldNames → ∃ l, r.get f = some l := by
  induction hd with
  | stop conn last h => simp
  | more conn conn1 last records h _ ih =>
    obtain ⟨h1, h2, h3⟩ := Conn.Next_true_facts conn conn1 h
    refine ⟨by simp only [List.length_cons]; omega, ?_⟩
    intro r hr f hf
    rcases List.mem_cons.mp hr with hr1 | hr1
    · subst hr1
      exact h3 f hf
    · exact ih.2 r hr1 f (by rw [h2]; exact hf)

/-- For a record with an entry for every field, the inner loop of `New` gives the
cells of the fields in order. -/
theorem strRecord_of_get (record : Record) (fields : List String)
    (h : ∀ f, f ∈ fields → ∃ l, record.get f = some l) :
    strRecord fields record = some (fields.map (cell record)) := by
  induction fields with
  | nil => rfl
  | cons f fields ih =>
    obtain ⟨l, hl⟩ := h f (by simp)
    have := ih (fun f' hf' => h f' (by simp [hf']))
    simp [strRecord, hl, this, cell]

/-- No write of the buffer fails when none can. -/
theorem firstWriteErr_none (fs : os.FS) (h : ∀ k, fs.writeErr k = none) (n : Nat) :
    ∀ first, csv.firstWriteErr fs first n = none := by
  induction n with
  | zero => intro first; rfl
  | succ n ih =>
    intro first
    simp [csv.firstWriteErr, h first, ih]

/-- A `Write` on a writer that has met no error, when no write of the buffer to the
file fails, adds the record. -/
theorem Write_ok (fs : os.FS) (w : csv.Writer) (record : List String)
    (h : ∀ k, fs.writeErr k = none) (he : w.err = none) :
    w.Write fs record = (none, { w with rows := w.rows ++ [record] }) := by
  simp [csv.Writer.Write, he, firstWriteErr_none fs h]

/-- A `Write` that succeeds adds the record to a writer that has met no error, and a
`Write` that fails gives a writer no record is added to. -/
theorem Write_cases (fs : os.FS) (w : csv.Writer) (record : List String) :
    (w.Write fs record = (none, { w with rows := w.rows ++ [record] }) ∧ w.err = none) ∨
      ∃ e, (w.Write fs record).1 = some e := by
  obtain ⟨n, r, oe⟩ := w
  cases oe with
  | some e => exact Or.inr ⟨e, rfl⟩
  | none =>
    cases hf : csv.firstWriteErr fs (csv.chunks (csv.Writer.bytes ⟨n, r, none⟩))
        (csv.chunks (csv.Writer.bytes ⟨n, r, none⟩ + csv.recordSize record) -
          csv.chunks (csv.Writer.bytes ⟨n, r, none⟩)) with
    | some e => exact Or.inr ⟨e, by simp [csv.Writer.Write, hf]⟩
    | none => exact Or.inl ⟨by simp [csv.Writer.Write, hf], rfl⟩

/-- Along a drain whose records have an entry for every field, and while no write
of the buffer to the file fails, the loop of `New` writes the cells of every record
in order and ends when `Next` returns false. -/
theorem Drains.copyRecords_eq {conn last : Conn} {rs : List Record} (hd : Drains conn rs last)
    (fs : os.FS) (fields : List String) :
    ∀ (n : Nat) (w : csv.Writer), rs.length < n →
      (∀ r, r ∈ rs → ∀ f, f ∈ fields → ∃ l, r.get f = some l) →
      (∀ k, fs.writeErr k = none) → w.err = none →
      dcopy.copyRecords fs fields n conn w =
        .done last { w with rows := w.rows ++ rs.map (fun r => fields.map (cell r)) } := by
  induction hd with
  | stop conn last h =>
    intro n w hn _ _ _
    cases n with
    | zero => simp at hn
    | succ n => simp [dcopy.copyRecords, h]
  | more conn conn1 last records h _ ih =>
    intro n w hn hget hw he
    cases n with
    | zero => simp at hn
    | succ n =>
      have hstr := strRecord_of_get conn1.Read fields (hget conn1.Read (by simp))
      have hwrite := Write_ok fs w (fields.map (cell conn1.Read)) hw he
      have := ih n { w with rows := w.rows ++ [fields.map (cell conn1.Read)] }
        (by simpa using hn)
        (fun r hr => hget r (by simp [hr])) hw he
      simp [dcopy.copyRecords, h, hstr, hwrite, this]

/-- Along a drain whose records have an entry for every field, the loop of `New`
ends when `Next` returns false or when a write fails. -/
theorem Drains.copyRecords_stops {conn last : Conn} {rs : List Record}
    (hd : Drains conn rs last) (fs : os.FS) (fields : List String) :
    ∀ (n : Nat) (w : csv.Writer), rs.length < n →
      (∀ r, r ∈ rs → ∀ f, f ∈ fields → ∃ l, r.get f = some l) →
      (∃ w', dcopy.copyRecords fs fields n conn w = .done last w') ∨
        ∃ e, dcopy.copyRecords fs fields n conn w = .writeFailed e := by
  induction hd with
  | stop conn last h =>
    intro n w hn _
    cases n with
    | zero => simp at hn
    | succ n => exact Or.inl ⟨w, by simp [dcopy.copyRecords, h]⟩
  | more conn conn1 last records h _ ih =>
    intro n w hn hget
    cases n with
    | zero => simp at hn
    | succ n =>
      have hstr := strRecord_of_get conn1.Read fields (hget conn1.Read (by simp))
      rcases Write_cases fs w (fields.map (cell conn1.Read)) with ⟨hwrite, _⟩ | ⟨e, he⟩
      · rcases ih n { w with rows := w.rows ++ [fields.map (cell conn1.Read)] }
          (by simpa using hn) (fun r hr => hget r (by simp [hr])) with ⟨w', hw'⟩ | ⟨e, he⟩
        · exact Or.inl ⟨w', by simp [dcopy.copyRecords, h, hstr, hwrite, hw']⟩
        · exact Or.inr ⟨e, by simp [dcopy.copyRecords, h, hstr, hwrite, he]⟩
      · right
        rcases hres : w.Write fs (fields.map (cell conn1.Read)) with ⟨oe, w1⟩
        rw [hres] at he
        simp only at he
        subst he
        exact ⟨e, by simp [dcopy.copyRecords, h, hstr, hres]⟩

/-! ### The file system -/

/-- The copy file of a temporary directory lies inside it. -/
theorem inside_Join (dir name : String) : os.inside dir (filepath.Join dir name) = true := by
  simp [os.inside, filepath.Join, String.data_append]

/-- No entry of a list of files has a path that none of them has. -/
theorem find_eq_none (files : List (String × os.FileData)) (name : String)
    (h : ∀ p, p ∈ files → p.1 ≠ name) : files.find? (fun p => p.1 = name) = none := by
  induction files with
  | nil => rfl
  | cons p rest ih =>
    have hp : ¬ p.1 = name := h p (by simp)
    rw [List.find?_cons_of_neg _ (by simpa using hp)]
    exact ih (fun q hq => h q (by simp [hq]))

/-- Looking up a path that no file has gives nothing. -/
theorem lookup_eq_none (fs : os.FS) (name : String) (h : ∀ p, p ∈ fs.files → p.1 ≠ name) :
    fs.lookup name = none := by
  unfold os.FS.lookup
  rw [find_eq_none fs.files name h]
  rfl

/-- What `ioutil.TempDir` has done when it succeeds. -/
theorem TempDir_ok (fs : os.FS) (dir : String) (h : (ioutil.TempDir fs).1 = .ok dir) :
    ioutil.TempDir fs = (.ok dir, { fs with dirs := dir :: fs.dirs }) ∧ dir ∉ fs.dirs ∧
      ∀ name, fs.lookup (filepath.Join dir name) = none := by
  unfold ioutil.TempDir at h ⊢
  cases ht : fs.tempDir with
  | error e => simp [ht] at h
  | ok d =>
    simp only [ht] at h ⊢
    by_cases hc : d ∈ fs.dirs ∨ fs.files.any (fun p => os.inside d p.1) = true
    · rw [if_pos hc] at h
      cases h
    · rw [if_neg hc] at h ⊢
      injection h with h
      subst h
      refine ⟨rfl, fun hd => hc (Or.inl hd), ?_⟩
      intro name
      apply lookup_eq_none
      intro p hp hname
      apply hc
      right
      rw [List.any_eq_true]
      exact ⟨p, hp, by rw [hname]; exact inside_Join d name⟩

/-- Dropping the entries of one path leaves the first entry of another path. -/
theorem find_filter_ne (files : List (String × os.FileData)) (name x : String)
    (hx : x ≠ name) :
    (files.filter (fun p => p.1 ≠ name)).find? (fun p => p.1 = x) =
      files.find? (fun p => p.1 = x) := by
  induction files with
  | nil => rfl
  | cons p rest ih =>
    by_cases hp : p.1 = name
    · have hpx : ¬ p.1 = x := fun h => hx (h.symm.trans hp)
      rw [List.filter_cons_of_neg (by simpa using hp),
        List.find?_cons_of_neg _ (by simpa using hpx)]
      exact ih
    · rw [List.filter_cons_of_pos (by simpa using hp)]
      by_cases hpx : p.1 = x
      · rw [List.find?_cons_of_pos _ (by simpa using hpx),
          List.find?_cons_of_pos _ (by simpa using hpx)]
      · rw [List.find?_cons_of_neg _ (by simpa using hpx),
          List.find?_cons_of_neg _ (by simpa using hpx)]
        exact ih

/-- Looking up a path after `os.Create` of a path. -/
theorem lookup_Create (fs : os.FS) (name x : String) (h : fs.createErr name = none) :
    (os.Create fs name).2.lookup x =
      if x = name then some { rows := [], openErr := none, closeErr := none }
      else fs.lookup x := by
  by_cases hx : x = name
  · subst hx
    simp [os.Create, h, os.FS.lookup]
  · have hx' : ¬ name = x := fun h => hx h.symm
    simp only [os.Create, h, os.FS.lookup, hx, if_false]
    rw [List.find?_cons_of_neg _ (by simpa using hx'), find_filter_ne fs.files name x hx]

/-- Rewriting the records of one path keeps the other entries and rewrites the
first entry of that path. -/
theorem find_map_rows (files : List (String × os.FileData)) (name : String)
    (rows : List csv.RawRow) :
    ((files.map (fun p => if p.1 = name then (p.1, { p.2 with rows := rows }) else p)).find?
        (fun p => p.1 = name)).map (fun p => p.2) =
      ((files.find? (fun p => p.1 = name)).map (fun p => p.2)).map
        (fun fd => { fd with rows := rows }) := by
  induction files with
  | nil => rfl
  | cons p rest ih =>
    rw [List.map_cons]
    by_cases hp : p.1 = name
    · rw [if_pos hp, List.find?_cons_of_pos _ (by simpa using hp),
        List.find?_cons_of_pos _ (by simpa using hp)]
      rfl
    · rw [if_neg hp, List.find?_cons_of_neg _ (by simpa using hp),
        List.find?_cons_of_neg _ (by simpa using hp)]
      exact ih

/-- Looking up the file of a writer after a `Flush` that succeeds. -/
theorem lookup_Flush (fs : os.FS) (w : csv.Writer) (h : w.Error fs = none) :
    (w.Flush fs).lookup w.name =
      (fs.lookup w.name).map (fun fd =>
        { fd with rows := (w.rows.filterMap csv.readBack).map csv.RawRow.row }) := by
  simp only [csv.Writer.Flush, h, os.FS.lookup]
  exact find_map_rows fs.files w.name ((w.rows.filterMap csv.readBack).map csv.RawRow.row)

/-- A `Flush` leaves the outcomes of the calls that depend on the environment. -/
theorem Flush_oracles (fs : os.FS) (w : csv.Writer) :
    (w.Flush fs).flushErr = fs.flushErr ∧ (w.Flush fs).removeAllErr = fs.removeAllErr ∧
      (w.Flush fs).dirs = fs.dirs := by
  unfold csv.Writer.Flush
  cases w.Error fs <;> exact ⟨rfl, rfl, rfl⟩

/-- The error of a writer after `Flush` is the error it had before. -/
theorem Error_Flush (fs : os.FS) (w : csv.Writer) : w.Error (w.Flush fs) = w.Error fs := by
  unfold csv.Writer.Error
  rw [(Flush_oracles fs w).1]

/-- What `Open` of a `DCSV` returns depends on the file system through the file of
the dataset. -/
theorem DCSV_Open_congr (fs fs' : os.FS) (d : DCSV)
    (h : fs'.lookup d.filename = fs.lookup d.filename) :
    DCSV.Open fs' d = DCSV.Open fs d := by
  simp [DCSV.Open, makeCsvReader, os.Open, h]

/-- The method `Open` of a `DCSV` succeeds on an existing file only. -/
theorem DCSV_Open_lookup (fs : os.FS) (d : DCSV) (cc : DCSVConn) (h : DCSV.Open fs d = .ok cc) :
    fs.lookup d.filename ≠ none := by
  intro hl
  simp [DCSV.Open, makeCsvReader, os.Open, hl] at h

/-- What `Open` of a dataset returns depends on the file system through the file of
the dataset. -/
theorem Dataset.Open_congr (fs fs' : os.FS) (D : Dataset)
    (h : fs'.lookup D.filename = fs.lookup D.filename) :
    D.Open fs' = D.Open fs := by
  cases D with
  | dcsv d => simp [Dataset.Open, DCSV_Open_congr fs fs' d h]
  | dcopy d => simp [Dataset.Open, DCopy.Open, DCSV_Open_congr fs fs' d.dataset h]

/-- A connection from `Open` of a dataset: the file exists, no error is latched,
and the field names of the `DCSVConn` behind it are the fields of the dataset. -/
theorem Dataset.Open_ok (fs : os.FS) (D : Dataset) (conn : Conn) (h : D.Open fs = .ok conn) :
    fs.lookup D.filename ≠ none ∧ conn.inner.err = none ∧
      conn.inner.dataset.fieldNames = D.Fields := by
  cases D with
  | dcsv d =>
    simp only [Dataset.Open] at h
    cases ho : DCSV.Open fs d with
    | error e => simp [ho] at h
    | ok cc =>
      simp only [ho, Except.ok.injEq] at h
      subst h
      obtain ⟨h1, _, h3, _⟩ := DCSV.Open_fresh fs d cc ho
      exact ⟨DCSV_Open_lookup fs d cc ho, h3, by simp [Conn.inner, h1, Dataset.Fields,
        DCSV.GetFieldNames]⟩
  | dcopy d =>
    simp only [Dataset.Open, DCopy.Open] at h
    cases hr : d.isReleased with
    | true => simp [hr] at h
    | false =>
      cases ho : DCSV.Open fs d.dataset with
      | error e => simp [hr, ho] at h
      | ok cc =>
        simp [hr, ho] at h
        subst h
        obtain ⟨h1, _, h3, _⟩ := DCSV.Open_fresh fs d.dataset cc ho
        exact ⟨DCSV_Open_lookup fs d.dataset cc ho, h3, by simp [Conn.inner, h1,
          Dataset.Fields, DCopy.Fields, hr, DCSV.GetFieldNames]⟩

/-! ### The function `New` -/

/-- A source that opens before `New` creates its store opens the same way after. -/
theorem Dataset.Open_storeFS (fs : os.FS) (D : Dataset) (dir : String) (conn : Conn)
    (hT : (ioutil.TempDir fs).1 = .ok dir)
    (hC : fs.createErr (filepath.Join dir "copy.csv") = none) (hO : D.Open fs = .ok conn) :
    D.Open (storeFS fs dir) = .ok conn := by
  obtain ⟨_, _, hfresh⟩ := TempDir_ok fs dir hT
  obtain ⟨hex, _, _⟩ := Dataset.Open_ok fs D conn hO
  have hne : D.filename ≠ filepath.Join dir "copy.csv" := by
    intro he
    rw [he] at hex
    exact hex (hfresh "copy.csv")
  rw [← hO]
  apply Dataset.Open_congr
  unfold storeFS
  rw [lookup_Create { fs with dirs := dir :: fs.dirs } _ _ hC, if_neg hne]
  rfl

/-- What `New` returns when the temporary directory and the copy file are created,
the source opens, its drain yields `rs` and leaves `last`, and no write of the
buffer to the copy file fails. -/
theorem New_of_drains (fs : os.FS) (D : Dataset) (dir : String) (conn last : Conn)
    (rs : List Record) (hT : (ioutil.TempDir fs).1 = .ok dir)
    (hC : fs.createErr (filepath.Join dir "copy.csv") = none) (hO : D.Open fs = .ok conn)
    (hd : Drains conn rs last) (hw : ∀ k, fs.writeErr k = none) :
    New fs D =
      match last.Err with
      | some err => (.error err, (os.RemoveAll (storeFS fs dir) dir).2)
      | none =>
        match (storeWriter dir D.Fields rs).Error fs with
        | some err =>
          (.error err,
            (os.RemoveAll ((storeWriter dir D.Fields rs).Flush (storeFS fs dir)) dir).2)
        | none =>
          (.dataset { dataset := dcsv.New (filepath.Join dir "copy.csv") false ',' D.Fields
                      tmpDir := dir
                      isReleased := false },
            (storeWriter dir D.Fields rs).Flush (storeFS fs dir)) := by
  obtain ⟨hT', _, _⟩ := TempDir_ok fs dir hT
  have hO' := Dataset.Open_storeFS fs D dir conn hT hC hO
  obtain ⟨_, _, hfields⟩ := Dataset.Open_ok fs D conn hO
  obtain ⟨hlen, hget⟩ := hd.facts
  have hloop := hd.copyRecords_eq (storeFS fs dir) D.Fields (conn.remaining + 1)
    (csv.NewWriter { name := filepath.Join dir "copy.csv", rows := [], closeErr := none })
    (by omega)
    (fun r hr f hf => hget r hr f (by rw [hfields]; exact hf))
    (by
      intro k
      have := hw k
      simpa [storeFS, os.Create, hC] using this)
    rfl
  have hcreate : os.Create { fs with dirs := dir :: fs.dirs } (filepath.Join dir "copy.csv") =
      (.ok { name := filepath.Join dir "copy.csv", rows := [], closeErr := none },
        storeFS fs dir) := by
    simp [storeFS, os.Create, hC]
  have hflush : (storeFS fs dir).flushErr = fs.flushErr := by
    simp [storeFS, os.Create, hC]
  have hloop1 : copyRecords (storeFS fs dir) D.Fields (conn.remaining + 1) conn
      (csv.NewWriter { name := filepath.Join dir "copy.csv", rows := [], closeErr := none }) =
      .done last (storeWriter dir D.Fields rs) := by
    rw [hloop]
    simp [storeWriter, csv.NewWriter]
  have herror : (storeWriter dir D.Fields rs).Error
      ((storeWriter dir D.Fields rs).Flush (storeFS fs dir)) =
      (storeWriter dir D.Fields rs).Error fs := by
    rw [Error_Flush]
    unfold csv.Writer.Error
    rw [hflush]
  unfold New
  simp only [hT', hcreate, hO', hloop1]
  cases hl : last.Err with
  | some err => simp [hl]
  | none =>
    simp only [hl, herror]

/-! ### Reading a copy back -/

/-- Records that a `csv.Reader` yields as they were written are all read back. -/
theorem filterMap_readBack (rows : List (List String))
    (h : ∀ row, row ∈ rows → csv.readBack row = some row) :
    rows.filterMap csv.readBack = rows := by
  induction rows with
  | nil => rfl
  | cons row rows ih =>
    rw [List.filterMap_cons_some (h row (by simp)), ih (fun r hr => h r (by simp [hr]))]

/-- The csv reader yields a record whose cell count agrees with `FieldsPerRecord`,
or is the first one. -/
theorem Reader_Read_good (row : List String) (rest : List csv.RawRow) (n : Nat)
    (h : n = 0 ∨ n = row.length) :
    (⟨.row row :: rest, n⟩ : csv.Reader).Read = ((row, none), ⟨rest, row.length⟩) := by
  rcases h with h | h
  · subst h
    simp [csv.Reader.Read]
  · subst h
    by_cases h0 : 0 < row.length
    · simp [csv.Reader.Read, h0]
    · simp [csv.Reader.Read, h0]

/-- A drain of a connection of a copy whose reader is on the rows written for the
records `rs`: it yields one record for each of them, holding under every field the
literal of the cell written for it, and ends with no error. -/
theorem drains_written (fields : List String) (rs : List Record) :
    ∀ (cc : DCSVConn) (n : Nat) (e0 : Option Error), cc.err = none →
      cc.reader = some ⟨(rs.map (fun r => fields.map (cell r))).map csv.RawRow.row, n⟩ →
      (n = 0 ∨ n = fields.length) → cc.dataset.fieldNames = fields →
      ∃ (rs' : List Record) (last : Conn),
        Drains (.dcopy ⟨cc, e0⟩) rs' last ∧ last.Err = none ∧
        List.Forall₂ (fun r r' => ∀ f, f ∈ fields → r'.get f = some ⟨cell r f⟩) rs rs' := by
  induction rs with
  | nil =>
    intro cc n e0 herr hr _ _
    have hnext := DCSVConn.Next_eof cc _ herr hr (by simp [csv.Reader.Read])
    refine ⟨[], .dcopy ⟨cc, e0⟩, Drains.stop _ _ ?_, ?_, List.Forall₂.nil⟩
    · simp [Conn.Next, DCopyConn.Next, hnext]
    · simpa [Conn.Err, DCopyConn.Err, DCSVConn.Err] using herr
  | cons r rest ih =>
    intro cc n e0 herr hr hn hnames
    have hlen : (fields.map (cell r)).length = cc.dataset.fieldNames.length := by
      rw [hnames, List.length_map]
    have hread := Reader_Read_good (fields.map (cell r))
      ((rest.map (fun r => fields.map (cell r))).map csv.RawRow.row) n
      (by rw [List.length_map]; exact hn)
    have hnext := DCSVConn.Next_row cc _ _ _ herr (by simpa using hr) hread hlen
    obtain ⟨rs', last, hd, hlast, hall⟩ := ih cc.Next.2 (fields.map (cell r)).length e0
      (by rw [hnext]; exact herr) (by rw [hnext]) (by rw [List.length_map]; exact Or.inr rfl)
      (by rw [hnext]; exact hnames)
    have hcn : (Conn.dcopy ⟨cc, e0⟩).Next = (true, .dcopy ⟨cc.Next.2, e0⟩) := by
      simp [Conn.Next, DCopyConn.Next, hnext]
    refine ⟨(Conn.dcopy ⟨cc.Next.2, e0⟩).Read :: rs', last,
      Drains.more _ _ _ _ hcn hd, hlast, List.Forall₂.cons ?_ hall⟩
    intro f hf
    have hrec : (Conn.dcopy ⟨cc.Next.2, e0⟩).Read =
        (fillRecord cc.dataset.fieldNames (fields.map (cell r)) hlen cc.currentRecord).1 := by
      rw [Conn.Read_inner, Conn.inner, hnext]
    rw [hrec]
    have hfill := fillRecord_get_map (cell r) fields (by simp) cc.currentRecord f hf
    simpa [hnames] using hfill

/-- A run of `getRecords` that ends one short of its bound is a drain, whose last
connection has the error `getRecords` returns. -/
theorem getRecords_drains (conn : Conn) (rs : List Record) (oe : Option Error)
    (h : getRecords conn (rs.length + 1) = (rs, oe)) :
    ∃ last, Drains conn rs last ∧ last.Err = oe := by
  unfold getRecords at h
  simp only [Prod.mk.injEq] at h
  obtain ⟨h1, h2⟩ := h
  have hL : getRecordsLoop (rs.length + 1) conn [] =
      (rs, (getRecordsLoop (rs.length + 1) conn []).2) := Prod.ext h1 rfl
  obtain ⟨rs1, hrs, hd⟩ := getRecordsLoop_drains (rs.length + 1) conn [] rs _ hL (by simp)
  rw [List.nil_append] at hrs
  subst hrs
  exact ⟨_, hd, h2⟩

/-- A relation between two lists in step passes to a weaker relation that may use
the membership of the left elements. -/
theorem forall₂_imp_mem {α β : Type} {R S : α → β → Prop} {l1 : List α} {l2 : List β}
    (h : List.Forall₂ R l1 l2) (himp : ∀ a, a ∈ l1 → ∀ b, R a b → S a b) :
    List.Forall₂ S l1 l2 := by
  induction h with
  | nil => exact List.Forall₂.nil
  | cons hab _ ih =>
    exact List.Forall₂.cons (himp _ (by simp) _ hab)
      (ih (fun a ha b hr => himp a (by simp [ha]) b hr))

/-- A drain is what `getRecords` returns when its bound is one above the number of
records. -/
theorem Drains.getRecords_eq {conn last : Conn} {rs : List Record} (hd : Drains conn rs last) :
    dcopy.getRecords conn (rs.length + 1) = (rs, last.Err) := by
  unfold dcopy.getRecords
  rw [hd.getRecordsLoop_eq (rs.length + 1) [] (by omega)]
  rfl

/-- C8, amended: for a source dataset whose full drain yields the records `rs` and
no error, when the temporary directory and the copy file are created, no write to
the copy file fails, and the row written for each record is one a `csv.Reader`
yields as it was written (it is not one empty cell, and no cell holds a carriage
return right before a line feed), `New` returns a copy with the fields of the
source; a connection opens on the copy, and its full drain yields no error and as
many records, in the same order, each holding under every field `f` of the source
the literal built from the string of the source record's literal for `f`. -/
theorem C8_copy_round_trip (fs : os.FS) (D : Dataset) (dir : String) (conn : Conn)
    (rs : List Record) (hT : (ioutil.TempDir fs).1 = .ok dir)
    (hC : fs.createErr (filepath.Join dir "copy.csv") = none)
    (hW : ∀ k, fs.writeErr k = none) (hF : fs.flushErr = none)
    (hO : D.Open fs = .ok conn) (hdrain : getRecords conn (rs.length + 1) = (rs, none))
    (hback : ∀ r, r ∈ rs →
      csv.readBack (D.Fields.map (cell r)) = some (D.Fields.map (cell r))) :
    ∃ (copy : DCopy) (fs' : os.FS) (conn2 : Conn) (rs' : List Record),
      New fs D = (.dataset copy, fs') ∧ (Dataset.dcopy copy).Fields = D.Fields ∧
      (Dataset.dcopy copy).Open fs' = .ok conn2 ∧
      getRecords conn2 (rs'.length + 1) = (rs', none) ∧ rs'.length = rs.length ∧
      List.Forall₂ (fun r r' => ∀ f, f ∈ D.Fields →
        ∃ l l', r.get f = some l ∧ dlit.New l.String = .ok l' ∧ r'.get f = some l') rs rs' := by
  obtain ⟨last, hd, hlast⟩ := getRecords_drains conn rs none hdrain
  have hnew := New_of_drains fs D dir conn last rs hT hC hO hd hW
  have hE : ∀ fs1 : os.FS, fs1.flushErr = none →
      (storeWriter dir D.Fields rs).Error fs1 = none := by
    intro fs1 h1
    simp [csv.Writer.Error, storeWriter, h1]
  simp only [hlast, hE fs hF] at hnew
  obtain ⟨_, _, hfields⟩ := Dataset.Open_ok fs D conn hO
  obtain ⟨_, hget⟩ := hd.facts
  have hrows : (rs.map (fun r => D.Fields.map (cell r))).filterMap csv.readBack =
      rs.map (fun r => D.Fields.map (cell r)) := by
    apply filterMap_readBack
    intro row hrow
    obtain ⟨r, hr, rfl⟩ := List.mem_map.mp hrow
    exact hback r hr
  -- the copy file holds the rows written
  have hlook : ((storeWriter dir D.Fields rs).Flush (storeFS fs dir)).lookup
      (filepath.Join dir "copy.csv") =
      some { rows := (rs.map (fun r => D.Fields.map (cell r))).map csv.RawRow.row,
             openErr := none, closeErr := none } := by
    have hFs : (storeFS fs dir).flushErr = none := by
      simpa [storeFS, os.Create, hC] using hF
    have := lookup_Flush (storeFS fs dir) (storeWriter dir D.Fields rs) (hE _ hFs)
    simp only [storeWriter] at this ⊢
    rw [this, hrows]
    unfold storeFS
    rw [lookup_Create { fs with dirs := dir :: fs.dirs } _ _ hC]
    simp
  -- the connection opened on the copy
  obtain ⟨rs', last', hd', hlast', hall⟩ := drains_written D.Fields rs
    { dataset := dcsv.New (filepath.Join dir "copy.csv") false ',' D.Fields
      file := some { name := filepath.Join dir "copy.csv",
                     rows := (rs.map (fun r => D.Fields.map (cell r))).map csv.RawRow.row,
                     closeErr := none }
      reader := some ⟨(rs.map (fun r => D.Fields.map (cell r))).map csv.RawRow.row, 0⟩
      currentRecord := []
      err := none } 0 none rfl rfl (Or.inl rfl) rfl
  refine ⟨_, _,
    Conn.dcopy ⟨{ dataset := dcsv.New (filepath.Join dir "copy.csv") false ',' D.Fields
                  file := some { name := filepath.Join dir "copy.csv",
                                 rows := (rs.map (fun r => D.Fields.map (cell r))).map
                                   csv.RawRow.row,
                                 closeErr := none }
                  reader := some ⟨(rs.map (fun r => D.Fields.map (cell r))).map
                    csv.RawRow.row, 0⟩
                  currentRecord := []
                  err := none }, none⟩,
    rs', hnew, ?_, ?_, ?_, ?_, ?_⟩
  · simp [Dataset.Fields, DCopy.Fields, dcsv.New, DCSV.GetFieldNames]
  · simp [Dataset.Open, DCopy.Open, DCSV.Open, makeCsvReader, os.Open, dcsv.New, hlook,
      csv.NewReader]
  · rw [hd'.getRecords_eq, hlast']
  · exact hall.length_eq.symm
  · refine forall₂_imp_mem hall ?_
    intro r hr r' hrr' f hf
    obtain ⟨l, hl⟩ := hget r hr f (by rw [hfields]; exact hf)
    refine ⟨l, ⟨l.String⟩, hl, rfl, ?_⟩
    rw [hrr' f hf]
    simp [cell, hl]

/-- C8, amended, at the sample file of two good rows. -/
theorem C8_copy_round_trip_witness :
    ((ioutil.TempDir sample.fsGood).1 = .ok "/tmp/dcopy1" ∧
      sample.fsGood.createErr (filepath.Join "/tmp/dcopy1" "copy.csv") = none ∧
      (∀ k, sample.fsGood.writeErr k = none) ∧
      sample.fsGood.flushErr = none ∧
      (Dataset.dcsv sample.dsGood).Open sample.fsGood = .ok (.dcsv sample.connGood) ∧
      getRecords (.dcsv sample.connGood) (sample.rsGood.length + 1) = (sample.rsGood, none) ∧
      (∀ r, r ∈ sample.rsGood →
        csv.readBack ((Dataset.dcsv sample.dsGood).Fields.map (cell r)) =
          some ((Dataset.dcsv sample.dsGood).Fields.map (cell r)))) ∧
    ∃ (copy : DCopy) (fs' : os.FS) (conn2 : Conn) (rs' : List Record),
      New sample.fsGood (.dcsv sample.dsGood) = (.dataset copy, fs') ∧
      (Dataset.dcopy copy).Fields = (Dataset.dcsv sample.dsGood).Fields ∧
      (Dataset.dcopy copy).Open fs' = .ok conn2 ∧
      getRecords conn2 (rs'.length + 1) = (rs', none) ∧ rs'.length = sample.rsGood.length ∧
      List.Forall₂ (fun r r' => ∀ f, f ∈ (Dataset.dcsv sample.dsGood).Fields →
        ∃ l l', r.get f = some l ∧ dlit.New l.String = .ok l' ∧ r'.get f = some l')
        sample.rsGood rs' :=
  ⟨⟨rfl, rfl, fun _ => rfl, rfl, rfl, by decide, by decide⟩,
    C8_copy_round_trip sample.fsGood (.dcsv sample.dsGood) "/tmp/dcopy1" (.dcsv sample.connGood)
      sample.rsGood rfl rfl (fun _ => rfl) rfl rfl (by decide) (by decide)⟩

/-- C8 as stated fails.  The full drain of the sample dataset yields two records
and no error, but `New` returns an error when no temporary directory can be
created.  The full drain of the sample dataset of one column yields two records,
the second of one empty cell, and no error, but the drain of its copy yields the
first record only: the record of one empty cell is written as an empty line, which
the reader of the copy skips.  The record of the third sample dataset holds a cell
with a carriage return right before a line feed, and the record of its copy holds
that cell without the carriage return. -/
theorem C8_counterexample_store_and_read_back :
    ((Dataset.dcsv sample.dsGood).Open sample.fsNoTemp = .ok (.dcsv sample.connGood) ∧
      getRecords (.dcsv sample.connGood) (sample.rsGood.length + 1) = (sample.rsGood, none) ∧
      (New sample.fsNoTemp (.dcsv sample.dsGood)).1 =
        .error (.PathError "mkdir" "/tmp/dcopy1" "no space left on device")) ∧
    (sample.sourceDrain sample.fsBlank (.dcsv sample.dsBlank) 3 =
        some ([[("a", ⟨"x"⟩)], [("a", ⟨""⟩)]], none) ∧
      sample.copyDrain sample.fsBlank (.dcsv sample.dsBlank) 3 =
        some ([[("a", ⟨"x"⟩)]], none)) ∧
    (sample.sourceDrain sample.fsBlank (.dcsv sample.dsCrlf) 2 =
        some ([[("a", ⟨"a\r\nb"⟩), ("b", ⟨"c"⟩)]], none) ∧
      sample.copyDrain sample.fsBlank (.dcsv sample.dsCrlf) 2 =
        some ([[("a", ⟨"a\nb"⟩), ("b", ⟨"c"⟩)]], none)) :=
  ⟨⟨rfl, by decide, by decide⟩, ⟨by decide, by decide⟩, ⟨by decide, by decide⟩⟩

/-! ### Failures of `New` -/

/-- A drain is determined by the connection it starts from. -/
theorem Drains.unique {conn last : Conn} {rs : List Record} (hd : Drains conn rs last) :
    ∀ (rs2 : List Record) (last2 : Conn), Drains conn rs2 last2 → rs2 = rs ∧ last2 = last := by
  induction hd with
  | stop conn last h =>
    intro rs2 last2 hd2
    cases hd2 with
    | stop _ _ h2 =>
      rw [h] at h2
      simp only [Prod.mk.injEq, true_and] at h2
      exact ⟨rfl, h2.symm⟩
    | more _ c1 _ _ h2 _ =>
      rw [h] at h2
      simp at h2
  | more conn conn1 last records h _ ih =>
    intro rs2 last2 hd2
    cases hd2 with
    | stop _ _ h2 =>
      rw [h] at h2
      simp at h2
    | more _ c1 _ records2 h2 rest2 =>
      rw [h] at h2
      simp only [Prod.mk.injEq, true_and] at h2
      subst h2
      obtain ⟨h3, h4⟩ := ih records2 last2 rest2
      exact ⟨by rw [h3], h4⟩

/-- When the loop of `New` ends because `Next` returned false, the connection has
been drained. -/
theorem copyRecords_done (fs : os.FS) (fields : List String) (n : Nat) :
    ∀ (conn : Conn) (w : csv.Writer) (last : Conn) (w' : csv.Writer),
      copyRecords fs fields n conn w = .done last w' → ∃ rs, Drains conn rs last := by
  induction n with
  | zero =>
    intro conn w last w' h
    simp [copyRecords] at h
  | succ n ih =>
    intro conn w last w' h
    rcases hnext : conn.Next with ⟨b, conn1⟩
    cases b with
    | false =>
      simp only [copyRecords, hnext, LoopEnd.done.injEq] at h
      exact ⟨[], h.1 ▸ Drains.stop conn conn1 hnext⟩
    | true =>
      simp only [copyRecords, hnext] at h
      cases hs : strRecord fields conn1.Read with
      | none => simp [hs] at h
      | some row =>
        simp only [hs] at h
        rcases hw : w.Write fs row with ⟨oe, w1⟩
        cases oe with
        | some e => simp [hw] at h
        | none =>
          simp only [hw] at h
          obtain ⟨rs, hd⟩ := ih conn1 w1 last w' h
          exact ⟨conn1.Read :: rs, Drains.more conn conn1 last rs hnext hd⟩

/-- When `New` returns a dataset, the temporary directory and the copy file were
created and the source, opened after that, was drained to the end with no error. -/
theorem New_dataset (fs : os.FS) (D : Dataset) (d : DCopy) (fs' : os.FS)
    (h : New fs D = (.dataset d, fs')) :
    (ioutil.TempDir fs).1 = .ok d.tmpDir ∧
      fs.createErr (filepath.Join d.tmpDir "copy.csv") = none ∧
      ∃ (conn last : Conn) (rs : List Record),
        D.Open (storeFS fs d.tmpDir) = .ok conn ∧ Drains conn rs last ∧ last.Err = none := by
  unfold New at h
  rcases hT : ioutil.TempDir fs with ⟨res, fs1⟩
  cases res with
  | error e => simp [hT] at h
  | ok dir =>
    obtain ⟨hT', _, _⟩ := TempDir_ok fs dir (by rw [hT])
    rw [hT] at hT'
    simp only [Prod.mk.injEq, true_and] at hT'
    subst hT'
    simp only [hT] at h
    cases hC : fs.createErr (filepath.Join dir "copy.csv") with
    | some e => simp [os.Create, hC] at h
    | none =>
      have hcreate : os.Create { fs with dirs := dir :: fs.dirs }
          (filepath.Join dir "copy.csv") =
          (.ok { name := filepath.Join dir "copy.csv", rows := [], closeErr := none },
            storeFS fs dir) := by
        simp [storeFS, os.Create, hC]
      simp only [hcreate] at h
      cases hO : D.Open (storeFS fs dir) with
      | error e => simp [hO] at h
      | ok conn =>
        simp only [hO] at h
        cases hloop : copyRecords (storeFS fs dir) D.Fields (conn.remaining + 1) conn
            (csv.NewWriter { name := filepath.Join dir "copy.csv", rows := [],
                             closeErr := none }) with
        | bound => simp [hloop] at h
        | nilDeref => simp [hloop] at h
        | writeFailed e => simp [hloop] at h
        | done last w1 =>
          simp only [hloop] at h
          cases hl : last.Err with
          | some e => simp [hl] at h
          | none =>
            simp only [hl] at h
            cases hf : w1.Error (w1.Flush (storeFS fs dir)) with
            | some e => simp [hf] at h
            | none =>
              simp only [hf, Prod.mk.injEq, NewResult.dataset.injEq] at h
              obtain ⟨hd, _⟩ := h
              subst hd
              obtain ⟨rs, hdr⟩ := copyRecords_done _ _ _ _ _ _ _ hloop
              exact ⟨rfl, hC, conn, last, rs, hO, hdr, hl⟩

/-- C10, amended: for a source dataset whose connection, once opened, latches an
error `e` after the records `rs`: `New` returns exactly `e` when the temporary
directory and the copy file are created and no write of the buffer of the
`csv.Writer` to the copy file fails, and in every case `New` returns no dataset; and
`New` returns a dataset only if the source connection it opened was drained to the
end with `Err` nil. -/
theorem C10_source_error_fails_copy (fs : os.FS) (D : Dataset) :
    (∀ (dir : String) (conn : Conn) (rs : List Record) (e : Error),
      (ioutil.TempDir fs).1 = .ok dir → fs.createErr (filepath.Join dir "copy.csv") = none →
      (∀ k, fs.writeErr k = none) → D.Open fs = .ok conn →
      getRecords conn (rs.length + 1) = (rs, some e) → (New fs D).1 = .error e) ∧
    (∀ (conn : Conn) (rs : List Record) (e : Error), D.Open fs = .ok conn →
      getRecords conn (rs.length + 1) = (rs, some e) → ∀ d, (New fs D).1 ≠ .dataset d) ∧
    (∀ (d : DCopy) (fs' : os.FS), New fs D = (.dataset d, fs') →
      ∃ (conn : Conn) (rs : List Record), D.Open (storeFS fs d.tmpDir) = .ok conn ∧
        getRecords conn (rs.length + 1) = (rs, none)) := by
  refine ⟨?_, ?_, ?_⟩
  · intro dir conn rs e hT hC hW hO hdrain
    obtain ⟨last, hd, hlast⟩ := getRecords_drains conn rs (some e) hdrain
    have hnew := New_of_drains fs D dir conn last rs hT hC hO hd hW
    simp only [hlast] at hnew
    rw [hnew]
  · intro conn rs e hO hdrain d hnew
    obtain ⟨last, hd, hlast⟩ := getRecords_drains conn rs (some e) hdrain
    have hfull : New fs D = (.dataset d, (New fs D).2) := Prod.ext hnew rfl
    obtain ⟨hT, hC, conn', last', rs', hO', hd', hlast'⟩ := New_dataset fs D d _ hfull
    have hO2 := Dataset.Open_storeFS fs D d.tmpDir conn hT hC hO
    rw [hO2] at hO'
    injection hO' with hc
    subst hc
    obtain ⟨_, hl⟩ := hd.unique rs' last' hd'
    rw [hl, hlast] at hlast'
    cases hlast'
  · intro d fs' hnew
    obtain ⟨_, _, conn, last, rs, hO, hd, hlast⟩ := New_dataset fs D d fs' hnew
    exact ⟨conn, rs, hO, by rw [hd.getRecords_eq, hlast]⟩

/-- C10, amended, at the sample file whose third data row has a cell too many, and,
for the last part, at the sample file of two good rows. -/
theorem C10_source_error_fails_copy_witness :
    ((ioutil.TempDir sample.fs).1 = .ok "/tmp/dcopy1" ∧
      sample.fs.createErr (filepath.Join "/tmp/dcopy1" "copy.csv") = none ∧
      (∀ k, sample.fs.writeErr k = none) ∧
      (Dataset.dcsv sample.ds).Open sample.fs = .ok (.dcsv sample.conn) ∧
      getRecords (.dcsv sample.conn) (sample.rsData.length + 1) =
        (sample.rsData, some .csvErrFieldCount)) ∧
    (New sample.fs (.dcsv sample.ds)).1 = .error .csvErrFieldCount ∧
    (∀ d, (New sample.fs (.dcsv sample.ds)).1 ≠ .dataset d) ∧
    (New sample.fsGood (.dcsv sample.dsGood) =
        (.dataset ⟨dcsv.New "/tmp/dcopy1/copy.csv" false ',' ["a", "b", "c"], "/tmp/dcopy1",
          false⟩, (New sample.fsGood (.dcsv sample.dsGood)).2) ∧
      ∃ (conn : Conn) (rs : List Record),
        (Dataset.dcsv sample.dsGood).Open (storeFS sample.fsGood "/tmp/dcopy1") = .ok conn ∧
        getRecords conn (rs.length + 1) = (rs, none)) :=
  ⟨⟨rfl, rfl, fun _ => rfl, rfl, by decide⟩,
    (C10_source_error_fails_copy sample.fs (.dcsv sample.ds)).1 "/tmp/dcopy1"
      (.dcsv sample.conn) sample.rsData .csvErrFieldCount rfl rfl (fun _ => rfl) rfl
      (by decide),
    (C10_source_error_fails_copy sample.fs (.dcsv sample.ds)).2.1 (.dcsv sample.conn)
      sample.rsData .csvErrFieldCount rfl (by decide),
    Prod.ext (by decide) rfl,
    (C10_source_error_fails_copy sample.fsGood (.dcsv sample.dsGood)).2.2
      ⟨dcsv.New "/tmp/dcopy1/copy.csv" false ',' ["a", "b", "c"], "/tmp/dcopy1", false⟩ _
      (Prod.ext (by decide) rfl)⟩

/-- C10 as stated fails: the connection of the sample dataset latches
`csv.ErrFieldCount` after two records, but when the copy file cannot be created
`New` returns the error of `os.Create`, and when no temporary directory can be
created it returns the error of `ioutil.TempDir`: in both cases before the source
is opened. -/
theorem C10_counterexample_store_fails_first :
    (Dataset.dcsv sample.ds).Open sample.fsNoCreate = .ok (.dcsv sample.conn) ∧
      getRecords (.dcsv sample.conn) (sample.rsData.length + 1) =
        (sample.rsData, some .csvErrFieldCount) ∧
      (New sample.fsNoCreate (.dcsv sample.ds)).1 =
        .error (.PathError "open" "/tmp/dcopy1/copy.csv" "too many open files") ∧
      (New sample.fsNoCreate (.dcsv sample.ds)).1 ≠ .error .csvErrFieldCount ∧
      (Dataset.dcsv sample.ds).Open
          { sample.fs with
            tempDir := .error (.PathError "mkdir" "/tmp/dcopy1" "no space left on device") } =
        .ok (.dcsv sample.conn) ∧
      (New { sample.fs with
             tempDir := .error (.PathError "mkdir" "/tmp/dcopy1" "no space left on device") }
          (.dcsv sample.ds)).1 =
        .error (.PathError "mkdir" "/tmp/dcopy1" "no space left on device") :=
  ⟨rfl, by decide, by decide, by decide, rfl, by decide⟩

/-- Removing a directory that can be removed leaves no such directory. -/
theorem RemoveAll_dirs (fs : os.FS) (dir : String) (h : fs.removeAllErr dir = none) :
    dir ∉ (os.RemoveAll fs dir).2.dirs := by
  simp [os.RemoveAll, h]

/-- When the copy file was created and the temporary directory can be removed,
every error return of `New` leaves no temporary directory. -/
theorem New_error_removes (fs : os.FS) (D : Dataset) (dir : String) (e : Error) (fs' : os.FS)
    (hT : (ioutil.TempDir fs).1 = .ok dir)
    (hC : fs.createErr (filepath.Join dir "copy.csv") = none)
    (hR : fs.removeAllErr dir = none) (h : New fs D = (.error e, fs')) :
    dir ∉ fs'.dirs := by
  obtain ⟨hT', _, _⟩ := TempDir_ok fs dir hT
  have hcreate : os.Create { fs with dirs := dir :: fs.dirs } (filepath.Join dir "copy.csv") =
      (.ok { name := filepath.Join dir "copy.csv", rows := [], closeErr := none },
        storeFS fs dir) := by
    simp [storeFS, os.Create, hC]
  have hR1 : (storeFS fs dir).removeAllErr dir = none := by
    simpa [storeFS, os.Create, hC] using hR
  have hR2 : ∀ w : csv.Writer, (w.Flush (storeFS fs dir)).removeAllErr dir = none := by
    intro w
    rw [(Flush_oracles (storeFS fs dir) w).2.1]
    exact hR1
  unfold New at h
  simp only [hT', hcreate] at h
  cases hO : D.Open (storeFS fs dir) with
  | error e1 =>
    simp only [hO, Prod.mk.injEq] at h
    rw [← h.2]
    exact RemoveAll_dirs _ dir hR1
  | ok conn =>
    simp only [hO] at h
    cases hloop : copyRecords (storeFS fs dir) D.Fields (conn.remaining + 1) conn
        (csv.NewWriter { name := filepath.Join dir "copy.csv", rows := [],
                         closeErr := none }) with
    | bound => simp [hloop] at h
    | nilDeref => simp [hloop] at h
    | writeFailed e1 =>
      simp only [hloop, Prod.mk.injEq] at h
      rw [← h.2]
      exact RemoveAll_dirs _ dir hR1
    | done last w1 =>
      simp only [hloop] at h
      cases hl : last.Err with
      | some e1 =>
        simp only [hl, Prod.mk.injEq] at h
        rw [← h.2]
        exact RemoveAll_dirs _ dir hR1
      | none =>
        simp only [hl] at h
        cases hf : w1.Error (w1.Flush (storeFS fs dir)) with
        | some e1 =>
          simp only [hf, Prod.mk.injEq] at h
          rw [← h.2]
          exact RemoveAll_dirs _ dir (hR2 w1)
        | none => simp [hf] at h

/-- C9 fails on the code: when `os.Create` of the copy file fails, `New` returns
that error and the temporary directory it has just created is still there. -/
theorem C9_create_failure_leaves_tmpDir :
    (ioutil.TempDir sample.fsNoCreate).1 = .ok "/tmp/dcopy1" ∧
      "/tmp/dcopy1" ∉ sample.fsNoCreate.dirs ∧
      sample.fsNoCreate.removeAllErr "/tmp/dcopy1" = none ∧
      (New sample.fsNoCreate (.dcsv sample.ds)).1 =
        .error (.PathError "open" "/tmp/dcopy1/copy.csv" "too many open files") ∧
      "/tmp/dcopy1" ∈ (New sample.fsNoCreate (.dcsv sample.ds)).2.dirs :=
  ⟨rfl, by decide, rfl, by decide, by decide⟩

/-! ### The function `New` always returns -/

/-- Every connection can be drained: `Next` returns false after finitely many
calls. -/
theorem exists_drains (n : Nat) :
    ∀ conn : Conn, conn.remaining ≤ n → ∃ rs last, Drains conn rs last := by
  induction n with
  | zero =>
    intro conn hn
    rcases hnext : conn.Next with ⟨b, conn1⟩
    cases b with
    | false => exact ⟨[], conn1, Drains.stop conn conn1 hnext⟩
    | true =>
      obtain ⟨h1, _, _⟩ := Conn.Next_true_facts conn conn1 hnext
      omega
  | succ n ih =>
    intro conn hn
    rcases hnext : conn.Next with ⟨b, conn1⟩
    cases b with
    | false => exact ⟨[], conn1, Drains.stop conn conn1 hnext⟩
    | true =>
      obtain ⟨h1, _, _⟩ := Conn.Next_true_facts conn conn1 hnext
      obtain ⟨rs, last, hd⟩ := ih conn1 (by omega)
      exact ⟨conn1.Read :: rs, last, Drains.more conn conn1 last rs hnext hd⟩

/-- The loop of `New` on a connection from `Open` ends because `Next` returned
false or because a write failed: within its bound and with no nil literal. -/
theorem copyRecords_ends (fs fs0 : os.FS) (D : Dataset) (conn : Conn) (w : csv.Writer)
    (hO : D.Open fs0 = .ok conn) :
    (∃ last w', copyRecords fs D.Fields (conn.remaining + 1) conn w = .done last w') ∨
      ∃ e, copyRecords fs D.Fields (conn.remaining + 1) conn w = .writeFailed e := by
  obtain ⟨rs, last, hd⟩ := exists_drains conn.remaining conn (Nat.le_refl _)
  obtain ⟨_, _, hfields⟩ := Dataset.Open_ok fs0 D conn hO
  obtain ⟨hlen, hget⟩ := hd.facts
  have hget' : ∀ r, r ∈ rs → ∀ f, f ∈ D.Fields → ∃ l, r.get f = some l :=
    fun r hr f hf => hget r hr f (by rw [hfields]; exact hf)
  rcases hd.copyRecords_stops fs D.Fields (conn.remaining + 1) w (by omega) hget' with
    ⟨w', h⟩ | ⟨e, h⟩
  · exact Or.inl ⟨last, w', h⟩
  · exact Or.inr ⟨e, h⟩

/-- The function `New` returns a dataset or an error on every input: its loop ends
within the bound of this model and dereferences no nil literal. -/
theorem New_returns (fs : os.FS) (D : Dataset) :
    (New fs D).1 ≠ .bound ∧ (New fs D).1 ≠ .panics := by
  unfold New
  rcases ioutil.TempDir fs with ⟨res, fs1⟩
  cases res with
  | error e => simp
  | ok dir =>
    simp only
    rcases os.Create fs1 (filepath.Join dir "copy.csv") with ⟨res2, fs2⟩
    cases res2 with
    | error e => simp
    | ok f =>
      simp only
      cases hO : D.Open fs2 with
      | error e => simp
      | ok conn =>
        simp only
        rcases copyRecords_ends fs2 fs2 D conn (csv.NewWriter f) hO with
          ⟨last, w', h⟩ | ⟨e, h⟩
        · rw [h]
          simp only
          cases last.Err with
          | some e => simp
          | none =>
            simp only
            cases w'.Error (w'.Flush fs2) <;> simp
        · rw [h]
          simp

end dcopy

/-! ## Theorems: closing twice, and the scenario of a row with a cell too many -/

namespace dcsv

open ddataset

/-- C18, amended: on the 3-field source with header skipped, delimiter `,` and data
rows `1,2,3` and `4,5,bad,6`, the first `Next` returns true and `Read` gives the
record with `f1` = 1, `f2` = 2, `f3` = 3; the second `Next` returns false and `Err`
is the `csv.ErrFieldCount` parse error of the csv reader. -/
theorem C18_scenario_field_count :
    DCSV.Open sample.fsScenario sample.dsScenario = .ok sample.connScenario ∧
      sample.connScenario.Next.1 = true ∧
      sample.connScenario.Next.2.Read = [("f1", ⟨"1"⟩), ("f2", ⟨"2"⟩), ("f3", ⟨"3"⟩)] ∧
      sample.connScenario.Next.2.Next.1 = false ∧
      sample.connScenario.Next.2.Next.2.Err = some .csvErrFieldCount :=
  ⟨rfl, by decide, by decide, by decide, by decide⟩

/-- C18 as stated fails: in that scenario the error latched by the second `Next` is
not `ErrWrongNumFields`, because the csv reader rejects the row of four cells
before `makeRowCurrentRecord` sees it. -/
theorem C18_counterexample_not_wrong_num_fields :
    DCSV.Open sample.fsScenario sample.dsScenario = .ok sample.connScenario ∧
      sample.connScenario.Next.1 = true ∧
      sample.connScenario.Next.2.Next.1 = false ∧
      sample.connScenario.Next.2.Next.2.Err ≠ some .ErrWrongNumFields :=
  ⟨rfl, by decide, by decide, by decide⟩

/-- The call `Close` leaves the file and the reader cleared. -/
theorem DCSVConn.Close_cleared (cc : DCSVConn) :
    cc.Close.2.file = none ∧ cc.Close.2.reader = none ∧ cc.Close.2.err = cc.err ∧
      cc.Close.2.currentRecord = cc.currentRecord ∧ cc.Close.2.dataset = cc.dataset :=
  ⟨rfl, rfl, rfl, rfl, rfl⟩

/-- On a connection whose reader is cleared `Next` returns false. -/
theorem DCSVConn.Next_of_closed (cc : DCSVConn) (h : cc.reader = none) : cc.Next.1 = false :=
  (DCSVConn.Next_latches cc (Or.inr h)).1

/-- When `Next` latches an error on a connection that had none, it leaves the reader
cleared, and the file too unless the reader was cleared before. -/
theorem DCSVConn.Next_latch_closes (cc : DCSVConn) (herr : cc.err = none)
    (hlatch : cc.Next.2.err ≠ none) :
    cc.Next.2.reader = none ∧ (cc.reader ≠ none → cc.Next.2.file = none) := by
  cases hr : cc.reader with
  | none =>
    simp [DCSVConn.Next, herr, hr]
  | some r =>
    rcases hread : r.Read with ⟨⟨row, oe⟩, r'⟩
    cases oe with
    | some e =>
      by_cases he : e = .EOF
      · subst he
        have : r.Read.1.2 = some .EOF := by rw [hread]
        rw [DCSVConn.Next_eof cc r herr hr this] at hlatch
        exact absurd herr hlatch
      · rw [DCSVConn.Next_readErr cc r r' row e herr hr hread he]
        simp
    | none =>
      by_cases hlen : row.length = cc.dataset.fieldNames.length
      · rw [DCSVConn.Next_row cc r r' row herr hr hread hlen] at hlatch
        exact absurd herr hlatch
      · rw [DCSVConn.Next_wrong cc r r' row herr hr hread hlen]
        simp

/-- C19: `Close` on a connection whose file is cleared returns `os.ErrInvalid`
without touching a file; every `Close` leaves the file and the reader cleared, so a
second `Close` is such a call; when `Next` has latched a read failure or a wrong
field count on an open connection, the connection is cleared and `Close` after it
is such a call too; and after `Close`, `Next` returns false. -/
theorem C19_close_is_safe (cc : DCSVConn) :
    (cc.file = none → cc.Close.1 = some .ErrInvalid) ∧
      (cc.Close.2.file = none ∧ cc.Close.2.reader = none) ∧
      (cc.Close.2.Close = (some .ErrInvalid, cc.Close.2)) ∧
      (cc.err = none → cc.reader ≠ none → cc.Next.2.err ≠ none →
        cc.Next.2.file = none ∧ cc.Next.2.Close.1 = some .ErrInvalid ∧
          cc.Next.2.Close.2.Next.1 = false) ∧
      cc.Close.2.Next.1 = false ∧ cc.Close.2.Close.2.Next.1 = false := by
  refine ⟨?_, ⟨rfl, rfl⟩, rfl, ?_, ?_, ?_⟩
  · intro h
    simp [DCSVConn.Close, h, os.File.Close]
  · intro herr hr hlatch
    obtain ⟨_, h2⟩ := DCSVConn.Next_latch_closes cc herr hlatch
    have hfile := h2 hr
    refine ⟨hfile, by simp [DCSVConn.Close, hfile, os.File.Close], ?_⟩
    exact DCSVConn.Next_of_closed _ rfl
  · exact DCSVConn.Next_of_closed _ rfl
  · exact DCSVConn.Next_of_closed _ rfl

/-- C19 at the sample connection after its second `Next` has latched the wrong
field count of the csv reader, and after a `Close` by its holder. -/
theorem C19_close_is_safe_witness :
    (sample.connScenario.Close.2.file = none ∧
      sample.connScenario.Next.2.err = none ∧ sample.connScenario.Next.2.reader ≠ none ∧
      sample.connScenario.Next.2.Next.2.err ≠ none) ∧
    sample.connScenario.Close.2.Close.1 = some .ErrInvalid ∧
    sample.connScenario.Next.2.Next.2.file = none ∧
    sample.connScenario.Next.2.Next.2.Close.1 = some .ErrInvalid ∧
    sample.connScenario.Next.2.Next.2.Close.2.Next.1 = false :=
  ⟨⟨rfl, by decide, by decide, by decide⟩,
    (C19_close_is_safe sample.connScenario.Close.2).1 rfl,
    ((C19_close_is_safe sample.connScenario.Next.2).2.2.2.1 (by decide) (by decide)
      (by decide)).1,
    ((C19_close_is_safe sample.connScenario.Next.2).2.2.2.1 (by decide) (by decide)
      (by decide)).2.1,
    ((C19_close_is_safe sample.connScenario.Next.2).2.2.2.1 (by decide) (by decide)
      (by decide)).2.2⟩

end dcsv

/-! ## Theorems: two connections of one dataset -/

namespace dcsv

open ddataset

end dcsv

/-! ## Theorems: counting the records of a row source -/

namespace dcsv

open ddataset

/-- While the reader yields rows with the declared cell count, the scan counts one
record for each, and the connection stays open with no error latched. -/
theorem scan_good (k : Nat) :
    ∀ (cc : DCSVConn) (r : csv.Reader) (n fuel : Nat), cc.err = none → cc.reader = some r →
      (∀ j, j < k → ∃ row, ((r.after j).Read).1 = (row, none) ∧
        row.length = cc.dataset.fieldNames.length) →
      k ≤ fuel →
      scan fuel cc n = scan (fuel - k) (cc.afterNext k) (n + k) ∧
        (cc.afterNext k).err = none ∧ (cc.afterNext k).reader = some (r.after k) ∧
        (cc.afterNext k).dataset = cc.dataset ∧
        k + (r.after k).rows.length = r.rows.length := by
  induction k with
  | zero =>
    intro cc r n fuel herr hr _ _
    exact ⟨rfl, herr, hr, rfl, by simp [csv.Reader.after]⟩
  | succ k ih =>
    intro cc r n fuel herr hr hgood hfuel
    obtain ⟨row, hrow, hlen⟩ := hgood 0 (Nat.succ_pos k)
    have hread : r.Read = ((row, none), r.Read.2) := by
      have : r.Read.1 = (row, none) := hrow
      rw [← this]
    have hnext := DCSVConn.Next_row cc r _ row herr hr hread hlen
    have hrows := Reader_Read_row r r.Read.2 row hread
    have hds : cc.Next.2.dataset = cc.dataset := by rw [hnext]
    obtain ⟨h1, h2, h3, h4, h5⟩ := ih cc.Next.2 r.Read.2 (n + 1) (fuel - 1)
      (by rw [hnext]; exact herr) (by rw [hnext])
      (by
        intro j hj
        rw [hds]
        exact hgood (j + 1) (Nat.succ_lt_succ hj))
      (by omega)
    obtain ⟨m, rfl⟩ : ∃ m, fuel = m + 1 := ⟨fuel - 1, by omega⟩
    refine ⟨?_, h2, h3, h4.trans hds, ?_⟩
    · have hstep : scan (m + 1) cc n = scan m cc.Next.2 (n + 1) := by
        rw [scan, hnext]
      rw [hstep]
      simp only [Nat.add_sub_cancel] at h1
      rw [h1]
      have e1 : m - k = m + 1 - (k + 1) := by omega
      have e2 : n + 1 + k = n + (k + 1) := by omega
      rw [e1, e2]
      rfl
    · have : (r.after (k + 1)) = (r.Read.2).after k := rfl
      rw [this, hrows]
      simp only [List.length_cons]
      omega

/-- When `Next` returns false, the scan stops with the count it has. -/
theorem scan_stop (cc : DCSVConn) (n fuel : Nat) (h : cc.Next.1 = false) :
    scan (fuel + 1) cc n = (n, cc.Next.2) := by
  rcases hn : cc.Next with ⟨b, c1⟩
  rw [hn] at h
  simp only at h
  subst h
  simp [scan, hn]

/-- C14: for a row-source dataset that opens, when the reader yields `k` rows with
the declared cell count, `NumRecords` returns `k` if the end of the data follows
(0 for a source that holds its header only), and returns -1 if a read failure or a
row with another cell count follows. -/
theorem C14_NumRecords_counts_rows (fs : os.FS) (d : DCSV) (cc : DCSVConn) (r : csv.Reader)
    (k : Nat) (hopen : DCSV.Open fs d = .ok cc) (hr : cc.reader = some r)
    (hgood : ∀ j, j < k → ∃ row, ((r.after j).Read).1 = (row, none) ∧
      row.length = d.numFields) :
    (((r.after k).Read).1.2 = some .EOF → NumRecords fs d = (k : Int)) ∧
      (∀ e, ((r.after k).Read).1.2 = some e → e ≠ .EOF → NumRecords fs d = -1) ∧
      (∀ row, ((r.after k).Read).1 = (row, none) → row.length ≠ d.numFields →
        NumRecords fs d = -1) := by
  obtain ⟨hds, _, herr, _⟩ := DCSV.Open_fresh fs d cc hopen
  have hgood' : ∀ j, j < k → ∃ row, ((r.after j).Read).1 = (row, none) ∧
      row.length = cc.dataset.fieldNames.length := by
    intro j hj
    rw [hds]
    exact hgood j hj
  have hfuel : (cc.reader.map (fun r => r.rows.length)).getD 0 + 1 = r.rows.length + 1 := by
    rw [hr]
    rfl
  obtain ⟨_, _, _, _, hcount⟩ := scan_good k cc r 0 k herr hr hgood' (Nat.le_refl k)
  obtain ⟨h1, h2, h3, h4, _⟩ := scan_good k cc r 0 (r.rows.length + 1) herr hr hgood'
    (by omega)
  obtain ⟨m, hm⟩ : ∃ m, r.rows.length + 1 - k = m + 1 := ⟨r.rows.length - k, by omega⟩
  rw [hm, Nat.zero_add] at h1
  have hnum : ∀ last : DCSVConn, (cc.afterNext k).Next = (false, last) →
      NumRecords fs d = match last.err with
        | some _ => -1
        | none => (k : Int) := by
    intro last hlast
    have hstop := scan_stop (cc.afterNext k) k m (by rw [hlast])
    rw [hlast] at hstop
    unfold NumRecords
    simp only [hopen, hfuel, h1, hstop]
    rfl
  refine ⟨?_, ?_, ?_⟩
  · intro heof
    rw [hnum _ (DCSVConn.Next_eof _ _ h2 h3 heof), h2]
  · intro e he hne
    have hread : (r.after k).Read = (((r.after k).Read.1.1, some e), (r.after k).Read.2) := by
      have : (r.after k).Read.1.2 = some e := he
      rw [← this]
    rw [hnum _ (DCSVConn.Next_readErr _ _ _ _ e h2 h3 hread hne)]
  · intro row hrow hlen
    have hread : (r.after k).Read = ((row, none), (r.after k).Read.2) := by
      have : (r.after k).Read.1 = (row, none) := hrow
      rw [← this]
    have hlen' : row.length ≠ (cc.afterNext k).dataset.fieldNames.length := by
      rw [h4, hds]
      exact hlen
    rw [hnum _ (DCSVConn.Next_wrong _ _ _ row h2 h3 hread hlen')]

/-- C14 at the sample source that holds its header only (count 0), and at the
sample source whose third data row the csv reader rejects (count -1). -/
theorem C14_NumRecords_counts_rows_witness :
    ((DCSV.Open sample.fsHeader sample.dsHeaderOnly = .ok sample.connHeaderOnly ∧
        sample.connHeaderOnly.reader = some ⟨[], 3⟩ ∧
        (((⟨[], 3⟩ : csv.Reader).after 0).Read).1.2 = some .EOF) ∧
      NumRecords sample.fsHeader sample.dsHeaderOnly = 0) ∧
    ((DCSV.Open sample.fs sample.ds = .ok sample.conn ∧
        sample.conn.reader = some ⟨sample.rows.tail, 3⟩ ∧
        (∀ j, j < 2 → ∃ row, (((⟨sample.rows.tail, 3⟩ : csv.Reader).after j).Read).1 =
          (row, none) ∧ row.length = sample.ds.numFields) ∧
        (((⟨sample.rows.tail, 3⟩ : csv.Reader).after 2).Read).1.2 = some .csvErrFieldCount ∧
        Error.csvErrFieldCount ≠ .EOF) ∧
      NumRecords sample.fs sample.ds = -1) :=
  ⟨⟨⟨rfl, rfl, rfl⟩,
      (C14_NumRecords_counts_rows sample.fsHeader sample.dsHeaderOnly sample.connHeaderOnly
        ⟨[], 3⟩ 0 rfl rfl (fun j hj => absurd hj (Nat.not_lt_zero j))).1 rfl⟩,
    ⟨⟨rfl, rfl,
        fun j hj => by
          have hj' : j = 0 ∨ j = 1 := by omega
          rcases hj' with h | h
          · subst h
            exact ⟨["1", "2", "3"], rfl, rfl⟩
          · subst h
            exact ⟨["7", "8", "9"], rfl, rfl⟩,
        rfl, by decide⟩,
      (C14_NumRecords_counts_rows sample.fs sample.ds sample.conn ⟨sample.rows.tail, 3⟩ 2
        rfl rfl
        (fun j hj => by
          have hj' : j = 0 ∨ j = 1 := by omega
          rcases hj' with h | h
          · subst h
            exact ⟨["1", "2", "3"], rfl, rfl⟩
          · subst h
            exact ⟨["7", "8", "9"], rfl, rfl⟩)).2.1 .csvErrFieldCount rfl (by decide)⟩⟩

end dcsv

/-! ## Theorems: skipping the header -/

namespace dcsv

open ddataset

/-- Two readers that yield the same results give the same result on the next read,
and yield the same results after it unless it failed. -/
theorem readerSim_Read (r1 r2 : csv.Reader) (h : readerSim r1 r2) :
    r1.Read.1 = r2.Read.1 ∧
      ((r1.Read.1.2 = none ∨ r1.Read.1.2 = some .EOF) → readerSim r1.Read.2 r2.Read.2) := by
  obtain ⟨rows1, n1⟩ := r1
  obtain ⟨rows2, n2⟩ := r2
  obtain ⟨hrows, hn⟩ := h
  simp only at hrows hn
  subst hrows
  cases rows1 with
  | nil =>
    refine ⟨by simp [csv.Reader.Read], fun _ => ?_⟩
    simpa [csv.Reader.Read, readerSim] using hn
  | cons x t =>
    cases x with
    | malformed msg =>
      refine ⟨by simp [csv.Reader.Read], fun hok => ?_⟩
      simp [csv.Reader.Read] at hok
    | row cells =>
      rcases hn with hn | ⟨hn2, hhead⟩
      · subst hn
        refine ⟨rfl, fun _ => ?_⟩
        unfold csv.Reader.Read
        simp only
        split
        · split <;> exact ⟨rfl, Or.inl rfl⟩
        · exact ⟨rfl, Or.inl rfl⟩
      · simp only [headCount] at hhead
        subst hn2
        rw [dcopy.Reader_Read_good cells t n1 (Or.inr hhead.symm),
          dcopy.Reader_Read_good cells t 0 (Or.inl rfl)]
        exact ⟨rfl, fun _ => ⟨rfl, Or.inl rfl⟩⟩

/-- Two connections that yield the same results give the same result on `Next` and
yield the same results after it. -/
theorem connSim_Next (c1 c2 : DCSVConn) (h : connSim c1 c2) :
    c1.Next.1 = c2.Next.1 ∧ connSim c1.Next.2 c2.Next.2 := by
  obtain ⟨⟨fn1, names1, hd1, sep1⟩, f1, rd1, rec1, e1⟩ := c1
  obtain ⟨⟨fn2, names2, hd2, sep2⟩, f2, rd2, rec2, e2⟩ := c2
  obtain ⟨hnames, hrec, herr, hreader⟩ := h
  simp only at hnames hrec herr hreader
  subst hnames hrec herr
  cases e1 with
  | some e =>
    rw [DCSVConn.Next_of_err _ e rfl, DCSVConn.Next_of_err _ e rfl]
    exact ⟨rfl, rfl, rfl, rfl, hreader⟩
  | none =>
    cases rd1 with
    | none =>
      cases rd2 with
      | none => simp [DCSVConn.Next, connSim]
      | some r2 => simp at hreader
    | some r1 =>
      cases rd2 with
      | none => simp at hreader
      | some r2 =>
        simp only at hreader
        obtain ⟨hres, hafter⟩ := readerSim_Read r1 r2 hreader
        rcases hread1 : r1.Read with ⟨⟨row, oe⟩, r1'⟩
        rcases hread2 : r2.Read with ⟨⟨row2, oe2⟩, r2'⟩
        rw [hread1, hread2] at hres
        simp only [Prod.mk.injEq] at hres
        obtain ⟨hrow, hoe⟩ := hres
        subst hrow hoe
        rw [hread1, hread2] at hafter
        simp only at hafter
        cases oe with
        | some e =>
          by_cases he : e = .EOF
          · subst he
            rw [DCSVConn.Next_eof _ r1 rfl rfl (by rw [hread1]),
              DCSVConn.Next_eof _ r2 rfl rfl (by rw [hread2])]
            exact ⟨rfl, rfl, rfl, rfl, hreader⟩
          · rw [DCSVConn.Next_readErr _ r1 r1' row e rfl rfl hread1 he,
              DCSVConn.Next_readErr _ r2 r2' row e rfl rfl hread2 he]
            exact ⟨rfl, rfl, rfl, rfl, trivial⟩
        | none =>
          by_cases hlen : row.length = names1.length
          · rw [DCSVConn.Next_row _ r1 r1' row rfl rfl hread1 hlen,
              DCSVConn.Next_row _ r2 r2' row rfl rfl hread2 hlen]
            exact ⟨rfl, rfl, rfl, rfl, hafter (Or.inl rfl)⟩
          · rw [DCSVConn.Next_wrong _ r1 r1' row rfl rfl hread1 hlen,
              DCSVConn.Next_wrong _ r2 r2' row rfl rfl hread2 hlen]
            exact ⟨rfl, rfl, rfl, rfl, trivial⟩

/-- Two connections that yield the same results give `getRecords` the same records
and the same final error. -/
theorem connSim_getRecordsLoop (n : Nat) :
    ∀ (c1 c2 : DCSVConn) (acc : List Record), connSim c1 c2 →
      ∃ (rs : List Record) (l1 l2 : DCSVConn),
        dcopy.getRecordsLoop n (.dcsv c1) acc = (rs, .dcsv l1) ∧
        dcopy.getRecordsLoop n (.dcsv c2) acc = (rs, .dcsv l2) ∧ connSim l1 l2 := by
  induction n with
  | zero =>
    intro c1 c2 acc h
    exact ⟨acc, c1, c2, rfl, rfl, h⟩
  | succ n ih =>
    intro c1 c2 acc h
    obtain ⟨hb, hsim⟩ := connSim_Next c1 c2 h
    cases hn1 : c1.Next.1 with
    | false =>
      refine ⟨acc, c1.Next.2, c2.Next.2, ?_, ?_, hsim⟩
      · simp [dcopy.getRecordsLoop, dcopy.Conn.Next, hn1]
      · simp [dcopy.getRecordsLoop, dcopy.Conn.Next, ← hb, hn1]
    | true =>
      have hrec : c1.Next.2.currentRecord = c2.Next.2.currentRecord := hsim.2.1
      obtain ⟨rs, l1, l2, h1, h2, h3⟩ := ih c1.Next.2 c2.Next.2
        (acc ++ [c1.Next.2.currentRecord]) hsim
      refine ⟨rs, l1, l2, ?_, ?_, h3⟩
      · simpa [dcopy.getRecordsLoop, dcopy.Conn.Next, hn1, dcopy.Conn.Read, DCSVConn.Read]
          using h1
      · rw [hrec] at h2
        simpa [dcopy.getRecordsLoop, dcopy.Conn.Next, ← hb, hn1, dcopy.Conn.Read,
          DCSVConn.Read] using h2

/-- C15, amended: for a row source whose first row is well formed and has the cell
count of the row after it (if that one is well formed), a connection opened with the
header flag set yields the records that a connection opened without the flag yields
on the source without its first row, and the same final error up to the position
of a csv error (the line that a `*csv.ParseError` names, which `Error` leaves out,
is one more under the header), whatever the cells and the cell count of the first
row are compared with the declared field list. -/
theorem C15_header_is_skipped (fs : os.FS) (d1 d2 : DCSV) (header : List String)
    (rest : List csv.RawRow) (ce1 ce2 : Option Error)
    (hf1 : fs.lookup d1.filename = some ⟨.row header :: rest, none, ce1⟩)
    (hf2 : fs.lookup d2.filename = some ⟨rest, none, ce2⟩)
    (hh1 : d1.hasHeader = true) (hh2 : d2.hasHeader = false)
    (hnames : d1.fieldNames = d2.fieldNames)
    (hcount : headCount rest header.length) :
    ∃ c1 c2, DCSV.Open fs d1 = .ok c1 ∧ DCSV.Open fs d2 = .ok c2 ∧
      ∀ n, (dcopy.getRecords (.dcsv c1) n).1 = (dcopy.getRecords (.dcsv c2) n).1 ∧
        (dcopy.getRecords (.dcsv c1) n).2 = (dcopy.getRecords (.dcsv c2) n).2 := by
  have ho1 : DCSV.Open fs d1 = .ok
      { dataset := d1
        file := some { name := d1.filename, rows := .row header :: rest, closeErr := ce1 }
        reader := some ⟨rest, header.length⟩, currentRecord := [], err := none } := by
    simp [DCSV.Open, makeCsvReader, os.Open, hf1, hh1, csv.NewReader, csv.Reader.Read]
  have ho2 : DCSV.Open fs d2 = .ok
      { dataset := d2
        file := some { name := d2.filename, rows := rest, closeErr := ce2 }
        reader := some ⟨rest, 0⟩, currentRecord := [], err := none } := by
    simp [DCSV.Open, makeCsvReader, os.Open, hf2, hh2, csv.NewReader]
  refine ⟨_, _, ho1, ho2, ?_⟩
  intro n
  have hsim : connSim
      { dataset := d1
        file := some { name := d1.filename, rows := .row header :: rest, closeErr := ce1 }
        reader := some ⟨rest, header.length⟩, currentRecord := [], err := none }
      { dataset := d2
        file := some { name := d2.filename, rows := rest, closeErr := ce2 }
        reader := some ⟨rest, 0⟩, currentRecord := [], err := none } := by
    refine ⟨hnames, rfl, rfl, ?_⟩
    exact ⟨rfl, Or.inr ⟨rfl, hcount⟩⟩
  obtain ⟨rs, l1, l2, h1, h2, h3⟩ := connSim_getRecordsLoop n _ _ [] hsim
  unfold dcopy.getRecords
  rw [h1, h2]
  simp only [dcopy.Conn.Err, DCSVConn.Err]
  exact ⟨trivial, h3.2.2.1⟩

/-- C15, amended, at the sample file with a header of three cells over a row of
three cells, and the sample file with that row alone. -/
theorem C15_header_is_skipped_witness :
    (sample.fsHeader.lookup (New "header3.csv" true ',' ["a", "b", "c"]).filename =
        some ⟨.row ["h1", "h2", "h3"] :: [.row ["1", "2", "3"]], none, none⟩ ∧
      sample.fsHeader.lookup (New "noheader.csv" false ',' ["a", "b", "c"]).filename =
        some ⟨[.row ["1", "2", "3"]], none, none⟩ ∧
      headCount [.row ["1", "2", "3"]] ["h1", "h2", "h3"].length) ∧
    ∃ c1 c2, DCSV.Open sample.fsHeader (New "header3.csv" true ',' ["a", "b", "c"]) = .ok c1 ∧
      DCSV.Open sample.fsHeader (New "noheader.csv" false ',' ["a", "b", "c"]) = .ok c2 ∧
      ∀ n, (dcopy.getRecords (.dcsv c1) n).1 = (dcopy.getRecords (.dcsv c2) n).1 ∧
        (dcopy.getRecords (.dcsv c1) n).2 = (dcopy.getRecords (.dcsv c2) n).2 :=
  ⟨⟨rfl, rfl, rfl⟩,
    C15_header_is_skipped sample.fsHeader (New "header3.csv" true ',' ["a", "b", "c"])
      (New "noheader.csv" false ',' ["a", "b", "c"]) ["h1", "h2", "h3"] [.row ["1", "2", "3"]]
      none none rfl rfl rfl rfl rfl rfl⟩

/-- C15 as stated fails: under a header of two cells the csv reader rejects the row
of three cells, so the connection opened with the header flag yields no record and
`csv.ErrFieldCount`, while the connection opened without the flag on the row alone
yields its record and no error. -/
theorem C15_counterexample_short_header :
    (match DCSV.Open sample.fsHeader (New "header2.csv" true ',' ["a", "b", "c"]) with
      | .ok c => dcopy.getRecords (.dcsv c) 2
      | .error _ => ([], none)) = ([], some .csvErrFieldCount) ∧
    (match DCSV.Open sample.fsHeader (New "noheader.csv" false ',' ["a", "b", "c"]) with
      | .ok c => dcopy.getRecords (.dcsv c) 2
      | .error _ => ([], none)) = ([[("a", ⟨"1"⟩), ("b", ⟨"2"⟩), ("c", ⟨"3"⟩)]], none) :=
  ⟨by decide, by decide⟩

end dcsv

/-! ## Theorems: a copy does not follow later changes of its source -/

namespace dcopy

open ddataset dcsv

/-- The loop of `New` keeps writing to the same file. -/
theorem copyRecords_name (fs : os.FS) (fields : List String) (n : Nat) :
    ∀ (conn : Conn) (w : csv.Writer) (last : Conn) (w' : csv.Writer),
      copyRecords fs fields n conn w = .done last w' → w'.name = w.name := by
  induction n with
  | zero =>
    intro conn w last w' h
    simp [copyRecords] at h
  | succ n ih =>
    intro conn w last w' h
    rcases hnext : conn.Next with ⟨b, conn1⟩
    cases b with
    | false =>
      simp only [copyRecords, hnext, LoopEnd.done.injEq] at h
      rw [h.2]
    | true =>
      simp only [copyRecords, hnext] at h
      cases hs : strRecord fields conn1.Read with
      | none => simp [hs] at h
      | some row =>
        simp only [hs] at h
        rcases hw : w.Write fs row with ⟨oe, w1⟩
        cases oe with
        | some e => simp [hw] at h
        | none =>
          simp only [hw] at h
          have hname : w1.name = w.name := by
            rcases Write_cases fs w row with ⟨hwr, _⟩ | ⟨e, he⟩
            · rw [hwr] at hw
              simp only [Prod.mk.injEq, true_and] at hw
              rw [← hw]
            · rw [hw] at he
              cases he
          rw [ih conn1 w1 last w' h, hname]

/-- When `New` returns a dataset, it is the `DCSV` of the source's fields on the copy
file of the temporary directory, and that file holds the rows the writer flushed. -/
theorem New_dataset_store (fs : os.FS) (D : Dataset) (d : DCopy) (fs' : os.FS)
    (h : New fs D = (.dataset d, fs')) :
    ∃ (dir : String) (rows : List (List String)),
      (ioutil.TempDir fs).1 = .ok dir ∧
      d = { dataset := dcsv.New (filepath.Join dir "copy.csv") false ',' D.Fields
            tmpDir := dir, isReleased := false } ∧
      fs'.lookup (filepath.Join dir "copy.csv") =
        some { rows := rows.map csv.RawRow.row, openErr := none, closeErr := none } ∧
      ∀ name, name ≠ filepath.Join dir "copy.csv" → fs'.lookup name = fs.lookup name := by
  unfold New at h
  rcases hT : ioutil.TempDir fs with ⟨res, fs1⟩
  cases res with
  | error e => simp [hT] at h
  | ok dir =>
    obtain ⟨hT', _, _⟩ := TempDir_ok fs dir (by rw [hT])
    rw [hT] at hT'
    simp only [Prod.mk.injEq, true_and] at hT'
    subst hT'
    simp only [hT] at h
    cases hC : fs.createErr (filepath.Join dir "copy.csv") with
    | some e => simp [os.Create, hC] at h
    | none =>
      have hcreate : os.Create { fs with dirs := dir :: fs.dirs }
          (filepath.Join dir "copy.csv") =
          (.ok { name := filepath.Join dir "copy.csv", rows := [], closeErr := none },
            storeFS fs dir) := by
        simp [storeFS, os.Create, hC]
      simp only [hcreate] at h
      cases hO : D.Open (storeFS fs dir) with
      | error e => simp [hO] at h
      | ok conn =>
        simp only [hO] at h
        cases hloop : copyRecords (storeFS fs dir) D.Fields (conn.remaining + 1) conn
            (csv.NewWriter { name := filepath.Join dir "copy.csv", rows := [],
                             closeErr := none }) with
        | bound => simp [hloop] at h
        | nilDeref => simp [hloop] at h
        | writeFailed e => simp [hloop] at h
        | done last w1 =>
          simp only [hloop] at h
          cases hl : last.Err with
          | some e => simp [hl] at h
          | none =>
            simp only [hl] at h
            cases hf : w1.Error (w1.Flush (storeFS fs dir)) with
            | some e => simp [hf] at h
            | none =>
              simp only [hf, Prod.mk.injEq, NewResult.dataset.injEq] at h
              obtain ⟨hd, hfs⟩ := h
              have hname : w1.name = filepath.Join dir "copy.csv" :=
                copyRecords_name _ _ _ _ _ _ _ hloop
              have hflush : w1.Error (storeFS fs dir) = none := by
                rw [Error_Flush] at hf
                exact hf
              refine ⟨dir, w1.rows.filterMap csv.readBack, rfl, hd.symm, ?_, ?_⟩
              · rw [← hfs, ← hname, lookup_Flush _ w1 hflush, hname]
                unfold storeFS
                rw [lookup_Create { fs with dirs := dir :: fs.dirs } _ _ hC]
                simp
              · intro name hne
                rw [← hfs]
                have h1 : (w1.Flush (storeFS fs dir)).lookup name =
                    (storeFS fs dir).lookup name := by
                  simp only [csv.Writer.Flush, hflush, os.FS.lookup, hname]
                  congr 1
                  induction (storeFS fs dir).files with
                  | nil => rfl
                  | cons p rest ih =>
                    rw [List.map_cons]
                    by_cases hp : p.1 = filepath.Join dir "copy.csv"
                    · have hpn : ¬ p.1 = name := fun hh => hne (hh.symm.trans hp)
                      rw [if_pos hp, List.find?_cons_of_neg _ (by simpa using hpn),
                        List.find?_cons_of_neg _ (by simpa using hpn)]
                      exact ih
                    · rw [if_neg hp]
                      by_cases hpn : p.1 = name
                      · rw [List.find?_cons_of_pos _ (by simpa using hpn),
                          List.find?_cons_of_pos _ (by simpa using hpn)]
                      · rw [List.find?_cons_of_neg _ (by simpa using hpn),
                          List.find?_cons_of_neg _ (by simpa using hpn)]
                        exact ih
                rw [h1]
                unfold storeFS
                rw [lookup_Create { fs with dirs := dir :: fs.dirs } _ _ hC, if_neg hne]
                rfl

/-- A change of the rows of one file leaves the other files as they were. -/
theorem lookup_setRows_ne (fs : os.FS) (name x : String) (rows : List csv.RawRow)
    (hne : x ≠ name) : (fs.setRows name rows).lookup x = fs.lookup x := by
  simp only [os.FS.setRows, os.FS.lookup]
  congr 1
  induction fs.files with
  | nil => rfl
  | cons p rest ih =>
    rw [List.map_cons]
    by_cases hp : p.1 = name
    · have hpx : ¬ p.1 = x := fun hh => hne (hh.symm.trans hp)
      rw [if_pos hp, List.find?_cons_of_neg _ (by simpa using hpx),
        List.find?_cons_of_neg _ (by simpa using hpx)]
      exact ih
    · rw [if_neg hp]
      by_cases hpx : p.1 = x
      · rw [List.find?_cons_of_pos _ (by simpa using hpx),
          List.find?_cons_of_pos _ (by simpa using hpx)]
      · rw [List.find?_cons_of_neg _ (by simpa using hpx),
          List.find?_cons_of_neg _ (by simpa using hpx)]
        exact ih

/-- C17: for a source dataset `D` whose file exists when `New` is called and for
which `New` succeeds, a connection opens on the copy, and in any two later states
of the file system in which the file of `D` holds other rows, `Open` on the copy
returns that same connection, so every drain of it yields the same records and the
same error: they do not depend on later changes to `D`. -/
theorem C17_snapshot_isolation (fs : os.FS) (D : Dataset) (copy : DCopy) (fs' : os.FS)
    (rowsA rowsB : List csv.RawRow) (hD : fs.lookup D.filename ≠ none)
    (hnew : New fs D = (.dataset copy, fs')) :
    ∃ conn, (Dataset.dcopy copy).Open fs' = .ok conn ∧
      (Dataset.dcopy copy).Open (fs'.setRows D.filename rowsA) = .ok conn ∧
      (Dataset.dcopy copy).Open (fs'.setRows D.filename rowsB) = .ok conn ∧
      ∀ cA cB, (Dataset.dcopy copy).Open (fs'.setRows D.filename rowsA) = .ok cA →
        (Dataset.dcopy copy).Open (fs'.setRows D.filename rowsB) = .ok cB →
        ∀ n, getRecords cA n = getRecords cB n := by
  obtain ⟨dir, rows, hT, hcopy, hlook, _⟩ := New_dataset_store fs D copy fs' hnew
  obtain ⟨_, _, hfresh⟩ := TempDir_ok fs dir hT
  have hne : filepath.Join dir "copy.csv" ≠ D.filename := by
    intro he
    rw [← he] at hD
    exact hD (hfresh "copy.csv")
  have hname : (Dataset.dcopy copy).filename = filepath.Join dir "copy.csv" := by
    rw [hcopy]
    rfl
  have hopen : (Dataset.dcopy copy).Open fs' = .ok (.dcopy
      ⟨{ dataset := dcsv.New (filepath.Join dir "copy.csv") false ',' D.Fields
         file := some { name := filepath.Join dir "copy.csv",
                        rows := rows.map csv.RawRow.row, closeErr := none }
         reader := some ⟨rows.map csv.RawRow.row, 0⟩
         currentRecord := []
         err := none }, none⟩) := by
    rw [hcopy]
    simp [Dataset.Open, DCopy.Open, DCSV.Open, makeCsvReader, os.Open, dcsv.New, hlook,
      csv.NewReader]
  have hA : (Dataset.dcopy copy).Open (fs'.setRows D.filename rowsA) =
      (Dataset.dcopy copy).Open fs' :=
    Dataset.Open_congr fs' _ _ (by rw [hname]; exact lookup_setRows_ne fs' _ _ rowsA hne)
  have hB : (Dataset.dcopy copy).Open (fs'.setRows D.filename rowsB) =
      (Dataset.dcopy copy).Open fs' :=
    Dataset.Open_congr fs' _ _ (by rw [hname]; exact lookup_setRows_ne fs' _ _ rowsB hne)
  refine ⟨_, hopen, hA.trans hopen, hB.trans hopen, ?_⟩
  intro cA cB hcA hcB n
  rw [hA] at hcA
  rw [hB, hcA] at hcB
  injection hcB with hc
  rw [hc]

/-- C17 at the copy of the sample file of two good rows, when the rows of that file
are later removed or replaced. -/
theorem C17_snapshot_isolation_witness :
    (sample.fsGood.lookup (Dataset.dcsv sample.dsGood).filename ≠ none ∧
      New sample.fsGood (.dcsv sample.dsGood) =
        (.dataset ⟨dcsv.New "/tmp/dcopy1/copy.csv" false ',' ["a", "b", "c"], "/tmp/dcopy1",
          false⟩, (New sample.fsGood (.dcsv sample.dsGood)).2)) ∧
    ∃ conn,
      (Dataset.dcopy ⟨dcsv.New "/tmp/dcopy1/copy.csv" false ',' ["a", "b", "c"], "/tmp/dcopy1",
          false⟩).Open (New sample.fsGood (.dcsv sample.dsGood)).2 = .ok conn ∧
      (Dataset.dcopy ⟨dcsv.New "/tmp/dcopy1/copy.csv" false ',' ["a", "b", "c"], "/tmp/dcopy1",
          false⟩).Open
        ((New sample.fsGood (.dcsv sample.dsGood)).2.setRows
          (Dataset.dcsv sample.dsGood).filename []) = .ok conn ∧
      (Dataset.dcopy ⟨dcsv.New "/tmp/dcopy1/copy.csv" false ',' ["a", "b", "c"], "/tmp/dcopy1",
          false⟩).Open
        ((New sample.fsGood (.dcsv sample.dsGood)).2.setRows
          (Dataset.dcsv sample.dsGood).filename [.row ["9", "9", "9"]]) = .ok conn :=
  ⟨⟨by decide, Prod.ext (by decide) rfl⟩,
    (C17_snapshot_isolation sample.fsGood (.dcsv sample.dsGood)
      ⟨dcsv.New "/tmp/dcopy1/copy.csv" false ',' ["a", "b", "c"], "/tmp/dcopy1", false⟩
      (New sample.fsGood (.dcsv sample.dsGood)).2 [] [.row ["9", "9", "9"]] (by decide)
      (Prod.ext (by decide) rfl)).imp fun _ h => ⟨h.1, h.2.1, h.2.2.1⟩⟩

end dcopy

/-! ## Theorems: release of a dataset -/

namespace dtruncate

open ddataset

/-- The first `Release` of a dataset returns nil for a row source and the result of
removing the private store for a copy, and leaves the dataset released. -/
theorem Dataset.Release_first (fs : os.FS) (D : Dataset) (h : D.isReleased = false) :
    (D.Release fs).1 =
        (match D.store with
          | none => none
          | some dir => fs.removeAllErr dir) ∧
      (D.Release fs).2.1.isReleased = true ∧
      (D.Release fs).2.1.store = D.store := by
  induction D with
  | dcsv d r =>
    simp only [Dataset.isReleased] at h
    subst h
    exact ⟨rfl, rfl, rfl⟩
  | dcopy d =>
    simp only [Dataset.isReleased] at h
    refine ⟨?_, ?_, ?_⟩
    · simp only [Dataset.Release, dcopy.DCopy.Release, h, Dataset.store, os.RemoveAll]
      cases fs.removeAllErr d.tmpDir <;> simp
    · simp [Dataset.Release, dcopy.DCopy.Release, h, Dataset.isReleased]
    · simp [Dataset.Release, dcopy.DCopy.Release, h, Dataset.store]
  | dtruncate D n ih =>
    simp only [Dataset.isReleased] at h
    obtain ⟨h1, h2, h3⟩ := ih h
    exact ⟨h1, h2, h3⟩

/-- A `Release` of a released dataset returns `ErrReleased` and changes nothing. -/
theorem Dataset.Release_again (fs : os.FS) (D : Dataset) (h : D.isReleased = true) :
    D.Release fs = (some .ErrReleased, D, fs) := by
  induction D with
  | dcsv d r =>
    simp only [Dataset.isReleased] at h
    subst h
    rfl
  | dcopy d =>
    simp only [Dataset.isReleased] at h
    simp [Dataset.Release, dcopy.DCopy.Release, h]
  | dtruncate D n ih =>
    simp only [Dataset.isReleased] at h
    simp [Dataset.Release, ih h]

/-- C11, amended: for a dataset of any variant (`DCSV`, `DCopy`, or a truncating
decorator over one) that has not been released, the first `Release` returns nil
for a row source, and for a copy the result of deleting its private store, which
is nil when the deletion succeeds; the second `Release` returns `ErrReleased`;
both calls return. -/
theorem C11_release_twice (fs : os.FS) (D : Dataset) (h : D.isReleased = false) :
    (D.Release fs).1 =
        (match D.store with
          | none => none
          | some dir => fs.removeAllErr dir) ∧
      ((∀ dir, D.store = some dir → fs.removeAllErr dir = none) → (D.Release fs).1 = none) ∧
      ((D.Release fs).2.1.Release (D.Release fs).2.2).1 = some .ErrReleased := by
  obtain ⟨h1, h2, _⟩ := Dataset.Release_first fs D h
  refine ⟨h1, ?_, ?_⟩
  · intro hrem
    rw [h1]
    cases hs : D.store with
    | none => rfl
    | some dir => exact hrem dir hs
  · rw [Dataset.Release_again _ _ h2]

/-- C11, amended, at a truncated copy whose private store can be removed. -/
theorem C11_release_twice_witness :
    ((New (.dcopy sample.copy) 3).isReleased = false ∧
      ∀ dir, (New (.dcopy sample.copy) 3).store = some dir → sample.fs.removeAllErr dir = none) ∧
    ((New (.dcopy sample.copy) 3).Release sample.fs).1 = none ∧
    (((New (.dcopy sample.copy) 3).Release sample.fs).2.1.Release
      ((New (.dcopy sample.copy) 3).Release sample.fs).2.2).1 = some .ErrReleased :=
  ⟨⟨rfl, fun _ _ => rfl⟩,
    (C11_release_twice sample.fs (New (.dcopy sample.copy) 3) rfl).2.1 (fun _ _ => rfl),
    (C11_release_twice sample.fs (New (.dcopy sample.copy) 3) rfl).2.2⟩

/-- C11 as stated fails: when the private store of a copy cannot be removed, the
first `Release` of the copy returns the error of the removal, not nil. -/
theorem C11_counterexample_store_not_removed :
    (Dataset.dcopy sample.copy).isReleased = false ∧
      ((Dataset.dcopy sample.copy).Release sample.fsNoRemove).1 =
        some (.PathError "unlinkat" "/tmp/dcopy1" "permission denied") ∧
      (sample.copy.Release sample.fsNoRemove).1 ≠ none :=
  ⟨rfl, by decide, by decide⟩

end dtruncate

/-! ## Theorems: the truncating decorator -/

namespace dcsv

open ddataset

/-- Once `Next` has returned false it returns false again. -/
theorem DCSVConn.Next_false_again (cc : DCSVConn) (h : cc.Next.1 = false) :
    cc.Next.2.Next.1 = false := by
  cases herr : cc.err with
  | some e =>
    rw [DCSVConn.Next_of_err cc e herr]
    simp [DCSVConn.Next_of_err cc e herr]
  | none =>
    obtain ⟨_, e, he⟩ | hnone : (cc.Next.1 = false ∧ ∃ e, cc.Next.2.err = some e) ∨
        cc.Next.2.err = none := by
      cases hx : cc.Next.2.err with
      | none => exact Or.inr rfl
      | some e => exact Or.inl ⟨h, e, rfl⟩
    · rw [DCSVConn.Next_of_err _ e he]
    · cases hr : cc.reader with
      | none =>
        simp [DCSVConn.Next, herr, hr] at hnone
      | some r =>
        rcases hread : r.Read with ⟨⟨row, oe⟩, r'⟩
        cases oe with
        | some e =>
          by_cases he : e = .EOF
          · subst he
            have : r.Read.1.2 = some .EOF := by rw [hread]
            rw [DCSVConn.Next_eof cc r herr hr this]
            simp [DCSVConn.Next_eof cc r herr hr this]
          · rw [DCSVConn.Next_readErr cc r r' row e herr hr hread he] at hnone
            simp at hnone
        | none =>
          by_cases hlen : row.length = cc.dataset.fieldNames.length
          · rw [DCSVConn.Next_row cc r r' row herr hr hread hlen] at h
            simp at h
          · rw [DCSVConn.Next_wrong cc r r' row herr hr hread hlen] at hnone
            simp at hnone

end dcsv

namespace dtruncate

open ddataset

/-- On any connection, once `Next` has returned false it returns false again. -/
theorem Conn.Next_false_twice (c : Conn) : c.Next.1 = false → c.Next.2.Next.1 = false := by
  induction c with
  | base c =>
    intro h
    cases c with
    | dcsv cc =>
      have := dcsv.DCSVConn.Next_false_again cc (by simpa [Conn.Next, dcopy.Conn.Next] using h)
      simpa [Conn.Next, dcopy.Conn.Next] using this
    | dcopy cc =>
      have := dcsv.DCSVConn.Next_false_again cc.conn
        (by simpa [Conn.Next, dcopy.Conn.Next, dcopy.DCopyConn.Next] using h)
      simpa [Conn.Next, dcopy.Conn.Next, dcopy.DCopyConn.Next] using this
  | dtruncate conn n count ih =>
    intro h
    by_cases hc : n ≤ count
    · simp [Conn.Next, hc]
    · rcases hn : conn.Next with ⟨b, c1⟩
      cases b with
      | true => simp [Conn.Next, hc, hn] at h
      | false =>
        have := ih (by rw [hn])
        rw [hn] at this
        simp only at this
        rcases hn1 : c1.Next with ⟨b1, c2⟩
        rw [hn1] at this
        simp only at this
        subst this
        simp [Conn.Next, hc, hn, hn1]

/-- On any connection with a latched error `Next` returns false and changes
nothing. -/
theorem Conn.Next_of_Err (c : Conn) : c.Err ≠ none → c.Next = (false, c) := by
  induction c with
  | base c =>
    intro h
    cases c with
    | dcsv cc =>
      obtain ⟨e, he⟩ := Option.ne_none_iff_exists'.mp h
      have he' : cc.err = some e := by
        simpa [Conn.Err, dcopy.Conn.Err, dcsv.DCSVConn.Err] using he
      simp [Conn.Next, dcopy.Conn.Next, dcsv.DCSVConn.Next_of_err cc e he']
    | dcopy cc =>
      obtain ⟨e, he⟩ := Option.ne_none_iff_exists'.mp h
      have he' : cc.conn.err = some e := by
        simpa [Conn.Err, dcopy.Conn.Err, dcopy.DCopyConn.Err, dcsv.DCSVConn.Err] using he
      simp [Conn.Next, dcopy.Conn.Next, dcopy.DCopyConn.Next,
        dcsv.DCSVConn.Next_of_err cc.conn e he']
  | dtruncate conn n count ih =>
    intro h
    by_cases hc : n ≤ count
    · simp [Conn.Next, hc]
    · have := ih (by simpa [Conn.Err] using h)
      simp [Conn.Next, hc, this]

/-- A drain of the truncating connection over a connection whose drain yields `rs`
and no error: it yields the first records of `rs` up to what is left of the limit,
ends with no error, and `Next` returns false after it. -/
theorem Drains.truncate {conn last : Conn} {rs : List Record} (hd : Drains conn rs last)
    (hlast : last.Err = none) (N : Nat) :
    ∀ count, count ≤ N →
      ∃ tlast, Drains (.dtruncate conn N count) (rs.take (N - count)) tlast ∧
        tlast.Err = none ∧ tlast.Next.1 = false := by
  induction hd with
  | stop conn last h =>
    intro count hcount
    have herr : conn.Err = none := by
      by_contra hne
      have := Conn.Next_of_Err conn hne
      rw [h] at this
      simp only [Prod.mk.injEq, true_and] at this
      rw [this] at hlast
      exact hne hlast
    by_cases hc : N ≤ count
    · refine ⟨.dtruncate conn N count, ?_, by simpa [Conn.Err] using herr, ?_⟩
      · simpa using Drains.stop (.dtruncate conn N count) (.dtruncate conn N count)
          (by simp [Conn.Next, hc])
      · simp [Conn.Next, hc]
    · refine ⟨.dtruncate last N count, ?_, by simpa [Conn.Err] using hlast, ?_⟩
      · simpa using Drains.stop (.dtruncate conn N count) (.dtruncate last N count)
          (by simp [Conn.Next, hc, h])
      · have h2 := Conn.Next_false_twice conn (by rw [h])
        rw [h] at h2
        simp only at h2
        rcases hn : last.Next with ⟨b, c2⟩
        rw [hn] at h2
        simp only at h2
        subst h2
        simp [Conn.Next, hc, hn]
  | more conn conn1 last records h _ ih =>
    intro count hcount
    have herr : conn.Err = none := by
      by_contra hne
      have := Conn.Next_of_Err conn hne
      rw [h] at this
      simp at this
    by_cases hc : N ≤ count
    · have h0 : N - count = 0 := by omega
      refine ⟨.dtruncate conn N count, ?_, by simpa [Conn.Err] using herr, ?_⟩
      · rw [h0, List.take_zero]
        exact Drains.stop (.dtruncate conn N count) (.dtruncate conn N count)
          (by simp [Conn.Next, hc])
      · simp [Conn.Next, hc]
    · obtain ⟨tlast, hdt, herrt, hnextt⟩ := ih hlast (count + 1) (by omega)
      obtain ⟨k, hk⟩ : ∃ k, N - count = k + 1 := ⟨N - count - 1, by omega⟩
      have hk' : N - (count + 1) = k := by omega
      refine ⟨tlast, ?_, herrt, hnextt⟩
      rw [hk, List.take_succ_cons]
      rw [hk'] at hdt
      have hstep : (Conn.dtruncate conn N count).Next =
          (true, .dtruncate conn1 N (count + 1)) := by
        simp [Conn.Next, hc, h]
      have := Drains.more (.dtruncate conn N count) (.dtruncate conn1 N (count + 1)) tlast _
        hstep hdt
      simpa [Conn.Read] using this

/-- A run of `getRecords` that stops short of its bound is a drain of the
connection. -/
theorem getRecordsLoop_isDrain (n : Nat) :
    ∀ (conn : Conn) (acc rs : List Record) (last : Conn),
      getRecordsLoop n conn acc = (rs, last) → rs.length < acc.length + n →
      ∃ rs1, rs = acc ++ rs1 ∧ Drains conn rs1 last := by
  induction n with
  | zero =>
    intro conn acc rs last h hlt
    simp only [getRecordsLoop, Prod.mk.injEq] at h
    rw [← h.1] at hlt
    omega
  | succ n ih =>
    intro conn acc rs last h hlt
    rcases hnext : conn.Next with ⟨b, conn1⟩
    cases b with
    | false =>
      simp only [getRecordsLoop, hnext, Prod.mk.injEq] at h
      exact ⟨[], by simp [h.1], h.2 ▸ Drains.stop conn conn1 hnext⟩
    | true =>
      simp only [getRecordsLoop, hnext] at h
      obtain ⟨rs1, hrs, hd⟩ := ih conn1 (acc ++ [conn1.Read]) rs last h
        (by simp only [List.length_append, List.length_singleton]; omega)
      exact ⟨conn1.Read :: rs1, by simp [hrs], Drains.more conn conn1 last rs1 hnext hd⟩

/-- A drain of a connection is what `getRecords` collects when its bound is above
the number of records. -/
theorem Drains.collect {conn last : Conn} {rs : List Record} (hd : Drains conn rs last) :
    ∀ (n : Nat) (acc : List Record), rs.length < n →
      getRecordsLoop n conn acc = (acc ++ rs, last) := by
  induction hd with
  | stop conn last h =>
    intro n acc hn
    cases n with
    | zero => simp at hn
    | succ n => simp [getRecordsLoop, h]
  | more conn conn1 last records h _ ih =>
    intro n acc hn
    cases n with
    | zero => simp at hn
    | succ n =>
      have := ih n (acc ++ [conn1.Read]) (by simpa using hn)
      simp [getRecordsLoop, h, this]

/-- C20: for a dataset `D` whose full drain yields the records `rs` and no error and
a limit `N`, a connection opens on the truncating decorator of `D` and `N`, and its
full drain yields, with no error, the first `min N rs.length` records of `rs`, in
order; a further `Next` returns false. -/
theorem C20_truncate_drain (fs : os.FS) (D : Dataset) (N : Nat) (conn : Conn)
    (rs : List Record) (hO : D.Open fs = .ok conn)
    (hdrain : getRecords conn (rs.length + 1) = (rs, none)) :
    ∃ tconn, (New D N).Open fs = .ok tconn ∧
      getRecords tconn (min N rs.length + 1) = (rs.take (min N rs.length), none) ∧
      (rs.take (min N rs.length)).length = min N rs.length ∧
      ((getRecordsLoop (min N rs.length + 1) tconn []).2.Next).1 = false := by
  unfold getRecords at hdrain
  simp only [Prod.mk.injEq] at hdrain
  obtain ⟨h1, h2⟩ := hdrain
  have hL : getRecordsLoop (rs.length + 1) conn [] =
      (rs, (getRecordsLoop (rs.length + 1) conn []).2) := Prod.ext h1 rfl
  obtain ⟨rs1, hrs, hd⟩ := getRecordsLoop_isDrain (rs.length + 1) conn [] rs _ hL (by simp)
  rw [List.nil_append] at hrs
  subst hrs
  obtain ⟨tlast, hdt, herrt, hnextt⟩ := hd.truncate h2 N 0 (Nat.zero_le N)
  have htake : rs.take (N - 0) = rs.take (min N rs.length) := by
    rw [Nat.sub_zero, List.take_eq_take]
    simp
  rw [htake] at hdt
  have hlen : (rs.take (min N rs.length)).length = min N rs.length := by
    rw [List.length_take]
    omega
  have hcollect := hdt.collect (min N rs.length + 1) [] (by omega)
  rw [List.nil_append] at hcollect
  refine ⟨.dtruncate conn N 0, by simp [New, Dataset.Open, hO], ?_, hlen, ?_⟩
  · unfold getRecords
    rw [hcollect]
    simp [herrt]
  · rw [hcollect]
    exact hnextt

/-- C20 at the sample file of two good rows: with the limit 1 the drain yields the
first record, with the limit 5 both. -/
theorem C20_truncate_drain_witness :
    ((Dataset.dcsv sample.dsGood false).Open sample.fsGood =
        .ok (.base (.dcsv sample.connGood)) ∧
      getRecords (.base (.dcsv sample.connGood)) (sample.rsGood.length + 1) =
        (sample.rsGood, none)) ∧
    (∃ tconn, (New (Dataset.dcsv sample.dsGood false) 1).Open sample.fsGood = .ok tconn ∧
      getRecords tconn (min 1 sample.rsGood.length + 1) =
        (sample.rsGood.take (min 1 sample.rsGood.length), none) ∧
      (sample.rsGood.take (min 1 sample.rsGood.length)).length = min 1 sample.rsGood.length ∧
      ((getRecordsLoop (min 1 sample.rsGood.length + 1) tconn []).2.Next).1 = false) ∧
    (∃ tconn, (New (Dataset.dcsv sample.dsGood false) 5).Open sample.fsGood = .ok tconn ∧
      getRecords tconn (min 5 sample.rsGood.length + 1) =
        (sample.rsGood.take (min 5 sample.rsGood.length), none) ∧
      (sample.rsGood.take (min 5 sample.rsGood.length)).length = min 5 sample.rsGood.length ∧
      ((getRecordsLoop (min 5 sample.rsGood.length + 1) tconn []).2.Next).1 = false) :=
  ⟨⟨rfl, by decide⟩,
    C20_truncate_drain sample.fsGood (Dataset.dcsv sample.dsGood false) 1
      (.base (.dcsv sample.connGood)) sample.rsGood rfl (by decide),
    C20_truncate_drain sample.fsGood (Dataset.dcsv sample.dsGood false) 5
      (.base (.dcsv sample.connGood)) sample.rsGood rfl (by decide)⟩

end dtruncate

namespace dcopy

open ddataset dcsv

end dcopy

/-! ## Theorems: a header that cannot be read, and a second release -/

namespace dcsv

/-- C26: for a dataset with the header flag set whose file opens, when the first
read of the file fails with the error `e`, `Open` returns no connection and fails
with `e`; for a file without any record `e` is `io.EOF`. -/
theorem C26_header_read_failure (fs : os.FS) (d : DCSV) (fd : os.FileData) (e : Error)
    (hh : d.hasHeader = true) (hf : fs.lookup d.filename = some fd)
    (ho : fd.openErr = none) (hread : (csv.NewReader fd.rows).Read.1.2 = some e) :
    DCSV.Open fs d = .error e ∧ (fd.rows = [] → e = .EOF) := by
  constructor
  · rcases hr : (csv.NewReader fd.rows).Read with ⟨⟨row, oe⟩, r'⟩
    rw [hr] at hread
    simp only at hread
    subst hread
    simp [DCSV.Open, makeCsvReader, os.Open, hf, ho, hh, hr]
  · intro hrows
    rw [hrows] at hread
    simpa [csv.NewReader, csv.Reader.Read] using hread.symm

/-- C26 on the file without any record `empty.csv` and on the file whose first
record is malformed `badfirst.csv`, both read with the header flag set. -/
theorem C26_header_read_failure_witness :
    (DCSV.Open sample.fsEmpty (New "empty.csv" true ',' ["a", "b"]) = .error .EOF ∧
      (([] : List csv.RawRow) = [] → Error.EOF = .EOF)) ∧
    (DCSV.Open sample.fsEmpty (New "badfirst.csv" true ',' ["a", "b"]) =
        .error (.csvParseError "bare quote") ∧
      ([csv.RawRow.malformed "bare quote", .row ["1", "2"]] = [] →
        Error.csvParseError "bare quote" = .EOF)) :=
  ⟨C26_header_read_failure sample.fsEmpty (New "empty.csv" true ',' ["a", "b"])
      { rows := [], openErr := none, closeErr := none } .EOF rfl (by decide) rfl rfl,
    C26_header_read_failure sample.fsEmpty (New "badfirst.csv" true ',' ["a", "b"])
      { rows := [.malformed "bare quote", .row ["1", "2"]], openErr := none, closeErr := none }
      (.csvParseError "bare quote") rfl (by decide) rfl rfl⟩

end dcsv

namespace dcopy

/-- C25: the first `Release` of a copy marks it released and returns what
`os.RemoveAll` returns, so the failure of a deletion that fails; every later
`Release`, on any file system, returns `ErrReleased` and leaves the file system
and the copy as they are, and `Open` returns `ErrReleased`. -/
theorem C25_release_marks_released (fs : os.FS) (d : DCopy) (h : d.isReleased = false) :
    (d.Release fs).2.1.isReleased = true ∧
      (d.Release fs).1 = fs.removeAllErr d.tmpDir ∧
      ∀ fs2 : os.FS,
        (d.Release fs).2.1.Release fs2 = (some .ErrReleased, (d.Release fs).2.1, fs2) ∧
          (d.Release fs).2.1.Open fs2 = .error .ErrReleased := by
  have hrel : d.Release fs =
      ((os.RemoveAll fs d.tmpDir).1, { d with isReleased := true },
        (os.RemoveAll fs d.tmpDir).2) := by
    simp [DCopy.Release, h]
  rw [hrel]
  refine ⟨rfl, ?_, ?_⟩
  · cases hrm : fs.removeAllErr d.tmpDir <;> simp [os.RemoveAll, hrm]
  · intro fs2
    exact ⟨by simp [DCopy.Release], by simp [DCopy.Open]⟩

/-- C25 on a copy whose private store cannot be removed. -/
theorem C25_release_marks_released_witness :
    sample.copy.isReleased = false ∧
      (sample.copy.Release sample.fsNoRemove).2.1.isReleased = true ∧
      (sample.copy.Release sample.fsNoRemove).1 =
        sample.fsNoRemove.removeAllErr sample.copy.tmpDir ∧
      ∀ fs2 : os.FS,
        (sample.copy.Release sample.fsNoRemove).2.1.Release fs2 =
            (some .ErrReleased, (sample.copy.Release sample.fsNoRemove).2.1, fs2) ∧
          (sample.copy.Release sample.fsNoRemove).2.1.Open fs2 = .error .ErrReleased :=
  ⟨rfl, C25_release_marks_released sample.fsNoRemove sample.copy rfl⟩

end dcopy

/-! ## Theorems: the record and the closed state of a connection -/

namespace dcsv

/-- A call of `Next` that returns false leaves the current record. -/
theorem DCSVConn.Next_false_record (cc : DCSVConn) (h : cc.Next.1 = false) :
    cc.Next.2.currentRecord = cc.currentRecord := by
  rcases (DCSVConn.Next_cases cc).2 with ⟨_, h2⟩ | ⟨h1, _⟩
  · exact h2
  · rw [h] at h1
    exact absurd h1 (by decide)

/-- Calls among which every `Next` returns false leave the current record. -/
theorem DCSVConn.run_allNextFalse (ops : List Op) :
    ∀ cc : DCSVConn, allNextFalse cc ops → (cc.run ops).currentRecord = cc.currentRecord := by
  induction ops with
  | nil => intro cc _; rfl
  | cons op ops ih =>
    intro cc h
    obtain ⟨h1, h2⟩ := h
    have hstep : (cc.step op).currentRecord = cc.currentRecord := by
      cases op with
      | Next => exact DCSVConn.Next_false_record cc (h1 rfl)
      | Read => rfl
      | Err => rfl
      | Close => rfl
    show ((cc.step op).run ops).currentRecord = cc.currentRecord
    rw [ih (cc.step op) h2, hstep]

/-- C24: calls of `Next`, `Read`, `Err` and `Close` among which every `Next` returns
false leave the current record as it was, so `Read` afterwards returns what it
returned before them: the record of the last `Next` that returned true, and the
empty record on a connection that `Open` has just returned.  In particular a row
whose cell count is not the declared one makes `Next` return false and leaves the
record whole. -/
theorem C24_false_Next_keeps_record (cc : DCSVConn) (ops : List Op)
    (h : allNextFalse cc ops) :
    (cc.run ops).Read = cc.Read ∧
      (∀ (fs : os.FS) (d : DCSV), DCSV.Open fs d = .ok cc → (cc.run ops).Read = []) ∧
      (∀ (r r' : csv.Reader) (row : List String), cc.err = none → cc.reader = some r →
        r.Read = ((row, none), r') → row.length ≠ cc.dataset.fieldNames.length →
        cc.Next.1 = false ∧ cc.Next.2.Read = cc.Read) := by
  have hrun := DCSVConn.run_allNextFalse ops cc h
  refine ⟨hrun, ?_, ?_⟩
  · intro fs d hopen
    show (cc.run ops).currentRecord = []
    rw [hrun]
    exact (DCSV.Open_fresh fs d cc hopen).2.1
  · intro r r' row herr hr hread hlen
    rw [DCSVConn.Next_wrong cc r r' row herr hr hread hlen]
    exact ⟨rfl, rfl⟩

end dcsv

namespace dcsv

/-- C24 on the sample connection after its two good rows: the third `Next` fails on
the row of four cells, and the record of the second row stays through the calls
that follow. -/
theorem C24_false_Next_keeps_record_witness :
    allNextFalse (sample.conn.run [.Next, .Next]) [.Next, .Read, .Next, .Close, .Next, .Err] ∧
      (((sample.conn.run [.Next, .Next]).run [.Next, .Read, .Next, .Close, .Next, .Err]).Read =
          (sample.conn.run [.Next, .Next]).Read ∧
        (∀ (fs : os.FS) (d : DCSV), DCSV.Open fs d = .ok (sample.conn.run [.Next, .Next]) →
          ((sample.conn.run [.Next, .Next]).run
            [.Next, .Read, .Next, .Close, .Next, .Err]).Read = []) ∧
        (∀ (r r' : csv.Reader) (row : List String),
          (sample.conn.run [.Next, .Next]).err = none →
          (sample.conn.run [.Next, .Next]).reader = some r →
          r.Read = ((row, none), r') →
          row.length ≠ (sample.conn.run [.Next, .Next]).dataset.fieldNames.length →
          (sample.conn.run [.Next, .Next]).Next.1 = false ∧
            (sample.conn.run [.Next, .Next]).Next.2.Read =
              (sample.conn.run [.Next, .Next]).Read)) :=
  ⟨by decide,
    C24_false_Next_keeps_record (sample.conn.run [.Next, .Next])
      [.Next, .Read, .Next, .Close, .Next, .Err] (by decide)⟩

/-- A connection as `Open` returns it has its file and its reader. -/
theorem DCSV.Open_file (fs : os.FS) (d : DCSV) (cc : DCSVConn) (h : DCSV.Open fs d = .ok cc) :
    cc.file ≠ none ∧ cc.reader ≠ none ∧ cc.err = none := by
  unfold DCSV.Open at h
  split at h
  · cases h
  · injection h with h
    subst h
    simp

/-- Every call keeps `closedInv`. -/
theorem DCSVConn.step_closedInv (cc : DCSVConn) (op : Op) (h : cc.closedInv) :
    (cc.step op).closedInv := by
  obtain ⟨h1, h2⟩ := h
  cases op with
  | Read => exact ⟨h1, h2⟩
  | Err => exact ⟨h1, h2⟩
  | Close =>
    refine ⟨fun _ => ⟨rfl, rfl⟩, ?_⟩
    show (none : Option csv.Reader) = none ↔ (none : Option os.File) = none
    exact ⟨fun _ => rfl, fun _ => rfl⟩
  | Next =>
    show cc.Next.2.closedInv
    cases herr : cc.err with
    | some e =>
      rw [DCSVConn.Next_of_err cc e herr]
      exact ⟨h1, h2⟩
    | none =>
      cases hr : cc.reader with
      | none =>
        have hf : cc.file = none := h2.1 hr
        have hn : cc.Next = (false, { cc with err := some Error.ErrConnClosed }) := by
          simp [DCSVConn.Next, herr, hr]
        rw [hn]
        exact ⟨fun _ => ⟨hr, hf⟩, h2⟩
      | some r =>
        rcases hread : r.Read with ⟨⟨row, oe⟩, r'⟩
        cases oe with
        | some e =>
          by_cases he : e = .EOF
          · subst he
            have : r.Read.1.2 = some .EOF := by rw [hread]
            rw [DCSVConn.Next_eof cc r herr hr this]
            exact ⟨h1, h2⟩
          · rw [DCSVConn.Next_readErr cc r r' row e herr hr hread he]
            exact ⟨fun _ => ⟨rfl, rfl⟩, ⟨fun _ => rfl, fun _ => rfl⟩⟩
        | none =>
          by_cases hlen : row.length = cc.dataset.fieldNames.length
          · rw [DCSVConn.Next_row cc r r' row herr hr hread hlen]
            have hf : cc.file ≠ none := fun hf => by
              have := h2.2 hf
              rw [hr] at this
              cases this
            refine ⟨fun hne => absurd herr hne, ?_⟩
            constructor
            · intro hnone
              cases hnone
            · intro hnone
              exact absurd hnone hf
          · rw [DCSVConn.Next_wrong cc r r' row herr hr hread hlen]
            exact ⟨fun _ => ⟨rfl, rfl⟩, ⟨fun _ => rfl, fun _ => rfl⟩⟩

/-- Every sequence of calls keeps `closedInv`. -/
theorem DCSVConn.run_closedInv (ops : List Op) :
    ∀ cc : DCSVConn, cc.closedInv → (cc.run ops).closedInv := by
  induction ops with
  | nil => intro cc h; exact h
  | cons op ops ih =>
    intro cc h
    exact ih (cc.step op) (DCSVConn.step_closedInv cc op h)

/-- C23: in the state of a connection that `Open` returned, after any sequence of
calls of `Next`, `Read`, `Err` and `Close`: when the latched error is not nil the
reader and the file are both cleared, and the reader is cleared exactly when the
file is. -/
theorem C23_latched_error_means_closed (fs : os.FS) (d : DCSV) (cc : DCSVConn)
    (ops : List Op) (h : DCSV.Open fs d = .ok cc) :
    ((cc.run ops).Err ≠ none → (cc.run ops).reader = none ∧ (cc.run ops).file = none) ∧
      ((cc.run ops).reader = none ↔ (cc.run ops).file = none) := by
  obtain ⟨hf, hr, he⟩ := DCSV.Open_file fs d cc h
  have h0 : cc.closedInv :=
    ⟨fun hne => absurd he hne, ⟨fun hn => absurd hn hr, fun hn => absurd hn hf⟩⟩
  exact DCSVConn.run_closedInv ops cc h0

/-- C23 on the sample dataset, whose third data row makes `Next` fail. -/
theorem C23_latched_error_means_closed_witness :
    ((sample.conn.run [.Next, .Next, .Next, .Read, .Next]).Err ≠ none →
        (sample.conn.run [.Next, .Next, .Next, .Read, .Next]).reader = none ∧
          (sample.conn.run [.Next, .Next, .Next, .Read, .Next]).file = none) ∧
      ((sample.conn.run [.Next, .Next, .Next, .Read, .Next]).reader = none ↔
        (sample.conn.run [.Next, .Next, .Next, .Read, .Next]).file = none) :=
  C23_latched_error_means_closed sample.fs sample.ds sample.conn
    [.Next, .Next, .Next, .Read, .Next] rfl

end dcsv

/-! ## Theorems: the count of a truncated dataset -/

namespace dtruncate

open ddataset

/-- The count of the row source is a number of records or the sentinel -1. -/
theorem dcsv_NumRecords_sentinel (fs : os.FS) (d : dcsv.DCSV) :
    0 ≤ dcsv.NumRecords fs d ∨ dcsv.NumRecords fs d = -1 := by
  unfold dcsv.NumRecords
  cases dcsv.DCSV.Open fs d with
  | error e => exact Or.inr rfl
  | ok conn =>
    simp only
    split
    · exact Or.inr rfl
    · exact Or.inl (Int.ofNat_nonneg _)

/-- The count of any dataset is a number of records or the sentinel -1. -/
theorem Dataset.NumRecords_sentinel (fs : os.FS) (D : Dataset) :
    0 ≤ D.NumRecords fs ∨ D.NumRecords fs = -1 := by
  induction D with
  | dcsv d b => exact dcsv_NumRecords_sentinel fs d
  | dcopy d => exact dcsv_NumRecords_sentinel fs d.dataset
  | dtruncate D n ih =>
    simp only [Dataset.NumRecords]
    rcases ih with h | h
    · left
      rw [if_pos h]
      exact le_min h (Int.ofNat_nonneg n)
    · right
      rw [h]
      rfl

/-- C21: the count of the truncating decorator of `D` and `N` is the minimum of the
count of `D` and `N` when the count of `D` is not negative, and is the count of
`D`, the negative sentinel -1, unchanged when the count of `D` is negative. -/
theorem C21_truncate_NumRecords (fs : os.FS) (D : Dataset) (N : Nat) :
    (0 ≤ D.NumRecords fs → (New D N).NumRecords fs = min (D.NumRecords fs) (N : Int)) ∧
      (D.NumRecords fs < 0 →
        (New D N).NumRecords fs = D.NumRecords fs ∧ D.NumRecords fs = -1) := by
  constructor
  · intro h
    simp only [New, Dataset.NumRecords]
    rw [if_pos h]
  · intro h
    have hneg : ¬ 0 ≤ D.NumRecords fs := by omega
    refine ⟨?_, ?_⟩
    · simp only [New, Dataset.NumRecords]
      rw [if_neg hneg]
    · rcases Dataset.NumRecords_sentinel fs D with h0 | h0
      · exact absurd h0 hneg
      · exact h0

/-- C21 at the sample file of two good rows truncated to one record and to five,
and at the sample file whose third data row fails truncated to three records. -/
theorem C21_truncate_NumRecords_witness :
    (0 ≤ (Dataset.dcsv sample.dsGood false).NumRecords sample.fsGood ∧
      (New (Dataset.dcsv sample.dsGood false) 1).NumRecords sample.fsGood =
        min ((Dataset.dcsv sample.dsGood false).NumRecords sample.fsGood) ((1 : Nat) : Int) ∧
      (New (Dataset.dcsv sample.dsGood false) 1).NumRecords sample.fsGood = 1) ∧
    (0 ≤ (Dataset.dcsv sample.dsGood false).NumRecords sample.fsGood ∧
      (New (Dataset.dcsv sample.dsGood false) 5).NumRecords sample.fsGood =
        min ((Dataset.dcsv sample.dsGood false).NumRecords sample.fsGood) ((5 : Nat) : Int) ∧
      (New (Dataset.dcsv sample.dsGood false) 5).NumRecords sample.fsGood = 2) ∧
    ((Dataset.dcsv sample.ds false).NumRecords sample.fs < 0 ∧
      (New (Dataset.dcsv sample.ds false) 3).NumRecords sample.fs =
        (Dataset.dcsv sample.ds false).NumRecords sample.fs ∧
      (Dataset.dcsv sample.ds false).NumRecords sample.fs = -1) :=
  ⟨⟨by decide,
      (C21_truncate_NumRecords sample.fsGood (Dataset.dcsv sample.dsGood false) 1).1
        (by decide), by decide⟩,
    ⟨by decide,
      (C21_truncate_NumRecords sample.fsGood (Dataset.dcsv sample.dsGood false) 5).1
        (by decide), by decide⟩,
    ⟨by decide,
      (C21_truncate_NumRecords sample.fs (Dataset.dcsv sample.ds false) 3).2 (by decide)⟩⟩

end dtruncate

/-! ## Theorems: a released dataset -/

namespace dtruncate

open ddataset

end dtruncate

/-! ## Theorems: two connections of one dataset in memory -/

namespace dcsv

open ddataset

end dcsv

namespace dcsv

open ddataset

end dcsv

namespace dcsv

open ddataset

end dcsv

namespace dcsv

open ddataset

end dcsv

namespace dcsv

open ddataset

end dcsv

namespace dcsv

end dcsv
